import Mathlib

/-!
# Link-layer lab tools: learning switch, VLAN-aware switch and ARP tool

A shallow embedding of `switch.c`, `vswitch.c` and `arp.c`.

Conventions of the embedding

* a byte is a `Nat`; a frame is the list of its bytes, and `frame_size` is the
  length of that list;
* a `struct Interface *` is the index of the pointed-to element of `gifc`
  (every such pointer in the sources is `&gifc[i]`);
* the learning table is the list of its used entries
  `switchCache[0 .. switchTableIndex)`, so `switchTableIndex` is its length;
* the bytes handed to `write_all` by one call of `forward_to` are one element
  of the output list of `parse_frame`;
* the host is little-endian with 8-byte pointers (x86-64): a `uint16_t` read
  from memory is `lo + 256 * hi`, and `htons` swaps the two bytes.
-/

/-- Modelled from the spec: the 6-byte hardware address `struct MacAddress` of
`glab.h`, which is not among the sources; `m0 .. m5` are `mac[0] .. mac[5]`. -/
structure MacAddress where
  m0 : Nat
  m1 : Nat
  m2 : Nat
  m3 : Nat
  m4 : Nat
  m5 : Nat
deriving DecidableEq, Repr, Inhabited

namespace MacAddress

/-- The six bytes of an address in memory order. -/
def bytes (a : MacAddress) : List Nat := [a.m0, a.m1, a.m2, a.m3, a.m4, a.m5]

/-- The address whose six bytes are zero (what `memset` leaves in a port). -/
def zero : MacAddress := ⟨0, 0, 0, 0, 0, 0⟩

/-- The address `FF:FF:FF:FF:FF:FF`. -/
def broadcast : MacAddress := ⟨0xFF, 0xFF, 0xFF, 0xFF, 0xFF, 0xFF⟩

end MacAddress

/-- The libc `memcmp` over two equally long byte ranges: zero when they agree,
otherwise the difference of the first pair of bytes that differ. -/
def memcmp : List Nat → List Nat → Int
  | a :: as, b :: bs => if a = b then memcmp as bs else (a : Int) - (b : Int)
  | _, _ => 0

/-- `maccmp`: `memcmp` over `sizeof (struct MacAddress)` bytes. -/
def maccmp (macAddress1 macAddress2 : MacAddress) : Int :=
  memcmp macAddress1.bytes macAddress2.bytes

/-- The six bytes of `frame` starting at offset `off`, as an address
(the result of `memcpy` into a `struct MacAddress`). -/
def readMac (frame : List Nat) (off : Nat) : MacAddress :=
  ⟨frame.getD off 0, frame.getD (off + 1) 0, frame.getD (off + 2) 0,
   frame.getD (off + 3) 0, frame.getD (off + 4) 0, frame.getD (off + 5) 0⟩

/-- A `uint16_t` read from the two bytes of `frame` at offset `off`. -/
def readU16 (frame : List Nat) (off : Nat) : Nat :=
  frame.getD off 0 + 256 * frame.getD (off + 1) 0

/-- `htons` on a little-endian host: the two bytes of a 16-bit value swapped. -/
def htons (x : Nat) : Nat := (x % 256) * 256 + (x / 256) % 256

/-- The two bytes a `uint16_t` occupies in memory. -/
def storeU16 (x : Nat) : List Nat := [x % 256, (x / 256) % 256]

/-- `sizeof (struct GLAB_MessageHeader)`: two 16-bit fields, `size` and `type`. -/
def sizeof_GLAB_MessageHeader : Nat := 4

/-- The buffer `iob` that `forward_to` hands to `write_all`: the header with
`size = htons (sizeof (iob))` and `type = htons (dst->ifc_num)`, then the first
`frame_size` bytes of the frame. -/
def forward_to_iob (ifc_num : Nat) (frame : List Nat) (frame_size : Nat) : List Nat :=
  storeU16 (htons ((frame_size + sizeof_GLAB_MessageHeader) % 65536))
    ++ storeU16 (htons (ifc_num % 65536))
    ++ frame.take frame_size

/-- How a handler ends: normally with a value, in `abort ()`, or by using
`gifc[-1]`, an element outside the port array. -/
inductive Outcome (α : Type) where
  | ok (a : α)
  | aborted
  | outOfBounds
deriving DecidableEq, Repr

/-! ## switch.c -/

namespace Switch

/-- Header of a frame: `struct EthernetHeader` (packed, 14 bytes). -/
structure EthernetHeader where
  dst : MacAddress
  src : MacAddress
  tag : Nat
deriving DecidableEq, Repr

/-- `sizeof (struct EthernetHeader)`. -/
def sizeof_EthernetHeader : Nat := 14

/-- Per-interface context. -/
structure Interface where
  mac : MacAddress
  ifc_num : Nat
deriving DecidableEq, Repr, Inhabited

/-- One entry of the cache of known addresses. -/
structure SwitchCache where
  interface : Nat
  macAddress : MacAddress
deriving DecidableEq, Repr

/-- Capacity of the learning table. -/
def TABLE_SIZE : Nat := 1024

/-- The globals of `switch.c`: the ports (`num_ifc` is the length of `gifc`) and
the used part of `switchCache`. -/
structure State where
  gifc : List Interface
  switchCache : List SwitchCache
deriving DecidableEq, Repr

/-- Number of available contexts. -/
def State.num_ifc (s : State) : Nat := s.gifc.length

/-- The index one past the last used table entry. -/
def State.switchTableIndex (s : State) : Nat := s.switchCache.length

/-- The element `gifc[i]` a port pointer refers to (`handle_frame` only passes
pointers into the array; outside it the model reads a zeroed port). -/
def State.ifc (s : State) (i : Nat) : Interface := s.gifc.getD i default

/-- `memcpy (&eh, frame, sizeof (eh))`. -/
def readHeader (frame : List Nat) : EthernetHeader :=
  ⟨readMac frame 0, readMac frame 6, readU16 frame 12⟩

/-- `forward_to`: the bytes written for one frame sent out on `dst`. -/
def forward_to (dst : Interface) (frame : List Nat) (frame_size : Nat) : List Nat :=
  forward_to_iob dst.ifc_num frame frame_size

/-- First loop of `parse_frame`: is the source address in the table? -/
def srcAddressExists (src : MacAddress) (t : List SwitchCache) : Bool :=
  t.any (fun e => maccmp src e.macAddress == 0)

/-- The learning step of `parse_frame`: append `(ifc, src)` when the source is
unknown and the table has room. -/
def learn (t : List SwitchCache) (ifc : Nat) (src : MacAddress) : List SwitchCache :=
  if (!srcAddressExists src t) && decide (t.length < TABLE_SIZE) then
    t ++ [⟨ifc, src⟩]
  else t

/-- Second loop of `parse_frame`: the first entry whose address is `dst`. -/
def lookup (t : List SwitchCache) (dst : MacAddress) : Option SwitchCache :=
  t.find? (fun e => maccmp dst e.macAddress == 0)

/-- Third loop of `parse_frame`: one copy to every port whose address differs
from that of the port the frame came in on. -/
def flood (s : State) (ifc : Nat) (frame : List Nat) : List (List Nat) :=
  (s.gifc.filter (fun g => maccmp (s.ifc ifc).mac g.mac != 0)).map
    (fun g => forward_to g frame frame.length)

/-- The forwarding part of `parse_frame` (lines 160-175), on the table after
learning. -/
def forward (s : State) (ifc : Nat) (frame : List Nat) : List (List Nat) :=
  match lookup s.switchCache (readHeader frame).dst with
  | some e => [forward_to (s.ifc e.interface) frame frame.length]
  | none => flood s ifc frame

/-- Parse and process a frame received on port `ifc`: the new globals and the
buffers written, in order. -/
def parse_frame (s : State) (ifc : Nat) (frame : List Nat) : State × List (List Nat) :=
  if frame.length < sizeof_EthernetHeader then (s, [])
  else
    let eh := readHeader frame
    let s1 : State := { s with switchCache := learn s.switchCache ifc eh.src }
    (s1, forward s1 ifc frame)

/-- `handle_frame`: abort when `interface > num_ifc`, else process the frame on
`&gifc[interface - 1]`. -/
def handle_frame (s : State) (interface : Nat) (frame : List Nat) :
    Outcome (State × List (List Nat)) :=
  if interface > s.num_ifc then .aborted
  else if interface = 0 then .outOfBounds
  else .ok (parse_frame s (interface - 1) frame)

/-- `handle_mac`: abort when `ifc_num > num_ifc`, else store the address in
`gifc[ifc_num - 1]`. -/
def handle_mac (s : State) (ifc_num : Nat) (mac : MacAddress) : Outcome State :=
  if ifc_num > s.num_ifc then .aborted
  else if ifc_num = 0 then .outOfBounds
  else .ok { s with gifc := s.gifc.set (ifc_num - 1) { s.ifc (ifc_num - 1) with mac := mac } }

/-- The ports `main` sets up for `n` command-line arguments: zeroed, numbered
from 1. -/
def main_ifc (n : Nat) : List Interface :=
  (List.range n).map (fun i => ⟨MacAddress.zero, i + 1⟩)

/-- The globals when `loop` is entered, for a given port array. -/
def start (gifc : List Interface) : State := ⟨gifc, []⟩

/-- What the transport delivers: a frame for a port, or an address for a port. -/
inductive Event where
  | frame (interface : Nat) (bytes : List Nat)
  | mac (ifc_num : Nat) (mac : MacAddress)
deriving DecidableEq, Repr

/-- One event; `none` when the handler does not return normally. -/
def step (s : State) : Event → Option State
  | .frame n f =>
    match handle_frame s n f with
    | .ok r => some r.1
    | _ => none
  | .mac n m =>
    match handle_mac s n m with
    | .ok s1 => some s1
    | _ => none

/-- A sequence of events, processed one after the other. -/
def run : State → List Event → Option State
  | s, [] => some s
  | s, e :: es =>
    match step s e with
    | some s1 => run s1 es
    | none => none

end Switch

/-! ## vswitch.c -/

namespace VSwitch

/-- Maximum number of VLANs supported per interface. -/
def MAX_VLANS : Nat := 4092

/-- Value used to indicate "no VLAN" (or no more VLANs). -/
def NO_VLAN : Int := -1

/-- The VLAN assumed for interfaces given without any specification. -/
def DEFAULT_VLAN : Int := 0

/-- Header of a frame: `struct EthernetHeader` (packed, 16 bytes). -/
structure EthernetHeader where
  dst : MacAddress
  src : MacAddress
  tag : Nat
  vlanId : Nat
deriving DecidableEq, Repr

/-- `sizeof (struct EthernetHeader)`. -/
def sizeof_EthernetHeader : Nat := 16

/-- `sizeof (frame1)` for `const uint8_t *frame1`. -/
def sizeof_pointer : Nat := 8

/-- Capacity of the learning table (`switchCache[500]`). -/
def TABLE_SIZE : Nat := 500

/-- Per-interface context; `tagged_vlans` is the array up to and including its
`NO_VLAN` terminator. -/
structure Interface where
  mac : MacAddress
  ifc_num : Nat
  ifc_name : String
  tagged_vlans : List Int
  untagged_vlan : Int
deriving DecidableEq, Repr, Inhabited

/-- One entry of the cache of known addresses. -/
structure SwitchCache where
  interface : Nat
  macAddress : MacAddress
deriving DecidableEq, Repr

/-- The globals of `vswitch.c`. -/
structure State where
  gifc : List Interface
  switchCache : List SwitchCache
deriving DecidableEq, Repr

/-- Number of available contexts. -/
def State.num_ifc (s : State) : Nat := s.gifc.length

/-- The index one past the last used table entry. -/
def State.switchTableIndex (s : State) : Nat := s.switchCache.length

/-- The element `gifc[i]` a port pointer refers to. -/
def State.ifc (s : State) (i : Nat) : Interface := s.gifc.getD i default

/-- `memcpy (&ethernetHeader, frame, sizeof (ethernetHeader))` followed by
`ethernetHeader.vlanId = htons (ethernetHeader.vlanId)`. -/
def readHeader (frame : List Nat) : EthernetHeader :=
  ⟨readMac frame 0, readMac frame 6, readU16 frame 12, htons (readU16 frame 14)⟩

/-- `forward_to`: the bytes written for one frame sent out on `dst`. -/
def forward_to (dst : Interface) (frame : List Nat) (frame_size : Nat) : List Nat :=
  forward_to_iob dst.ifc_num frame frame_size

/-- The loop `for (j = 0; vlans[j] != v; j++) if (vlans[j] == NO_VLAN) ...`:
`true` when it leaves through its condition (an element equal to `v` comes
first), `false` when it meets `NO_VLAN` first. -/
def scan_vlans : List Int → Int → Bool
  | [], _ => false
  | x :: xs, v => if x = v then true else if x = NO_VLAN then false else scan_vlans xs v

/-- Lines 255-270 of `parse_frame`: does the frame pass the ingress check of
port `p`? -/
def admitted (p : Interface) (eh : EthernetHeader) : Bool :=
  if eh.tag = 0x0081 then
    if !scan_vlans p.tagged_vlans eh.vlanId then false
    else if p.untagged_vlan ≠ NO_VLAN then false
    else true
  else
    if p.untagged_vlan = NO_VLAN then false
    else true

/-- The loop of lines 273-278: is there an entry for `src`? -/
def foundEntry (src : MacAddress) (t : List SwitchCache) : Bool :=
  t.any (fun e => maccmp e.macAddress src == 0)

/-- The same loop's effect on the table: every entry for `src` now points to
`ifc`. -/
def rehome (t : List SwitchCache) (ifc : Nat) (src : MacAddress) : List SwitchCache :=
  t.map (fun e => if maccmp e.macAddress src = 0 then { e with interface := ifc } else e)

/-- The learning step of `parse_frame` (lines 272-285). -/
def learn (t : List SwitchCache) (ifc : Nat) (src : MacAddress) : List SwitchCache :=
  if (!foundEntry src t) && decide (t.length < TABLE_SIZE) then
    rehome t ifc src ++ [⟨ifc, src⟩]
  else rehome t ifc src

/-- The first entry whose address is `dst` (loop of line 291). -/
def lookup (t : List SwitchCache) (dst : MacAddress) : Option SwitchCache :=
  t.find? (fun e => maccmp dst e.macAddress == 0)

/-- Lines 293-336: what is written when the destination is the table entry `e`.
`mem` is the 12 bytes of memory at the address of the local pointer `frame1`,
which line 297 copies to the head of `frame2`. The copy of line 298 runs 4
bytes past the end of `frame` and of `frame2`; the bytes that land inside
`frame2` are `frame[16 ..]`, and only those are sent. Line 333 sends
`sizeof (frame1)` bytes of the unchanged frame. -/
def hit (s : State) (ifc : Nat) (eh : EthernetHeader) (frame mem : List Nat)
    (e : SwitchCache) : List (List Nat) :=
  let q := s.ifc e.interface
  if eh.tag = htons 0x8100 then
    if (eh.vlanId : Int) = q.untagged_vlan then
      [forward_to q (mem.take 12 ++ frame.drop 16) (frame.length - 4)]
    else if !scan_vlans q.tagged_vlans eh.vlanId then []
    else [forward_to q frame frame.length]
  else
    if (s.ifc ifc).untagged_vlan = q.untagged_vlan then
      [forward_to q frame frame.length]
    else if !scan_vlans q.tagged_vlans (s.ifc ifc).untagged_vlan then []
    else [forward_to q frame sizeof_pointer]

/-- Lines 341-416: what the flood loop writes for the port `g`. The copy of line
350 runs 4 bytes past the end of `frame` and of `frame2`; the bytes that land
inside `frame2` are `frame[16 ..]`. The tag of line 396 is the constant
`{0x0081, 0x0100}`, in memory `81 00 00 01`. -/
def floodOne (s : State) (ifc : Nat) (eh : EthernetHeader) (frame : List Nat)
    (g : Interface) : List (List Nat) :=
  if maccmp (s.ifc ifc).mac g.mac ≠ 0 then
    if eh.tag = htons 0x8100 then
      if (eh.vlanId : Int) = g.untagged_vlan then
        [forward_to g (frame.take 12 ++ frame.drop 16) (frame.length - 4)]
      else if scan_vlans g.tagged_vlans eh.vlanId then
        [forward_to g frame frame.length]
      else []
    else
      if (s.ifc ifc).untagged_vlan = g.untagged_vlan then
        [forward_to g frame frame.length]
      else if scan_vlans g.tagged_vlans (s.ifc ifc).untagged_vlan then
        [forward_to g
          (frame.take 12 ++ (storeU16 0x0081 ++ storeU16 0x0100) ++ frame.drop 12)
          (frame.length + 4)]
      else []
  else []

/-- The flood loop of lines 340-417. -/
def flood (s : State) (ifc : Nat) (eh : EthernetHeader) (frame : List Nat) :
    List (List Nat) :=
  (s.gifc.map (floodOne s ifc eh frame)).flatten

/-- The forwarding part of `parse_frame` (lines 291-417), on the table after
learning. -/
def forward (s : State) (ifc : Nat) (frame mem : List Nat) : List (List Nat) :=
  match lookup s.switchCache (readHeader frame).dst with
  | some e => hit s ifc (readHeader frame) frame mem e
  | none => flood s ifc (readHeader frame) frame

/-- Parse and process a frame received on port `ifc`: the new globals and the
buffers written, in order. -/
def parse_frame (s : State) (ifc : Nat) (frame mem : List Nat) :
    State × List (List Nat) :=
  if frame.length < sizeof_EthernetHeader then (s, [])
  else
    let eh := readHeader frame
    if !admitted (s.ifc ifc) eh then (s, [])
    else
      let s1 : State := { s with switchCache := learn s.switchCache ifc eh.src }
      (s1, forward s1 ifc frame mem)

/-- `handle_frame`: abort when `interface > num_ifc`, else process the frame on
`&gifc[interface - 1]`. -/
def handle_frame (s : State) (interface : Nat) (frame mem : List Nat) :
    Outcome (State × List (List Nat)) :=
  if interface > s.num_ifc then .aborted
  else if interface = 0 then .outOfBounds
  else .ok (parse_frame s (interface - 1) frame mem)

/-- `handle_mac`: abort when `ifc_num > num_ifc`, else store the address in
`gifc[ifc_num - 1]`. -/
def handle_mac (s : State) (ifc_num : Nat) (mac : MacAddress) : Outcome State :=
  if ifc_num > s.num_ifc then .aborted
  else if ifc_num = 0 then .outOfBounds
  else .ok { s with gifc := s.gifc.set (ifc_num - 1) { s.ifc (ifc_num - 1) with mac := mac } }

/-- The globals when `loop` is entered, for a given port array. -/
def start (gifc : List Interface) : State := ⟨gifc, []⟩

/-- What the transport delivers: a frame for a port (with the memory `mem` that
`parse_frame` finds at `&frame1`), or an address for a port. -/
inductive Event where
  | frame (interface : Nat) (bytes : List Nat) (mem : List Nat)
  | mac (ifc_num : Nat) (mac : MacAddress)
deriving DecidableEq, Repr

/-- One event; `none` when the handler does not return normally. -/
def step (s : State) : Event → Option State
  | .frame n f mem =>
    match handle_frame s n f mem with
    | .ok r => some r.1
    | _ => none
  | .mac n m =>
    match handle_mac s n m with
    | .ok s1 => some s1
    | _ => none

/-- A sequence of events, processed one after the other. -/
def run : State → List Event → Option State
  | s, [] => some s
  | s, e :: es =>
    match step s e with
    | some s1 => run s1 es
    | none => none

end VSwitch

/-! ## Concrete configurations and frames used in the examples -/

namespace Switch

/-- Three ports with pairwise distinct addresses, numbered 1, 2, 3. -/
def ports3 : List Interface :=
  [⟨⟨2, 0, 0, 0, 0, 1⟩, 1⟩, ⟨⟨2, 0, 0, 0, 0, 2⟩, 2⟩, ⟨⟨2, 0, 0, 0, 0, 3⟩, 3⟩]

/-- The address `AA:00:00:00:00:01` of a host. -/
def hostA : MacAddress := ⟨0xAA, 0, 0, 0, 0, 1⟩

/-- The address `BB:00:00:00:00:02` of a host. -/
def hostB : MacAddress := ⟨0xBB, 0, 0, 0, 0, 2⟩

/-- A 14-byte frame from `hostA` to the broadcast address. -/
def frameAtoAll : List Nat :=
  [0xFF, 0xFF, 0xFF, 0xFF, 0xFF, 0xFF, 0xAA, 0, 0, 0, 0, 1, 8, 0]

/-- A 14-byte frame from `hostB` to `hostA`. -/
def frameBtoA : List Nat :=
  [0xAA, 0, 0, 0, 0, 1, 0xBB, 0, 0, 0, 0, 2, 8, 0]

/-- A 14-byte frame from `hostB` to the broadcast address. -/
def frameBtoAll : List Nat :=
  [0xFF, 0xFF, 0xFF, 0xFF, 0xFF, 0xFF, 0xBB, 0, 0, 0, 0, 2, 8, 0]

/-- A 14-byte frame whose source is the broadcast address, sent to `hostA`. -/
def frameAllToA : List Nat :=
  [0xAA, 0, 0, 0, 0, 1, 0xFF, 0xFF, 0xFF, 0xFF, 0xFF, 0xFF, 8, 0]

end Switch

namespace VSwitch

/-- Port 1 is an access port of VLAN 10 (`U:10`), port 2 a trunk carrying VLANs
10 and 20 (`T:10,20`). -/
def ports2 : List Interface :=
  [⟨⟨2, 0, 0, 0, 0, 1⟩, 1, "eth0", [NO_VLAN], 10⟩,
   ⟨⟨2, 0, 0, 0, 0, 2⟩, 2, "eth1", [10, 20, NO_VLAN], NO_VLAN⟩]

/-- An untagged 18-byte frame whose source and destination are both
`AA:00:00:00:00:01`. -/
def frameAtoA : List Nat :=
  [0xAA, 0, 0, 0, 0, 1, 0xAA, 0, 0, 0, 0, 1, 8, 0, 1, 2, 3, 4]

/-- An untagged 18-byte frame from `AA:00:00:00:00:01` to the broadcast
address. -/
def frameAtoAll : List Nat :=
  [0xFF, 0xFF, 0xFF, 0xFF, 0xFF, 0xFF, 0xAA, 0, 0, 0, 0, 1, 8, 0, 1, 2, 3, 4]

/-- An untagged 18-byte frame from `BB:00:00:00:00:02` to `AA:00:00:00:00:01`. -/
def frameBtoA : List Nat :=
  [0xAA, 0, 0, 0, 0, 1, 0xBB, 0, 0, 0, 0, 2, 8, 0, 1, 2, 3, 4]

/-- A frame tagged with VLAN 20 from `AA:00:00:00:00:01` to
`CC:00:00:00:00:03`. -/
def frameTagged20 : List Nat :=
  [0xCC, 0, 0, 0, 0, 3, 0xAA, 0, 0, 0, 0, 1, 0x81, 0, 0, 20, 8, 0, 1, 2]

/-- Twelve bytes standing for the memory at `&frame1`. -/
def mem12 : List Nat := [0, 0, 0, 0, 0, 0, 0, 0, 0, 0, 0, 0]

end VSwitch

/-- A table of 1024 entries with pairwise distinct addresses
`00:00:00:00:hi:lo`, all learned on port 1. -/
def Switch.fullTable : List Switch.SwitchCache :=
  (List.range 1024).map (fun i => ⟨0, ⟨0, 0, 0, 0, i / 256, i % 256⟩⟩)

/-- A table of 500 entries with pairwise distinct addresses
`00:00:00:00:hi:lo`, all learned on port 1. -/
def VSwitch.fullTable : List VSwitch.SwitchCache :=
  (List.range 500).map (fun i => ⟨0, ⟨0, 0, 0, 0, i / 256, i % 256⟩⟩)

/-! ## vswitch.c: notions used to state the VLAN rules -/

namespace VSwitch

/-- The test of line 226, `frame_size < sizeof (ethernetHeader)`, under which
`parse_frame` reports "Malformed frame" and returns. -/
def malformed (frame : List Nat) : Bool := decide (frame.length < sizeof_EthernetHeader)

/-- The VLAN ids a port lists as tagged: the elements of `tagged_vlans` before
the first `NO_VLAN`. -/
def tagged_set (tagged_vlans : List Int) : List Int :=
  tagged_vlans.takeWhile (fun x => decide (x ≠ NO_VLAN))

/-- The VLAN `parse_frame` works with for a frame received on port `p`: the
`vlanId` of the header when the frame is tagged, else the untagged VLAN of
`p`. -/
def effective_vlan (p : Interface) (eh : EthernetHeader) : Int :=
  if eh.tag = htons 0x8100 then (eh.vlanId : Int) else p.untagged_vlan

end VSwitch

/-- The test of line 136 of `switch.c`, `frame_size < sizeof (eh)`, under which
`parse_frame` reports "Malformed frame" and returns. -/
def Switch.malformed (frame : List Nat) : Bool :=
  decide (frame.length < Switch.sizeof_EthernetHeader)

/-! ## arp.c -/

/-- Modelled from the spec: the 4-byte IPv4 address `struct in_addr` of the
system headers; `a0 .. a3` are the bytes of `s_addr` in memory, which is network
order. -/
structure in_addr where
  a0 : Nat
  a1 : Nat
  a2 : Nat
  a3 : Nat
deriving DecidableEq, Repr, Inhabited

/-- The four bytes of an address in memory order. -/
def in_addr.bytes (a : in_addr) : List Nat := [a.a0, a.a1, a.a2, a.a3]

/-- `ipcmp`: `memcmp` over `sizeof (struct in_addr)` bytes. -/
def ipcmp (ip1 ip2 : in_addr) : Int := memcmp ip1.bytes ip2.bytes

/-- The four bytes of `mem` starting at offset `off`, as an IPv4 address. -/
def readIp (mem : List Nat) (off : Nat) : in_addr :=
  ⟨mem.getD off 0, mem.getD (off + 1) 0, mem.getD (off + 2) 0, mem.getD (off + 3) 0⟩

/-- The `n` bytes of `mem` starting at offset `off` (the source of a
`memcpy`). -/
def memSlice (mem : List Nat) (off n : Nat) : List Nat :=
  (List.range n).map (fun i => mem.getD (off + i) 0)

namespace Arp

/-- `sizeof (struct EthernetHeader)` in `arp.c`. -/
def sizeof_EthernetHeader : Nat := 14

/-- The packed `struct ArpHeaderEthernetIPv4` of `arp.c`. It starts with the two
Ethernet addresses and has no field for the EtherType, so `htype` sits at
offset 12, `oper` at 18, `sender_ha` at 20, `sender_pa` at 26, `target_ha` at
30 and `target_pa` at 36. -/
structure ArpHeaderEthernetIPv4 where
  dst : MacAddress
  src : MacAddress
  htype : Nat
  ptype : Nat
  hlen : Nat
  plen : Nat
  oper : Nat
  sender_ha : MacAddress
  sender_pa : in_addr
  target_ha : MacAddress
  target_pa : in_addr
deriving DecidableEq, Repr

/-- The view `struct ArpHeaderEthernetIPv4 *arpHeader = frame` of line 313 on
the bytes in memory at `frame`. -/
def readArpHeader (mem : List Nat) : ArpHeaderEthernetIPv4 :=
  { dst := readMac mem 0, src := readMac mem 6, htype := readU16 mem 12,
    ptype := readU16 mem 14, hlen := mem.getD 16 0, plen := mem.getD 17 0,
    oper := readU16 mem 18, sender_ha := readMac mem 20, sender_pa := readIp mem 26,
    target_ha := readMac mem 30, target_pa := readIp mem 36 }

/-- Per-interface context. -/
structure Interface where
  mac : MacAddress
  ip : in_addr
  netmask : in_addr
  name : String
  ifc_num : Nat
  mtu : Nat
deriving DecidableEq, Repr, Inhabited

/-- One entry of `arpTable`. The pointer `ifc` is `none` for `NULL`, the value
of the zero-initialised static array. -/
structure arpProps where
  mac : MacAddress
  ip : in_addr
  ifc : Option Nat
deriving DecidableEq, Repr

/-- The globals of `arp.c` that frames touch: the ports and the used part of
`arpTable` (`switchTableLength` is its length; the array has 500 elements and
the code does not test the index it writes to). -/
structure State where
  gifc : List Interface
  arpTable : List arpProps
deriving DecidableEq, Repr

/-- Number of available contexts. -/
def State.num_ifc (s : State) : Nat := s.gifc.length

/-- The number of used entries of `arpTable`. -/
def State.switchTableLength (s : State) : Nat := s.arpTable.length

/-- The element `gifc[i]` a port pointer refers to. -/
def State.ifc (s : State) (i : Nat) : Interface := s.gifc.getD i default

/-- `forward_to` of `arp.c`: abort when the frame is larger than the MTU of
`dst`, else the bytes written for one frame sent out on `dst`. -/
def forward_to (dst : Interface) (frame : List Nat) (frame_size : Nat) :
    Outcome (List Nat) :=
  if frame_size > dst.mtu then .aborted
  else .ok (forward_to_iob dst.ifc_num frame frame_size)

/-- Lines 337-346: the 42 bytes written to `frame2`, from the memory `mem` at
`frame` and the port `ifc`. -/
def reply_bytes (ifc : Interface) (mem : List Nat) : List Nat :=
  memSlice mem 6 6 ++ ifc.mac.bytes ++ memSlice mem 12 2 ++ [0x00, 0x01] ++ memSlice mem 16 5
    ++ [0x02] ++ ifc.mac.bytes ++ ifc.ip.bytes ++ memSlice mem 32 10

/-- Lines 330-332: the entry stored at `arpTable[switchTableLength]`. Only
`mac` and `ip` are assigned. -/
def table_entry (mem : List Nat) : arpProps :=
  ⟨(readArpHeader mem).sender_ha, (readArpHeader mem).sender_pa, none⟩

/-- The condition of line 334. -/
def is_request_for (ifc : Interface) (mem : List Nat) : Bool :=
  ipcmp (readArpHeader mem).target_pa ifc.ip == 0 && (readArpHeader mem).oper == 0x0100

/-- Parse and process a frame received on port `ifc`. `tail` is the memory that
follows the frame in the receive buffer (the header view reads up to offset 40
whatever `frame_size` is) and `junk` is what the uninitialised `frame2` holds
from offset 42 on. -/
def parse_frame (s : State) (ifc : Nat) (frame tail junk : List Nat) :
    Outcome (State × List (List Nat)) :=
  if frame.length < sizeof_EthernetHeader then .ok (s, [])
  else
    let mem := frame ++ tail
    let s1 : State := { s with arpTable := s.arpTable ++ [table_entry mem] }
    if is_request_for (s.ifc ifc) mem then
      match forward_to (s.ifc ifc) (reply_bytes (s.ifc ifc) mem ++ junk) frame.length with
      | .ok iob => .ok (s1, [iob])
      | .aborted => .aborted
      | .outOfBounds => .outOfBounds
    else .ok (s1, [])

/-- The test of line 293, `frame_size < sizeof (ethernetHeader)`, under which
`parse_frame` reports "Malformed frame" and returns. -/
def malformed (frame : List Nat) : Bool := decide (frame.length < sizeof_EthernetHeader)

/-- `handle_frame`: abort when `interface > num_ifc`, else process the frame on
`&gifc[interface - 1]`. -/
def handle_frame (s : State) (interface : Nat) (frame tail junk : List Nat) :
    Outcome (State × List (List Nat)) :=
  if interface > s.num_ifc then .aborted
  else if interface = 0 then .outOfBounds
  else parse_frame s (interface - 1) frame tail junk

/-- `handle_mac`: abort when `ifc_num > num_ifc`, else store the address in
`gifc[ifc_num - 1]`. -/
def handle_mac (s : State) (ifc_num : Nat) (mac : MacAddress) : Outcome State :=
  if ifc_num > s.num_ifc then .aborted
  else if ifc_num = 0 then .outOfBounds
  else .ok { s with gifc := s.gifc.set (ifc_num - 1) { s.ifc (ifc_num - 1) with mac := mac } }

/-- The globals when `loop` is entered, for a given port array. -/
def start (gifc : List Interface) : State := ⟨gifc, []⟩

/-- Port 1 with address `10.0.0.2/24`, MTU 1500. -/
def ports1 : List Interface :=
  [⟨⟨2, 0, 0, 0, 0, 1⟩, ⟨10, 0, 0, 2⟩, ⟨255, 255, 255, 0⟩, "eth0", 1, 1500⟩]

/-- A well-formed 42-byte ARP request: host `AA:00:00:00:00:01` with address
`10.0.0.1` asks for `10.0.0.2`. -/
def request : List Nat :=
  [0xFF, 0xFF, 0xFF, 0xFF, 0xFF, 0xFF, 0xAA, 0, 0, 0, 0, 1, 0x08, 0x06,
   0x00, 0x01, 0x08, 0x00, 0x06, 0x04, 0x00, 0x01,
   0xAA, 0, 0, 0, 0, 1, 10, 0, 0, 1,
   0, 0, 0, 0, 0, 0, 10, 0, 0, 2]

end Arp

/-! ## More concrete configurations and frames -/

/-- A 14-byte untagged frame from `AA:00:00:00:00:01` to the broadcast
address. -/
def VSwitch.frame14 : List Nat :=
  [0xFF, 0xFF, 0xFF, 0xFF, 0xFF, 0xFF, 0xAA, 0, 0, 0, 0, 1, 8, 0]

/-- A port record whose tagged set holds VLAN 10 and whose untagged VLAN is
5. -/
def VSwitch.portMixed : VSwitch.Interface :=
  ⟨⟨2, 0, 0, 0, 0, 9⟩, 1, "eth9", [10, VSwitch.NO_VLAN], 5⟩

/-- A frame tagged with VLAN 10 (TCI `00 0A`) from `AA:00:00:00:00:01` to
`CC:00:00:00:00:03`. -/
def VSwitch.frameTagged10 : List Nat :=
  [0xCC, 0, 0, 0, 0, 3, 0xAA, 0, 0, 0, 0, 1, 0x81, 0, 0, 10, 8, 0, 1, 2]

/-- The frame `frameTagged20` with priority 1 in its tag: TCI `20 14` instead of
`00 14`. -/
def VSwitch.frameTagged20prio : List Nat :=
  [0xCC, 0, 0, 0, 0, 3, 0xAA, 0, 0, 0, 0, 1, 0x81, 0, 0x20, 20, 8, 0, 1, 2]

/-- Port 1 is a trunk carrying VLANs 10 and 20 (`T:10,20`), port 2 an access
port of VLAN 20 (`U:20`), port 3 an access port of VLAN 10 (`U:10`). -/
def VSwitch.ports3 : List VSwitch.Interface :=
  [⟨⟨2, 0, 0, 0, 0, 1⟩, 1, "eth0", [10, 20, VSwitch.NO_VLAN], VSwitch.NO_VLAN⟩,
   ⟨⟨2, 0, 0, 0, 0, 2⟩, 2, "eth1", [VSwitch.NO_VLAN], 20⟩,
   ⟨⟨2, 0, 0, 0, 0, 3⟩, 3, "eth2", [VSwitch.NO_VLAN], 10⟩]

/-! ## Text helpers for the command line and the console -/

/-- The part of a string before the first occurrence of `c` and the part after
it (`strchr` followed by `strndup`); `none` when `c` does not occur. -/
def cutAt (c : Char) : List Char → Option (List Char × List Char)
  | [] => none
  | x :: xs =>
    if x = c then some ([], xs)
    else
      match cutAt c xs with
      | some (a, b) => some (x :: a, b)
      | none => none

/-- The tokens that repeated calls of `strtok` with the one delimiter `d`
return: the maximal runs of characters other than `d`, in order; `cur` is the
token being read. -/
def strtok_all (d : Char) : List Char → List Char → List (List Char)
  | [], cur => if cur = [] then [] else [cur]
  | x :: xs, cur =>
    if x = d then
      if cur = [] then strtok_all d xs [] else cur :: strtok_all d xs []
    else strtok_all d xs (cur ++ [x])

/-- ASCII lower case of a character. -/
def asciiLower (c : Char) : Char :=
  if 'A' ≤ c ∧ c ≤ 'Z' then Char.ofNat (c.toNat + 32) else c

/-- The test `0 == strcasecmp (a, b)`. -/
def strcasecmp_eq (a b : String) : Bool :=
  a.data.map asciiLower == b.data.map asciiLower

/-- A stand-in for `sscanf (tok, "%u", &n)` on tokens that start with decimal
digits: the value of the leading digits, `none` when there is none. -/
def scan_digits : List Char → Option Nat
  | [] => none
  | c :: cs =>
    if c.isDigit then
      some ((c :: cs).takeWhile Char.isDigit |>.foldl (fun acc d => acc * 10 + (d.toNat - 48)) 0)
    else none

/-! ## vswitch.c: the interface specifications -/

namespace VSwitch

/-- The token loop of `parse_tagged` (lines 506-542): `pos` is the next index of
`tagged_vlans`, `acc` what has been stored so far; `none` when the function
returns 1. `sscanf_u tok` is the number `sscanf (tok, "%u", &tag)` reads, if
any. -/
def tagged_loop (sscanf_u : List Char → Option Nat) :
    List (List Char) → Nat → List Int → Option (List Int)
  | [], _, acc => some acc
  | tok :: rest, pos, acc =>
    if pos = MAX_VLANS then none
    else
      match sscanf_u tok with
      | none => none
      | some tag =>
        if tag > MAX_VLANS then none
        else tagged_loop sscanf_u rest (pos + 1) (acc ++ [(tag : Int)])

/-- `parse_tagged` on the text between `start` and `end`: the return value and
the port record. -/
def parse_tagged (sscanf_u : List Char → Option Nat) (region : List Char)
    (ifc : Interface) : Nat × Interface :=
  match region with
  | ':' :: spec =>
    match tagged_loop sscanf_u (strtok_all ',' spec []) 0 [] with
    | some ids => (0, { ifc with tagged_vlans := ids ++ [NO_VLAN] })
    | none => (1, ifc)
  | _ => (1, ifc)

/-- `parse_untagged` on the text between `start` and `end`: the return value and
the port record. -/
def parse_untagged (sscanf_u : List Char → Option Nat) (region : List Char)
    (ifc : Interface) : Nat × Interface :=
  match region with
  | ':' :: spec =>
    match sscanf_u spec with
    | none => (1, ifc)
    | some tag =>
      if tag > MAX_VLANS then (1, ifc)
      else (0, { ifc with untagged_vlan := (tag : Int) })
  | _ => (1, ifc)

/-- `parse_vlan_args`: the return value and the port record after parsing the
command-line argument `arg`. -/
def parse_vlan_args (sscanf_u : List Char → Option Nat) (arg : String)
    (ifc : Interface) : Nat × Interface :=
  let ifc0 : Interface := { ifc with tagged_vlans := [NO_VLAN], untagged_vlan := NO_VLAN }
  match cutAt '[' arg.data with
  | none => (0, { ifc0 with ifc_name := arg, untagged_vlan := DEFAULT_VLAN })
  | some (name, after) =>
    let ifc1 : Interface := { ifc0 with ifc_name := String.mk name }
    match cutAt ']' after with
    | none => (1, ifc1)
    | some (inside, _) =>
      match inside with
      | 'T' :: region => parse_tagged sscanf_u region ifc1
      | 'U' :: region => parse_untagged sscanf_u region ifc1
      | _ => (1, ifc1)

/-- The character that follows the first `[` of an interface specification:
`T` for a `NAME[T:...]` port, `U` for a `NAME[U:...]` port; `none` for a plain
`NAME`. -/
def spec_kind (arg : String) : Option Char :=
  match cutAt '[' arg.data with
  | none => none
  | some (_, after) => after.head?

/-- The port record `main` hands to `parse_vlan_args` for argument number `i`:
zeroed by `memset` (which leaves no terminator in `tagged_vlans`, shown here by
its first element), with `ifc_num = i`. -/
def main_ifc (i : Nat) : Interface := ⟨MacAddress.zero, i, "", [0], 0⟩

end VSwitch

/-! ## arp.c: the operator command -/

namespace Arp

/-- One entry of `arpCache`. -/
structure ArpEntry where
  mac : MacAddress
  ip : in_addr
deriving DecidableEq, Repr

/-- `addEntryToCache`; no line of `arp.c` outside comments calls it. -/
def addEntryToCache (arpCache : List ArpEntry) (entry : ArpEntry) : List ArpEntry :=
  arpCache ++ [entry]

/-- What the tool writes to its standard output: a transport record of
`forward_to`, or a text of `print`. -/
inductive Out where
  | record (iob : List Nat)
  | text (s : String)
deriving DecidableEq, Repr

/-- How the handling of an input ends when it does not return. -/
inductive Halt where
  | abort
  | out_of_bounds
  | null_pointer
deriving DecidableEq, Repr

/-- The result of handling an input. -/
inductive Run (α : Type) where
  | ok (a : α)
  | halt (h : Halt)
deriving DecidableEq, Repr

/-- One hexadecimal digit, lower case. -/
def hexDigit (n : Nat) : Char :=
  if n < 10 then Char.ofNat (48 + n) else Char.ofNat (87 + n)

/-- The format `%02x` of a byte. -/
def hex2 (n : Nat) : String := String.mk [hexDigit (n / 16 % 16), hexDigit (n % 16)]

/-- One hexadecimal digit, upper case. -/
def hexDigitUpper (n : Nat) : Char :=
  if n < 10 then Char.ofNat (48 + n) else Char.ofNat (55 + n)

/-- The format `%02X` of a byte. -/
def hex2Upper (n : Nat) : String :=
  String.mk [hexDigitUpper (n / 16 % 16), hexDigitUpper (n % 16)]

/-- The text of `print_mac1`. -/
def mac_text (m : MacAddress) : String :=
  hex2Upper m.m0 ++ ":" ++ hex2Upper m.m1 ++ ":" ++ hex2Upper m.m2 ++ ":" ++ hex2Upper m.m3
    ++ ":" ++ hex2Upper m.m4 ++ ":" ++ hex2Upper m.m5

/-- `inet_ntop (AF_INET, ...)`: dotted decimal. -/
def inet_ntop (a : in_addr) : String :=
  toString a.a0 ++ "." ++ toString a.a1 ++ "." ++ toString a.a2 ++ "." ++ toString a.a3

/-- The line `printArpCache` prints for one entry. -/
def cache_line (e : ArpEntry) : String :=
  inet_ntop e.ip ++ ": " ++ hex2 e.mac.m0 ++ ":" ++ hex2 e.mac.m1 ++ ":" ++ hex2 e.mac.m2
    ++ ":" ++ hex2 e.mac.m3 ++ ":" ++ hex2 e.mac.m4 ++ ":" ++ hex2 e.mac.m5 ++ "\n"

/-- `printArpCache`: one line per entry of `arpCache`. -/
def printArpCache (arpCache : List ArpEntry) : List Out :=
  arpCache.map (fun e => Out.text (cache_line e))

/-- Lines 507-552: the 42 bytes of the request built for port `ifc` and target
`v4`. -/
def request_bytes (ifc : Interface) (v4 : in_addr) : List Nat :=
  [0xFF, 0xFF, 0xFF, 0xFF, 0xFF, 0xFF] ++ ifc.mac.bytes ++ [0x08, 0x06] ++ [0x00, 0x01]
    ++ [0x08, 0x00] ++ [0x06] ++ [0x04] ++ [0x00, 0x01] ++ ifc.mac.bytes ++ ifc.ip.bytes
    ++ [0x00, 0x00, 0x00, 0x00, 0x00, 0x00] ++ v4.bytes

/-- Lines 566-576: the dump of `arpTable`. The first access to
`arpTable[i].ifc->name` follows a null pointer when `ifc` was never set. -/
def dump_arpTable (s : State) : List arpProps → Run (List Out)
  | [] => .ok []
  | e :: es =>
    match e.ifc with
    | none => .halt .null_pointer
    | some i =>
      match dump_arpTable s es with
      | .ok out =>
        .ok ([Out.text ("\n" ++ inet_ntop e.ip), Out.text " -> ",
              Out.text (mac_text e.mac),
              Out.text (" (" ++ (s.ifc i).name ++ ")\n")] ++ out)
      | .halt h => .halt h

/-- `process_cmd_arp` on the tokens that follow the command word. `inet_pton`
stands for the library function of that name on `AF_INET`. What goes to
`stderr` is left out. -/
def process_cmd_arp (inet_pton : String → Option in_addr) (s : State)
    (arpCache : List ArpEntry) (toks : List String) : Run (List Out) :=
  match toks with
  | [] => .ok (printArpCache arpCache)
  | tok :: rest =>
    match inet_pton tok with
    | none => .ok []
    | some v4 =>
      match rest with
      | [] => .ok []
      | tok2 :: _ =>
        match s.gifc.find? (fun g => strcasecmp_eq tok2 g.name) with
        | none => .ok []
        | some ifc =>
          if tok2 ≠ "" then
            match s.gifc.find? (fun g => maccmp ifc.mac g.mac == 0) with
            | some q =>
              match forward_to q (request_bytes ifc v4) 42 with
              | .ok iob => .ok [Out.record iob]
              | _ => .halt .abort
            | none => dump_arpTable s s.arpTable
          else dump_arpTable s s.arpTable

/-- `handle_control`: the last character of `cmd` is overwritten by the string
end, the first token is compared with `arp`. With no token at all `strcasecmp`
gets a null pointer. -/
def handle_control (inet_pton : String → Option in_addr) (s : State)
    (arpCache : List ArpEntry) (cmd : String) : Run (List Out) :=
  match (strtok_all ' ' cmd.data.dropLast []).map String.mk with
  | [] => .halt .null_pointer
  | tok :: rest =>
    if strcasecmp_eq tok "arp" then process_cmd_arp inet_pton s arpCache rest
    else .ok []

/-- All the globals of `arp.c`: those of `State`, and `arpCache` with
`cacheSize` as its length. -/
structure Globals where
  state : State
  arpCache : List ArpEntry
deriving DecidableEq, Repr

/-- The globals when `loop` is entered: empty `arpTable`, empty `arpCache`. -/
def boot (gifc : List Interface) : Globals := ⟨start gifc, []⟩

/-- What the transport delivers to the arp tool. -/
inductive Input where
  | frame (interface : Nat) (bytes tail junk : List Nat)
  | mac (ifc_num : Nat) (mac : MacAddress)
  | control (cmd : String)
deriving DecidableEq, Repr

/-- One input: the new globals and what is written to the standard output. -/
def handle_input (inet_pton : String → Option in_addr) (g : Globals) :
    Input → Run (Globals × List Out)
  | .frame n f tail junk =>
    match handle_frame g.state n f tail junk with
    | .ok r => .ok (⟨r.1, g.arpCache⟩, r.2.map Out.record)
    | .aborted => .halt .abort
    | .outOfBounds => .halt .out_of_bounds
  | .mac n m =>
    match handle_mac g.state n m with
    | .ok s1 => .ok (⟨s1, g.arpCache⟩, [])
    | .aborted => .halt .abort
    | .outOfBounds => .halt .out_of_bounds
  | .control cmd =>
    match handle_control inet_pton g.state g.arpCache cmd with
    | .ok out => .ok (g, out)
    | .halt h => .halt h

/-- A sequence of inputs: the final globals and everything written, in order. -/
def loop (inet_pton : String → Option in_addr) :
    Globals → List Input → Run (Globals × List Out)
  | g, [] => .ok (g, [])
  | g, i :: is =>
    match handle_input inet_pton g i with
    | .ok (g1, out1) =>
      match loop inet_pton g1 is with
      | .ok (g2, out2) => .ok (g2, out1 ++ out2)
      | .halt h => .halt h
    | .halt h => .halt h

/-- A stand-in for `inet_pton` that knows the addresses used in the examples. -/
def pton_example (s : String) : Option in_addr :=
  if s = "10.0.0.9" then some ⟨10, 0, 0, 9⟩
  else if s = "10.0.0.1" then some ⟨10, 0, 0, 1⟩
  else none

/-- Two ports as `main` leaves them before any address notification: both with
the all-zero hardware address, `eth0` with `10.0.0.2/24` and `eth1` with
`10.0.1.2/24`, MTU 1500. -/
def ports2zero : List Interface :=
  [⟨MacAddress.zero, ⟨10, 0, 0, 2⟩, ⟨255, 255, 255, 0⟩, "eth0", 1, 1500⟩,
   ⟨MacAddress.zero, ⟨10, 0, 1, 2⟩, ⟨255, 255, 255, 0⟩, "eth1", 2, 1500⟩]

/-- The same two ports after each was given its own hardware address. -/
def ports2 : List Interface :=
  [⟨⟨2, 0, 0, 0, 0, 1⟩, ⟨10, 0, 0, 2⟩, ⟨255, 255, 255, 0⟩, "eth0", 1, 1500⟩,
   ⟨⟨2, 0, 0, 0, 0, 2⟩, ⟨10, 0, 1, 2⟩, ⟨255, 255, 255, 0⟩, "eth1", 2, 1500⟩]

/-- A well-formed 42-byte ARP reply: host `BB:00:00:00:00:02` with address
`10.0.0.3` answers port 1. -/
def reply : List Nat :=
  [2, 0, 0, 0, 0, 1, 0xBB, 0, 0, 0, 0, 2, 0x08, 0x06,
   0x00, 0x01, 0x08, 0x00, 0x06, 0x04, 0x00, 0x02,
   0xBB, 0, 0, 0, 0, 2, 10, 0, 0, 3,
   2, 0, 0, 0, 0, 1, 10, 0, 0, 2]

/-- A 42-byte frame that is no ARP packet for Ethernet and IPv4: EtherType
`08 06`, hardware type 6, protocol type `86 DD`, hlen 8, plen 16. -/
def notArp : List Nat :=
  [0xFF, 0xFF, 0xFF, 0xFF, 0xFF, 0xFF, 0xAA, 0, 0, 0, 0, 1, 0x08, 0x06,
   0x00, 0x06, 0x86, 0xDD, 0x08, 0x10, 0x00, 0x01,
   0xAA, 0, 0, 0, 0, 1, 10, 0, 0, 1,
   0, 0, 0, 0, 0, 0, 10, 0, 0, 2]

/-- A 14-byte frame: an Ethernet header with EtherType `08 06` and nothing
else. -/
def headerOnly : List Nat :=
  [0xFF, 0xFF, 0xFF, 0xFF, 0xFF, 0xFF, 0xAA, 0, 0, 0, 0, 1, 0x08, 0x06]

end Arp

/-! ## vswitch.c: the body of the flood loop -/

/-- Lines 342-415 of `vswitch.c`: what the flood loop does for a port `g` that
passed the address test of line 341. -/
def VSwitch.floodBody (s : VSwitch.State) (ifc : Nat) (eh : VSwitch.EthernetHeader)
    (frame : List Nat) (g : VSwitch.Interface) : List (List Nat) :=
  if eh.tag = htons 0x8100 then
    if (eh.vlanId : Int) = g.untagged_vlan then
      [VSwitch.forward_to g (frame.take 12 ++ frame.drop 16) (frame.length - 4)]
    else if VSwitch.scan_vlans g.tagged_vlans eh.vlanId then
      [VSwitch.forward_to g frame frame.length]
    else []
  else
    if (s.ifc ifc).untagged_vlan = g.untagged_vlan then
      [VSwitch.forward_to g frame frame.length]
    else if VSwitch.scan_vlans g.tagged_vlans (s.ifc ifc).untagged_vlan then
      [VSwitch.forward_to g
        (frame.take 12 ++ (storeU16 0x0081 ++ storeU16 0x0100) ++ frame.drop 12)
        (frame.length + 4)]
    else []

/-! ## arp.c: the interface specifications -/

namespace Arp

/-- The port record `main` hands to `parse_cmd_arg` for argument number `i`:
zeroed by `memset`, with `ifc_num = i`. -/
def main_ifc (i : Nat) : Interface :=
  ⟨MacAddress.zero, ⟨0, 0, 0, 0⟩, ⟨0, 0, 0, 0⟩, "", i, 0⟩

/-- The bytes in memory of
`htonl (~(uint32_t) ((1LLU << (32 - mask)) - 1LLU))`. -/
def netmask_of (mask : Nat) : in_addr :=
  let v := (2 ^ 32 - 1) - ((2 ^ (32 - mask) - 1) % 2 ^ 32)
  ⟨v / 2 ^ 24 % 256, v / 2 ^ 16 % 256, v / 2 ^ 8 % 256, v % 256⟩

/-- `parse_network` on the text `net` between the brackets: the return value and
the port record. -/
def parse_network (inet_pton : String → Option in_addr)
    (sscanf_u : List Char → Option Nat) (ifc : Interface) (net : List Char) :
    Nat × Interface :=
  if (net.take 5).map asciiLower ≠ "ipv4:".data then (1, ifc)
  else
    match cutAt '/' (net.drop 5) with
    | none => (1, ifc)
    | some (ip, tok) =>
      match inet_pton (String.mk ip) with
      | none => (1, ifc)
      | some a =>
        match sscanf_u tok with
        | none => (1, { ifc with ip := a })
        | some mask =>
          if mask > 32 then (1, { ifc with ip := a })
          else (0, { ifc with ip := a, netmask := netmask_of mask })

/-- What `parse_cmd_arg` does after `parse_network` succeeded (lines 694-714),
on the text `arg` that follows the closing bracket: the number after `=` is
read into the local variable `mtu` and compared with 400; the port record is
not written. -/
def parse_mtu (sscanf_u : List Char → Option Nat) (ifc : Interface) (arg : List Char) :
    Nat × Interface :=
  match arg with
  | '=' :: rest =>
    match sscanf_u rest with
    | none => (1, ifc)
    | some mtu => if mtu < 400 then (1, ifc) else (0, ifc)
  | _ => (0, ifc)

/-- `parse_cmd_arg`: the return value and the port record after parsing the
command-line argument `arg`. -/
def parse_cmd_arg (inet_pton : String → Option in_addr)
    (sscanf_u : List Char → Option Nat) (ifc : Interface) (arg : String) :
    Nat × Interface :=
  let ifc0 : Interface := { ifc with mtu := 1500 }
  match cutAt '[' arg.data with
  | none => (1, ifc0)
  | some (name, arg1) =>
    let ifc1 : Interface := { ifc0 with name := String.mk name }
    match cutAt ']' arg1 with
    | none => (1, ifc1)
    | some (nspec, arg2) =>
      if (parse_network inet_pton sscanf_u ifc1 nspec).1 ≠ 0 then
        (1, (parse_network inet_pton sscanf_u ifc1 nspec).2)
      else parse_mtu sscanf_u (parse_network inet_pton sscanf_u ifc1 nspec).2 arg2

end Arp

/-! ## Frames addressed to the first entry of the full tables -/

/-- A 14-byte frame from `hostA` to `00:00:00:00:00:00`. -/
def Switch.frameAtoZero : List Nat :=
  [0, 0, 0, 0, 0, 0, 0xAA, 0, 0, 0, 0, 1, 8, 0]

/-- An untagged 18-byte frame from `AA:00:00:00:00:01` to
`00:00:00:00:00:00`. -/
def VSwitch.frameAtoZero : List Nat :=
  [0, 0, 0, 0, 0, 0, 0xAA, 0, 0, 0, 0, 1, 8, 0, 1, 2, 3, 4]

/-- The ports of `VSwitch.ports3` before any address notification has arrived:
every port still holds the all-zero address. -/
def VSwitch.ports3zero : List VSwitch.Interface :=
  VSwitch.ports3.map (fun g => { g with mac := MacAddress.zero })

/-! ## Facts about the shared helpers -/

theorem maccmp_eq_zero_iff (a b : MacAddress) : maccmp a b = 0 ↔ a = b := by
  cases a; cases b
  simp only [maccmp, MacAddress.bytes, memcmp, MacAddress.mk.injEq]
  split_ifs <;> simp_all <;> omega

theorem forward_to_iob_payload (n : Nat) (frame : List Nat) :
    (forward_to_iob n frame frame.length).drop 4 = frame := by
  simp [forward_to_iob, storeU16]

/-! ## switch.c: the learning table -/

namespace Switch

theorem srcAddressExists_iff (src : MacAddress) (t : List SwitchCache) :
    srcAddressExists src t = true ↔ src ∈ t.map (fun e => e.macAddress) := by
  simp only [srcAddressExists, List.any_eq_true, beq_iff_eq, maccmp_eq_zero_iff, List.mem_map]
  constructor
  · rintro ⟨e, he, rfl⟩; exact ⟨e, he, rfl⟩
  · rintro ⟨e, he, h⟩; exact ⟨e, he, h.symm⟩

theorem lookup_eq_none_iff (t : List SwitchCache) (dst : MacAddress) :
    lookup t dst = none ↔ dst ∉ t.map (fun e => e.macAddress) := by
  simp only [lookup, List.find?_eq_none, beq_iff_eq, maccmp_eq_zero_iff, List.mem_map, not_exists,
    not_and]
  constructor
  · intro h e he heq; exact h e he heq.symm
  · intro h e he heq; exact h e he heq.symm

theorem lookup_some_mac (t : List SwitchCache) (dst : MacAddress) (e : SwitchCache)
    (h : lookup t dst = some e) : e.macAddress = dst ∧ e ∈ t := by
  have h1 := List.find?_some h
  have h2 := List.mem_of_find?_eq_some h
  simp only [beq_iff_eq, maccmp_eq_zero_iff] at h1
  exact ⟨h1.symm, h2⟩

theorem learn_of_exists (t : List SwitchCache) (ifc : Nat) (src : MacAddress)
    (h : srcAddressExists src t = true) : learn t ifc src = t := by
  simp [learn, h]

theorem learn_of_full (t : List SwitchCache) (ifc : Nat) (src : MacAddress)
    (h : TABLE_SIZE ≤ t.length) : learn t ifc src = t := by
  have : ¬ t.length < TABLE_SIZE := by omega
  simp [learn, this]

theorem learn_of_new (t : List SwitchCache) (ifc : Nat) (src : MacAddress)
    (h : srcAddressExists src t = false) (hcap : t.length < TABLE_SIZE) :
    learn t ifc src = t ++ [⟨ifc, src⟩] := by
  simp [learn, h, hcap]

theorem learn_cases (t : List SwitchCache) (ifc : Nat) (src : MacAddress) :
    learn t ifc src = t ∨
      (learn t ifc src = t ++ [⟨ifc, src⟩] ∧ src ∉ t.map (fun e => e.macAddress)
        ∧ t.length < TABLE_SIZE) := by
  by_cases h : srcAddressExists src t = true
  · exact Or.inl (learn_of_exists t ifc src h)
  · by_cases hcap : t.length < TABLE_SIZE
    · right
      have hf : srcAddressExists src t = false := by simpa using h
      refine ⟨learn_of_new t ifc src hf hcap, ?_, hcap⟩
      rw [← srcAddressExists_iff]; exact h
    · exact Or.inl (learn_of_full t ifc src (by omega))

theorem learn_nodup (t : List SwitchCache) (ifc : Nat) (src : MacAddress)
    (h : (t.map (fun e => e.macAddress)).Nodup) :
    ((learn t ifc src).map (fun e => e.macAddress)).Nodup := by
  rcases learn_cases t ifc src with h1 | ⟨h1, h2, _⟩
  · rw [h1]; exact h
  · rw [h1, List.map_append, List.nodup_append]
    refine ⟨h, by simp, ?_⟩
    intro a ha hb
    simp only [List.map_cons, List.map_nil, List.mem_singleton] at hb
    exact h2 (hb ▸ ha)

theorem learn_length_le (t : List SwitchCache) (ifc : Nat) (src : MacAddress)
    (h : t.length ≤ TABLE_SIZE) : (learn t ifc src).length ≤ TABLE_SIZE := by
  rcases learn_cases t ifc src with h1 | ⟨h1, _, h3⟩
  · rw [h1]; exact h
  · rw [h1, List.length_append]; simp; omega

theorem learn_mem_macs (t : List SwitchCache) (ifc : Nat) (src m : MacAddress)
    (h : m ∈ (learn t ifc src).map (fun e => e.macAddress)) :
    m ∈ t.map (fun e => e.macAddress) ∨ m = src := by
  rcases learn_cases t ifc src with h1 | ⟨h1, _, _⟩
  · rw [h1] at h; exact Or.inl h
  · rw [h1, List.map_append, List.mem_append] at h
    rcases h with h | h
    · exact Or.inl h
    · right; simpa using h

theorem lookup_learn_of_some (t : List SwitchCache) (ifc : Nat) (src dst : MacAddress)
    (e : SwitchCache) (h : lookup t dst = some e) : lookup (learn t ifc src) dst = some e := by
  rcases learn_cases t ifc src with h1 | ⟨h1, _, _⟩
  · rw [h1]; exact h
  · rw [h1]; unfold lookup at h ⊢
    rw [List.find?_append, h]; rfl

theorem lookup_learn_self (t : List SwitchCache) (ifc : Nat) (src : MacAddress)
    (hnew : src ∉ t.map (fun e => e.macAddress)) (hcap : t.length < TABLE_SIZE) :
    lookup (learn t ifc src) src = some ⟨ifc, src⟩ := by
  have hf : srcAddressExists src t = false := by
    rw [← Bool.not_eq_true, srcAddressExists_iff]; exact hnew
  rw [learn_of_new t ifc src hf hcap]
  have hn : lookup t src = none := (lookup_eq_none_iff t src).2 hnew
  unfold lookup at hn ⊢
  rw [List.find?_append, hn]
  simp [(maccmp_eq_zero_iff src src).2 rfl]

end Switch

/-! ## switch.c: frames, events and runs -/

namespace Switch

theorem parse_frame_short (s : State) (ifc : Nat) (frame : List Nat)
    (h : frame.length < 14) : parse_frame s ifc frame = (s, []) := by
  simp [parse_frame, sizeof_EthernetHeader, h]

theorem parse_frame_long (s : State) (ifc : Nat) (frame : List Nat)
    (h : 14 ≤ frame.length) :
    parse_frame s ifc frame =
      ({ s with switchCache := learn s.switchCache ifc (readHeader frame).src },
       forward { s with switchCache := learn s.switchCache ifc (readHeader frame).src }
         ifc frame) := by
  have : ¬ frame.length < 14 := by omega
  simp [parse_frame, sizeof_EthernetHeader, this]

theorem parse_frame_gifc (s : State) (ifc : Nat) (frame : List Nat) :
    (parse_frame s ifc frame).1.gifc = s.gifc := by
  by_cases h : frame.length < 14
  · rw [parse_frame_short s ifc frame h]
  · rw [parse_frame_long s ifc frame (by omega)]

theorem parse_frame_table (s : State) (ifc : Nat) (frame : List Nat) :
    (parse_frame s ifc frame).1.switchCache = s.switchCache ∨
      (14 ≤ frame.length ∧
        (parse_frame s ifc frame).1.switchCache
          = learn s.switchCache ifc (readHeader frame).src) := by
  by_cases h : frame.length < 14
  · rw [parse_frame_short s ifc frame h]; exact Or.inl rfl
  · rw [parse_frame_long s ifc frame (by omega)]; exact Or.inr ⟨by omega, rfl⟩

theorem handle_frame_ok (s : State) (n : Nat) (frame : List Nat)
    (h0 : 0 < n) (hn : n ≤ s.gifc.length) :
    handle_frame s n frame = .ok (parse_frame s (n - 1) frame) := by
  have h1 : ¬ n > s.num_ifc := by simp [State.num_ifc]; omega
  have h2 : ¬ n = 0 := by omega
  simp [handle_frame, h1, h2]

theorem handle_frame_ok_inv (s : State) (n : Nat) (frame : List Nat)
    (r : State × List (List Nat)) (h : handle_frame s n frame = .ok r) :
    0 < n ∧ n ≤ s.gifc.length ∧ r = parse_frame s (n - 1) frame := by
  unfold handle_frame at h
  split_ifs at h with h1 h2
  simp only [State.num_ifc] at h1
  refine ⟨by omega, by omega, ?_⟩
  injection h with h; exact h.symm

theorem handle_mac_ok_inv (s : State) (n : Nat) (mac : MacAddress) (s1 : State)
    (h : handle_mac s n mac = .ok s1) :
    0 < n ∧ n ≤ s.gifc.length ∧ s1.switchCache = s.switchCache
      ∧ s1.gifc = s.gifc.set (n - 1) { s.ifc (n - 1) with mac := mac } := by
  unfold handle_mac at h
  split_ifs at h with h1 h2
  simp only [State.num_ifc] at h1
  injection h with h
  subst h
  exact ⟨by omega, by omega, rfl, rfl⟩

theorem set_mac_ifc_num (l : List Interface) (i j : Nat) (mac : MacAddress) :
    ((l.set i { l.getD i default with mac := mac }).getD j default).ifc_num
      = (l.getD j default).ifc_num := by
  simp only [List.getD_eq_getElem?_getD, List.getElem?_set]
  by_cases hij : i = j
  · subst hij
    by_cases hi : i < l.length
    · simp [hi]
    · simp [hi, List.getElem?_eq_none (Nat.le_of_not_lt hi)]
  · simp [hij]

/-- What one event does to the globals. -/
theorem step_effect (s s1 : State) (e : Event) (h : step s e = some s1) :
    s1.gifc.length = s.gifc.length
      ∧ (∀ j, (s1.ifc j).ifc_num = (s.ifc j).ifc_num)
      ∧ (s1.switchCache = s.switchCache ∨
          ∃ n f, e = .frame n f ∧ 14 ≤ f.length
            ∧ s1.switchCache = learn s.switchCache (n - 1) (readHeader f).src) := by
  cases e with
  | frame n f =>
    simp only [step] at h
    cases hh : handle_frame s n f with
    | ok r =>
      rw [hh] at h
      injection h with h
      obtain ⟨_, _, hr⟩ := handle_frame_ok_inv s n f r hh
      subst hr
      subst h
      refine ⟨by rw [parse_frame_gifc], ?_, ?_⟩
      · intro j; simp only [State.ifc]; rw [parse_frame_gifc]
      · rcases parse_frame_table s (n - 1) f with h1 | ⟨h1, h2⟩
        · exact Or.inl h1
        · exact Or.inr ⟨n, f, rfl, h1, h2⟩
    | aborted => rw [hh] at h; exact absurd h (by simp)
    | outOfBounds => rw [hh] at h; exact absurd h (by simp)
  | mac n m =>
    simp only [step] at h
    cases hh : handle_mac s n m with
    | ok r =>
      rw [hh] at h
      injection h with h
      subst h
      obtain ⟨_, _, ht, hg⟩ := handle_mac_ok_inv s n m r hh
      refine ⟨by rw [hg, List.length_set], ?_, Or.inl ht⟩
      intro j
      simp only [State.ifc] at hg ⊢
      rw [hg]; exact set_mac_ifc_num s.gifc (n - 1) j m
    | aborted => rw [hh] at h; exact absurd h (by simp)
    | outOfBounds => rw [hh] at h; exact absurd h (by simp)

theorem run_cons (s s2 : State) (e : Event) (es : List Event)
    (h : run s (e :: es) = some s2) : ∃ s1, step s e = some s1 ∧ run s1 es = some s2 := by
  simp only [run] at h
  cases hs : step s e with
  | none => rw [hs] at h; exact absurd h (by simp)
  | some s1 => rw [hs] at h; exact ⟨s1, rfl, h⟩

/-- The ports keep their number and their count along a run. -/
theorem run_ports (evs : List Event) : ∀ (s s2 : State), run s evs = some s2 →
    s2.gifc.length = s.gifc.length ∧ ∀ j, (s2.ifc j).ifc_num = (s.ifc j).ifc_num := by
  induction evs with
  | nil => intro s s2 h; simp only [run] at h; injection h with h; subst h; exact ⟨rfl, fun _ => rfl⟩
  | cons e es ih =>
    intro s s2 h
    obtain ⟨s1, h1, h2⟩ := run_cons s s2 e es h
    obtain ⟨a1, a2, _⟩ := step_effect s s1 e h1
    obtain ⟨b1, b2⟩ := ih s1 s2 h2
    exact ⟨b1.trans a1, fun j => (b2 j).trans (a2 j)⟩

/-- A property of the table that every learning step allowed by `Q` keeps holds
along every run whose events satisfy `Q`. -/
theorem run_table_inv (P : List SwitchCache → Prop) (Q : Event → Prop)
    (hP : ∀ t n f, Q (.frame n f) → 14 ≤ f.length → P t →
      P (learn t (n - 1) (readHeader f).src))
    (evs : List Event) : ∀ (s s2 : State), (∀ e ∈ evs, Q e) → P s.switchCache →
      run s evs = some s2 → P s2.switchCache := by
  induction evs with
  | nil => intro s s2 _ hs h; simp only [run] at h; injection h with h; subst h; exact hs
  | cons e es ih =>
    intro s s2 hQ hs h
    obtain ⟨s1, h1, h2⟩ := run_cons s s2 e es h
    obtain ⟨_, _, h3⟩ := step_effect s s1 e h1
    refine ih s1 s2 (fun e1 he1 => hQ e1 (List.mem_cons_of_mem _ he1)) ?_ h2
    rcases h3 with h3 | ⟨n, f, rfl, hlen, h3⟩
    · rw [h3]; exact hs
    · rw [h3]; exact hP _ n f (hQ _ (List.mem_cons_self _ _)) hlen hs

theorem forward_of_miss (s : State) (ifc : Nat) (frame : List Nat)
    (h : lookup s.switchCache (readHeader frame).dst = none) :
    forward s ifc frame = flood s ifc frame := by
  simp [forward, h]

theorem forward_of_hit (s : State) (ifc : Nat) (frame : List Nat) (e : SwitchCache)
    (h : lookup s.switchCache (readHeader frame).dst = some e) :
    forward s ifc frame = [forward_to (s.ifc e.interface) frame frame.length] := by
  simp [forward, h]

theorem flood_eq (s : State) (ifc : Nat) (frame : List Nat) :
    flood s ifc frame
      = (s.gifc.filter (fun g => decide (g.mac ≠ (s.ifc ifc).mac))).map
          (fun g => forward_to g frame frame.length) := by
  unfold flood
  congr 1
  apply List.filter_congr
  intro g _
  by_cases hg : g.mac = (s.ifc ifc).mac
  · simp [hg, (maccmp_eq_zero_iff _ _).2 rfl]
  · have : maccmp (s.ifc ifc).mac g.mac ≠ 0 := fun h =>
      hg ((maccmp_eq_zero_iff _ _).1 h).symm
    simp [hg, this]

/-- With pairwise distinct addresses, dropping the ports that share the address
of port `i` drops port `i` alone. -/
theorem filter_ne_eq_eraseIdx (l : List Interface) :
    ∀ (i : Nat), i < l.length → (l.map (fun g => g.mac)).Nodup →
      l.filter (fun g => decide (g.mac ≠ (l.getD i default).mac)) = l.eraseIdx i := by
  induction l with
  | nil => intro i hi; simp at hi
  | cons a l ih =>
    intro i hi hnd
    rw [List.map_cons, List.nodup_cons] at hnd
    cases i with
    | zero =>
      simp only [List.getD_cons_zero, List.eraseIdx_cons_zero]
      rw [List.filter_cons]
      simp only [ne_eq, not_true_eq_false, decide_False, Bool.false_eq_true, ↓reduceIte]
      rw [List.filter_eq_self]
      intro g hg
      simp only [ne_eq, decide_not, Bool.not_eq_eq_eq_not, Bool.not_true, decide_eq_false_iff_not]
      intro heq
      exact hnd.1 (heq ▸ List.mem_map_of_mem (fun g => g.mac) hg)
    | succ i =>
      simp only [List.length_cons, Nat.add_lt_add_iff_right] at hi
      simp only [List.getD_cons_succ, List.eraseIdx_cons_succ]
      rw [List.filter_cons]
      have hne : a.mac ≠ (l.getD i default).mac := by
        intro heq
        apply hnd.1
        rw [heq, List.getD_eq_getElem l default hi]
        exact List.mem_map_of_mem (fun g => g.mac) (List.getElem_mem hi)
      simp only [ne_eq, hne, not_false_eq_true, decide_True, ↓reduceIte]
      rw [← ih i hi hnd.2]

end Switch

/-! ## vswitch.c: the learning table -/

namespace VSwitch

theorem vs_foundEntry_iff (src : MacAddress) (t : List SwitchCache) :
    foundEntry src t = true ↔ src ∈ t.map (fun e => e.macAddress) := by
  simp only [foundEntry, List.any_eq_true, beq_iff_eq, maccmp_eq_zero_iff, List.mem_map]

theorem vs_lookup_eq_none_iff (t : List SwitchCache) (dst : MacAddress) :
    lookup t dst = none ↔ dst ∉ t.map (fun e => e.macAddress) := by
  simp only [lookup, List.find?_eq_none, beq_iff_eq, maccmp_eq_zero_iff, List.mem_map, not_exists,
    not_and]
  constructor
  · intro h e he heq; exact h e he heq.symm
  · intro h e he heq; exact h e he heq.symm

theorem vs_lookup_some_mac (t : List SwitchCache) (dst : MacAddress) (e : SwitchCache)
    (h : lookup t dst = some e) : e.macAddress = dst ∧ e ∈ t := by
  have h1 := List.find?_some h
  have h2 := List.mem_of_find?_eq_some h
  simp only [beq_iff_eq, maccmp_eq_zero_iff] at h1
  exact ⟨h1.symm, h2⟩

theorem vs_rehome_eq (t : List SwitchCache) (ifc : Nat) (src : MacAddress) :
    rehome t ifc src
      = t.map (fun e => if e.macAddress = src then ⟨ifc, e.macAddress⟩ else e) := by
  unfold rehome
  apply List.map_congr_left
  intro e _
  simp only [maccmp_eq_zero_iff]

theorem vs_rehome_macs (t : List SwitchCache) (ifc : Nat) (src : MacAddress) :
    (rehome t ifc src).map (fun e => e.macAddress) = t.map (fun e => e.macAddress) := by
  rw [vs_rehome_eq, List.map_map]
  apply List.map_congr_left
  intro e _
  simp only [Function.comp]
  split_ifs <;> rfl

theorem vs_rehome_length (t : List SwitchCache) (ifc : Nat) (src : MacAddress) :
    (rehome t ifc src).length = t.length := by
  simp [rehome]

theorem vs_rehome_of_not_mem (t : List SwitchCache) (ifc : Nat) (src : MacAddress)
    (h : src ∉ t.map (fun e => e.macAddress)) : rehome t ifc src = t := by
  rw [vs_rehome_eq]
  conv_rhs => rw [← List.map_id t]
  apply List.map_congr_left
  intro e he
  have : e.macAddress ≠ src := fun heq => h (heq ▸ List.mem_map_of_mem (fun e => e.macAddress) he)
  simp [this]

theorem vs_rehome_idem (t : List SwitchCache) (ifc : Nat) (src : MacAddress) :
    rehome (rehome t ifc src) ifc src = rehome t ifc src := by
  rw [vs_rehome_eq, vs_rehome_eq, List.map_map]
  apply List.map_congr_left
  intro e _
  simp only [Function.comp]
  split_ifs <;> simp_all

theorem vs_learn_of_found (t : List SwitchCache) (ifc : Nat) (src : MacAddress)
    (h : foundEntry src t = true) : learn t ifc src = rehome t ifc src := by
  simp [learn, h]

theorem vs_learn_of_full (t : List SwitchCache) (ifc : Nat) (src : MacAddress)
    (h : TABLE_SIZE ≤ t.length) : learn t ifc src = rehome t ifc src := by
  have : ¬ t.length < TABLE_SIZE := by omega
  simp [learn, this]

theorem vs_learn_of_new (t : List SwitchCache) (ifc : Nat) (src : MacAddress)
    (h : foundEntry src t = false) (hcap : t.length < TABLE_SIZE) :
    learn t ifc src = t ++ [⟨ifc, src⟩] := by
  have hn : src ∉ t.map (fun e => e.macAddress) := by
    rw [← vs_foundEntry_iff, h]; simp
  simp [learn, h, hcap, vs_rehome_of_not_mem t ifc src hn]

theorem vs_learn_cases (t : List SwitchCache) (ifc : Nat) (src : MacAddress) :
    learn t ifc src = rehome t ifc src ∨
      (learn t ifc src = t ++ [⟨ifc, src⟩] ∧ src ∉ t.map (fun e => e.macAddress)
        ∧ t.length < TABLE_SIZE) := by
  by_cases h : foundEntry src t = true
  · exact Or.inl (vs_learn_of_found t ifc src h)
  · by_cases hcap : t.length < TABLE_SIZE
    · right
      have hf : foundEntry src t = false := by simpa using h
      refine ⟨vs_learn_of_new t ifc src hf hcap, ?_, hcap⟩
      rw [← vs_foundEntry_iff]; exact h
    · exact Or.inl (vs_learn_of_full t ifc src (by omega))

theorem vs_learn_nodup (t : List SwitchCache) (ifc : Nat) (src : MacAddress)
    (h : (t.map (fun e => e.macAddress)).Nodup) :
    ((learn t ifc src).map (fun e => e.macAddress)).Nodup := by
  rcases vs_learn_cases t ifc src with h1 | ⟨h1, h2, _⟩
  · rw [h1, vs_rehome_macs]; exact h
  · rw [h1, List.map_append, List.nodup_append]
    refine ⟨h, by simp, ?_⟩
    intro a ha hb
    simp only [List.map_cons, List.map_nil, List.mem_singleton] at hb
    exact h2 (hb ▸ ha)

theorem vs_learn_length_le (t : List SwitchCache) (ifc : Nat) (src : MacAddress)
    (h : t.length ≤ TABLE_SIZE) : (learn t ifc src).length ≤ TABLE_SIZE := by
  rcases vs_learn_cases t ifc src with h1 | ⟨h1, _, h3⟩
  · rw [h1, vs_rehome_length]; exact h
  · rw [h1, List.length_append]; simp; omega

/-- After a learning step that had room or found the address, the address is in
the table. -/
theorem vs_learn_mem (t : List SwitchCache) (ifc : Nat) (src : MacAddress)
    (h : src ∈ t.map (fun e => e.macAddress) ∨ t.length < TABLE_SIZE) :
    src ∈ (learn t ifc src).map (fun e => e.macAddress) := by
  rcases vs_learn_cases t ifc src with h1 | ⟨h1, h2, _⟩
  · rw [h1, vs_rehome_macs]
    rcases h with h | h
    · exact h
    · by_contra hn
      have hf : foundEntry src t = false := by
        rw [← Bool.not_eq_true, vs_foundEntry_iff]; exact hn
      rw [vs_learn_of_new t ifc src hf h] at h1
      have := congrArg List.length h1
      rw [vs_rehome_length, List.length_append] at this
      simp at this
  · rw [h1]; simp

/-- Learning the same address on the same port a second time changes nothing. -/
theorem vs_learn_again (t : List SwitchCache) (ifc : Nat) (src : MacAddress)
    (h : src ∈ (learn t ifc src).map (fun e => e.macAddress)) :
    learn (learn t ifc src) ifc src = learn t ifc src := by
  rw [vs_learn_of_found (learn t ifc src) ifc src ((vs_foundEntry_iff _ _).2 h)]
  rcases vs_learn_cases t ifc src with h1 | ⟨h1, h2, _⟩
  · rw [h1, vs_rehome_idem]
  · rw [h1, vs_rehome_eq, List.map_append, ← vs_rehome_eq, vs_rehome_of_not_mem t ifc src h2]
    simp

theorem vs_lookup_rehome (t : List SwitchCache) (ifc : Nat) (src m : MacAddress) :
    lookup (rehome t ifc src) m
      = (lookup t m).map (fun e => if e.macAddress = src then ⟨ifc, e.macAddress⟩ else e) := by
  unfold lookup
  rw [vs_rehome_eq, List.find?_map]
  have hp : ((fun e : SwitchCache => maccmp m e.macAddress == 0) ∘
      fun e : SwitchCache => if e.macAddress = src then ⟨ifc, e.macAddress⟩ else e)
      = fun e : SwitchCache => maccmp m e.macAddress == 0 := by
    funext e
    simp only [Function.comp]
    split_ifs <;> rfl
  rw [hp]

end VSwitch

/-! ## vswitch.c: frames, events and runs -/

namespace VSwitch

theorem vs_parse_frame_short (s : State) (ifc : Nat) (frame mem : List Nat)
    (h : frame.length < 16) : parse_frame s ifc frame mem = (s, []) := by
  simp [parse_frame, sizeof_EthernetHeader, h]

theorem vs_parse_frame_rejected (s : State) (ifc : Nat) (frame mem : List Nat)
    (h : admitted (s.ifc ifc) (readHeader frame) = false) :
    parse_frame s ifc frame mem = (s, []) := by
  simp [parse_frame, h]

theorem vs_parse_frame_admitted (s : State) (ifc : Nat) (frame mem : List Nat)
    (h : 16 ≤ frame.length) (ha : admitted (s.ifc ifc) (readHeader frame) = true) :
    parse_frame s ifc frame mem =
      ({ s with switchCache := learn s.switchCache ifc (readHeader frame).src },
       forward { s with switchCache := learn s.switchCache ifc (readHeader frame).src }
         ifc frame mem) := by
  have : ¬ frame.length < 16 := by omega
  simp [parse_frame, sizeof_EthernetHeader, this, ha]

theorem vs_parse_frame_table (s : State) (ifc : Nat) (frame mem : List Nat) :
    (parse_frame s ifc frame mem).1 = s ∨
      (16 ≤ frame.length ∧ admitted (s.ifc ifc) (readHeader frame) = true ∧
        (parse_frame s ifc frame mem).1
          = { s with switchCache := learn s.switchCache ifc (readHeader frame).src }) := by
  by_cases h : frame.length < 16
  · rw [vs_parse_frame_short s ifc frame mem h]; exact Or.inl rfl
  · by_cases ha : admitted (s.ifc ifc) (readHeader frame) = true
    · rw [vs_parse_frame_admitted s ifc frame mem (by omega) ha]
      exact Or.inr ⟨by omega, ha, rfl⟩
    · rw [vs_parse_frame_rejected s ifc frame mem (by simpa using ha)]; exact Or.inl rfl

theorem vs_handle_frame_ok (s : State) (n : Nat) (frame mem : List Nat)
    (h0 : 0 < n) (hn : n ≤ s.gifc.length) :
    handle_frame s n frame mem = .ok (parse_frame s (n - 1) frame mem) := by
  have h1 : ¬ n > s.num_ifc := by simp [State.num_ifc]; omega
  have h2 : ¬ n = 0 := by omega
  simp [handle_frame, h1, h2]

theorem vs_handle_frame_ok_inv (s : State) (n : Nat) (frame mem : List Nat)
    (r : State × List (List Nat)) (h : handle_frame s n frame mem = .ok r) :
    0 < n ∧ n ≤ s.gifc.length ∧ r = parse_frame s (n - 1) frame mem := by
  unfold handle_frame at h
  split_ifs at h with h1 h2
  simp only [State.num_ifc] at h1
  refine ⟨by omega, by omega, ?_⟩
  injection h with h; exact h.symm

theorem vs_handle_mac_ok_inv (s : State) (n : Nat) (mac : MacAddress) (s1 : State)
    (h : handle_mac s n mac = .ok s1) : s1.switchCache = s.switchCache := by
  unfold handle_mac at h
  split_ifs at h with h1 h2
  injection h with h
  subst h
  rfl

/-- What one event does to the learning table. -/
theorem vs_step_effect (s s1 : State) (e : Event) (h : step s e = some s1) :
    s1.switchCache = s.switchCache ∨
      ∃ n f mem, e = .frame n f mem ∧ 16 ≤ f.length
        ∧ admitted (s.ifc (n - 1)) (readHeader f) = true
        ∧ s1.switchCache = learn s.switchCache (n - 1) (readHeader f).src := by
  cases e with
  | frame n f mem =>
    simp only [step] at h
    cases hh : handle_frame s n f mem with
    | ok r =>
      rw [hh] at h
      injection h with h
      obtain ⟨_, _, hr⟩ := vs_handle_frame_ok_inv s n f mem r hh
      subst hr
      subst h
      rcases vs_parse_frame_table s (n - 1) f mem with h1 | ⟨h1, h2, h3⟩
      · exact Or.inl (by rw [h1])
      · exact Or.inr ⟨n, f, mem, rfl, h1, h2, by rw [h3]⟩
    | aborted => rw [hh] at h; exact absurd h (by simp)
    | outOfBounds => rw [hh] at h; exact absurd h (by simp)
  | mac n m =>
    simp only [step] at h
    cases hh : handle_mac s n m with
    | ok r =>
      rw [hh] at h
      injection h with h
      subst h
      exact Or.inl (vs_handle_mac_ok_inv s n m r hh)
    | aborted => rw [hh] at h; exact absurd h (by simp)
    | outOfBounds => rw [hh] at h; exact absurd h (by simp)

theorem vs_run_cons (s s2 : State) (e : Event) (es : List Event)
    (h : run s (e :: es) = some s2) : ∃ s1, step s e = some s1 ∧ run s1 es = some s2 := by
  simp only [run] at h
  cases hs : step s e with
  | none => rw [hs] at h; exact absurd h (by simp)
  | some s1 => rw [hs] at h; exact ⟨s1, rfl, h⟩

/-- A property of the table that every learning step keeps holds along every
run. -/
theorem vs_run_table_inv (P : List SwitchCache → Prop)
    (hP : ∀ t i src, P t → P (learn t i src))
    (evs : List Event) : ∀ (s s2 : State), P s.switchCache →
      run s evs = some s2 → P s2.switchCache := by
  induction evs with
  | nil => intro s s2 hs h; simp only [run] at h; injection h with h; subst h; exact hs
  | cons e es ih =>
    intro s s2 hs h
    obtain ⟨s1, h1, h2⟩ := vs_run_cons s s2 e es h
    refine ih s1 s2 ?_ h2
    rcases vs_step_effect s s1 e h1 with h3 | ⟨n, f, mem, _, _, _, h3⟩
    · rw [h3]; exact hs
    · rw [h3]; exact hP _ _ _ hs

end VSwitch

/-! ## Forwarding in the plain switch -/

namespace Switch

theorem step_frame_inv (s s1 : State) (n : Nat) (f : List Nat)
    (h : step s (.frame n f) = some s1) :
    0 < n ∧ n ≤ s.gifc.length ∧ s1 = (parse_frame s (n - 1) f).1 := by
  simp only [step] at h
  cases hh : handle_frame s n f with
  | ok r =>
    rw [hh] at h
    injection h with h
    obtain ⟨a, b, hr⟩ := handle_frame_ok_inv s n f r hh
    subst hr
    exact ⟨a, b, h.symm⟩
  | aborted => rw [hh] at h; exact absurd h (by simp)
  | outOfBounds => rw [hh] at h; exact absurd h (by simp)

end Switch

/-- C1 (defect in the code). On a table hit `parse_frame` of `switch.c` forwards
to the learned port without comparing it with the port the frame came in on.
Ports 1, 2, 3 with distinct addresses and an empty table: the broadcast frame
of host A received on port 1 teaches A on port 1; the frame of host B to A that
then arrives on port 1 is written out as one record addressed to port 1 (header
bytes `00 12 00 01`), the port it came from. -/
theorem C1_switch_hit_returns_frame_to_ingress :
    Switch.run (Switch.start Switch.ports3) [.frame 1 Switch.frameAtoAll]
        = some ⟨Switch.ports3, [⟨0, Switch.hostA⟩]⟩
      ∧ Switch.handle_frame ⟨Switch.ports3, [⟨0, Switch.hostA⟩]⟩ 1 Switch.frameBtoA
        = .ok (⟨Switch.ports3, [⟨0, Switch.hostA⟩, ⟨0, Switch.hostB⟩]⟩,
               [[0, 18, 0, 1] ++ Switch.frameBtoA]) := by
  decide

/-- C2 (defect in the code). On a table hit `parse_frame` of `vswitch.c` never
compares the learned port with the ingress port. Port 1 is an access port of
VLAN 10: an admitted untagged frame whose source and destination are the same
address, received on port 1 with an empty table, is written back as one record
addressed to port 1; and once host A is learned on port 1, the frame of host B to
A that arrives on port 1 is written back to port 1 as well. -/
theorem C2_vswitch_hit_returns_frame_to_ingress :
    VSwitch.admitted ((VSwitch.start VSwitch.ports2).ifc 0)
        (VSwitch.readHeader VSwitch.frameAtoA) = true
      ∧ VSwitch.handle_frame (VSwitch.start VSwitch.ports2) 1 VSwitch.frameAtoA VSwitch.mem12
        = .ok (⟨VSwitch.ports2, [⟨0, ⟨0xAA, 0, 0, 0, 0, 1⟩⟩]⟩,
               [[0, 22, 0, 1] ++ VSwitch.frameAtoA])
      ∧ VSwitch.run (VSwitch.start VSwitch.ports2)
          [.frame 1 VSwitch.frameAtoAll VSwitch.mem12]
        = some ⟨VSwitch.ports2, [⟨0, ⟨0xAA, 0, 0, 0, 0, 1⟩⟩]⟩
      ∧ VSwitch.handle_frame ⟨VSwitch.ports2, [⟨0, ⟨0xAA, 0, 0, 0, 0, 1⟩⟩]⟩ 1
          VSwitch.frameBtoA VSwitch.mem12
        = .ok (⟨VSwitch.ports2, [⟨0, ⟨0xAA, 0, 0, 0, 0, 1⟩⟩, ⟨0, ⟨0xBB, 0, 0, 0, 0, 2⟩⟩]⟩,
               [[0, 22, 0, 1] ++ VSwitch.frameBtoA]) := by
  decide

/-- C3, as stated, fails: right after start-up both ports of a two-port switch
hold the all-zero address; a 14-byte frame received on port 1 whose
destination is not in the table is written to no port, although port 2 is a
port other than the ingress port and a copy for it would be the record
`00 12 00 02` followed by the frame. -/
theorem C3_counterexample :
    14 ≤ Switch.frameAtoAll.length
      ∧ Switch.lookup
          (Switch.parse_frame (Switch.start (Switch.main_ifc 2)) 0
            Switch.frameAtoAll).1.switchCache
          (Switch.readHeader Switch.frameAtoAll).dst = none
      ∧ (Switch.parse_frame (Switch.start (Switch.main_ifc 2)) 0 Switch.frameAtoAll).2 = []
      ∧ ((Switch.start (Switch.main_ifc 2)).gifc.eraseIdx 0).map
          (fun g => Switch.forward_to g Switch.frameAtoAll Switch.frameAtoAll.length)
        = [[0, 18, 0, 2] ++ Switch.frameAtoAll] := by
  decide

/-- C3 (amended). For every port configuration and every frame of at least 14
bytes whose destination address is not in the table after the source has been
learned, `parse_frame` of `switch.c` writes, in port order, exactly one record
per port whose hardware address differs from the address of the ingress port
`gifc[ifc]`, and none for any other port; each record carries the frame byte
for byte. When the port addresses are pairwise distinct these are exactly the
ports other than the ingress port. -/
theorem C3_switch_flood_on_miss (s : Switch.State) (ifc : Nat) (frame : List Nat)
    (hlen : 14 ≤ frame.length)
    (hmiss : Switch.lookup (Switch.parse_frame s ifc frame).1.switchCache
      (Switch.readHeader frame).dst = none) :
    (Switch.parse_frame s ifc frame).2
        = (s.gifc.filter (fun g => decide (g.mac ≠ (s.ifc ifc).mac))).map
            (fun g => Switch.forward_to g frame frame.length)
      ∧ (∀ g, (Switch.forward_to g frame frame.length).drop 4 = frame)
      ∧ (ifc < s.gifc.length → (s.gifc.map (fun g => g.mac)).Nodup →
          (Switch.parse_frame s ifc frame).2
            = (s.gifc.eraseIdx ifc).map
                (fun g => Switch.forward_to g frame frame.length)) := by
  have hout : (Switch.parse_frame s ifc frame).2
      = (s.gifc.filter (fun g => decide (g.mac ≠ (s.ifc ifc).mac))).map
          (fun g => Switch.forward_to g frame frame.length) := by
    rw [Switch.parse_frame_long s ifc frame hlen] at hmiss ⊢
    simp only at hmiss ⊢
    rw [Switch.forward_of_miss _ ifc frame hmiss, Switch.flood_eq]
    rfl
  refine ⟨hout, fun g => forward_to_iob_payload g.ifc_num frame, ?_⟩
  intro hi hnd
  rw [hout]
  have := Switch.filter_ne_eq_eraseIdx s.gifc ifc hi hnd
  simp only [Switch.State.ifc]
  rw [this]

/-- C3 (amended) at ports 1, 2, 3 with distinct addresses and an empty table:
the broadcast frame of host A received on port 1 goes to ports 2 and 3. -/
theorem C3_switch_flood_on_miss_witness :
    14 ≤ Switch.frameAtoAll.length
      ∧ Switch.lookup
          (Switch.parse_frame (Switch.start Switch.ports3) 0 Switch.frameAtoAll).1.switchCache
          (Switch.readHeader Switch.frameAtoAll).dst = none
      ∧ (Switch.parse_frame (Switch.start Switch.ports3) 0 Switch.frameAtoAll).2
        = [[0, 18, 0, 2] ++ Switch.frameAtoAll, [0, 18, 0, 3] ++ Switch.frameAtoAll] :=
  ⟨by decide, by decide,
    ((C3_switch_flood_on_miss (Switch.start Switch.ports3) 0 Switch.frameAtoAll
      (by decide) (by decide)).2.2 (by decide) (by decide)).trans (by decide)⟩

/-- C4, as stated, fails: the broadcast address is learned like any other
source. After a frame whose source is `FF:FF:FF:FF:FF:FF` has been received on
port 1, the broadcast frame of host B received on port 2 is a table hit and is
written to port 1 alone, where a flood would have written it to ports 1 and 3. -/
theorem C4_counterexample :
    Switch.run (Switch.start Switch.ports3) [.frame 1 Switch.frameAllToA]
        = some ⟨Switch.ports3, [⟨0, MacAddress.broadcast⟩]⟩
      ∧ (Switch.readHeader Switch.frameBtoAll).dst = MacAddress.broadcast
      ∧ (Switch.parse_frame ⟨Switch.ports3, [⟨0, MacAddress.broadcast⟩]⟩ 1
          Switch.frameBtoAll).2 = [[0, 18, 0, 1] ++ Switch.frameBtoAll]
      ∧ Switch.flood ⟨Switch.ports3, [⟨0, MacAddress.broadcast⟩]⟩ 1 Switch.frameBtoAll
        = [[0, 18, 0, 1] ++ Switch.frameBtoAll, [0, 18, 0, 3] ++ Switch.frameBtoAll] := by
  decide

/-- C4 (amended). In every state reached from the empty table by events among
which no frame of at least 14 bytes has the source `FF:FF:FF:FF:FF:FF`, a frame
of at least 14 bytes whose destination is the broadcast address and whose
source is not is flooded by `parse_frame` of `switch.c`: what is written is
what the flood loop writes. -/
theorem C4_switch_broadcast_floods (gifc : List Switch.Interface)
    (evs : List Switch.Event) (s : Switch.State) (ifc : Nat) (frame : List Nat)
    (hrun : Switch.run (Switch.start gifc) evs = some s)
    (hevs : ∀ n f, Switch.Event.frame n f ∈ evs → 14 ≤ f.length →
      (Switch.readHeader f).src ≠ MacAddress.broadcast)
    (hlen : 14 ≤ frame.length)
    (hdst : (Switch.readHeader frame).dst = MacAddress.broadcast)
    (hsrc : (Switch.readHeader frame).src ≠ MacAddress.broadcast) :
    (Switch.parse_frame s ifc frame).2 = Switch.flood s ifc frame := by
  have hstep : ∀ (t : List Switch.SwitchCache) (i : Nat) (src : MacAddress),
      src ≠ MacAddress.broadcast →
      MacAddress.broadcast ∉ t.map (fun e => e.macAddress) →
      MacAddress.broadcast ∉ (Switch.learn t i src).map (fun e => e.macAddress) := by
    intro t i src hne ht hmem
    rcases Switch.learn_mem_macs t i src _ hmem with h | h
    · exact ht h
    · exact hne h.symm
  have hinv : MacAddress.broadcast ∉ s.switchCache.map (fun e => e.macAddress) := by
    refine Switch.run_table_inv
      (fun t => MacAddress.broadcast ∉ t.map (fun e => e.macAddress))
      (fun e => ∀ n f, e = Switch.Event.frame n f → 14 ≤ f.length →
        (Switch.readHeader f).src ≠ MacAddress.broadcast)
      ?_ evs (Switch.start gifc) s ?_ ?_ hrun
    · intro t n f hQ hl ht
      exact hstep t (n - 1) _ (hQ n f rfl hl) ht
    · intro e he n f hef hl
      exact hevs n f (hef ▸ he) hl
    · simp [Switch.start]
  rw [Switch.parse_frame_long s ifc frame hlen]
  simp only
  rw [Switch.forward_of_miss]
  · rfl
  · rw [hdst, Switch.lookup_eq_none_iff]
    exact hstep _ ifc _ hsrc hinv

/-- C4 (amended) at ports 1, 2, 3: after host A's broadcast on port 1, host B's
broadcast received on port 2 goes to ports 1 and 3. -/
theorem C4_switch_broadcast_floods_witness :
    Switch.run (Switch.start Switch.ports3) [.frame 1 Switch.frameAtoAll]
        = some ⟨Switch.ports3, [⟨0, Switch.hostA⟩]⟩
      ∧ (Switch.parse_frame ⟨Switch.ports3, [⟨0, Switch.hostA⟩]⟩ 1 Switch.frameBtoAll).2
        = [[0, 18, 0, 1] ++ Switch.frameBtoAll, [0, 18, 0, 3] ++ Switch.frameBtoAll] :=
  ⟨by decide,
    (C4_switch_broadcast_floods Switch.ports3 [.frame 1 Switch.frameAtoAll]
      ⟨Switch.ports3, [⟨0, Switch.hostA⟩]⟩ 1 Switch.frameBtoAll (by decide)
      (by
        intro n f hmem _
        simp only [List.mem_singleton, Switch.Event.frame.injEq] at hmem
        rw [hmem.2]
        decide)
      (by decide) (by decide) (by decide)).trans (by decide)⟩

/-- C5, as stated, fails: the table keeps the port on which an address was
first seen. From the empty table host A's broadcast arrives on port 3 and then
on port 1, so a frame with source A has been received on port 1; the frame of
host B to A that then arrives on port 2 is written once, for port 3 (record
`00 12 00 03`), not for port 1. -/
theorem C5_counterexample :
    Switch.run (Switch.start Switch.ports3)
        [.frame 3 Switch.frameAtoAll, .frame 1 Switch.frameAtoAll]
        = some ⟨Switch.ports3, [⟨2, Switch.hostA⟩]⟩
      ∧ (Switch.readHeader Switch.frameAtoAll).src = Switch.hostA
      ∧ (Switch.readHeader Switch.frameBtoA).dst = Switch.hostA
      ∧ Switch.handle_frame ⟨Switch.ports3, [⟨2, Switch.hostA⟩]⟩ 2 Switch.frameBtoA
        = .ok (⟨Switch.ports3, [⟨2, Switch.hostA⟩, ⟨1, Switch.hostB⟩]⟩,
               [[0, 18, 0, 3] ++ Switch.frameBtoA])
      ∧ Switch.forward_to (Switch.State.ifc ⟨Switch.ports3, [⟨2, Switch.hostA⟩]⟩ 0)
          Switch.frameBtoA Switch.frameBtoA.length
        = [0, 18, 0, 1] ++ Switch.frameBtoA := by
  decide

/-- C5 (amended). Plain switch, any ports: let the events `pre` be processed
from the empty table, none of them a frame of at least 14 bytes with source
address A, and let the table still have room. Let then a frame of at least 14
bytes with source A be received on port `p + 1` (that is `gifc[p]`), followed
by any events, frames with source A on other ports among them. Every later
frame of at least 14 bytes with destination A that arrives on a port `q + 1`
different from `p + 1` is written exactly once, as the record of `forward_to`
for `gifc[p]`, which still has the port number it started with, and the record
carries the frame byte for byte. -/
theorem C5_switch_unicast_after_learning (gifc : List Switch.Interface) (p q : Nat)
    (f1 f2 : List Nat) (pre mid : List Switch.Event) (s0 s2 : Switch.State)
    (hq : q < gifc.length) (_hpq : q ≠ p)
    (h1 : 14 ≤ f1.length) (h2 : 14 ≤ f2.length)
    (hdst : (Switch.readHeader f2).dst = (Switch.readHeader f1).src)
    (hpre : Switch.run (Switch.start gifc) pre = some s0)
    (hfirst : ∀ n f, Switch.Event.frame n f ∈ pre → 14 ≤ f.length →
      (Switch.readHeader f).src ≠ (Switch.readHeader f1).src)
    (hroom : s0.switchCache.length < Switch.TABLE_SIZE)
    (hrun : Switch.run s0 (.frame (p + 1) f1 :: mid) = some s2) :
    (∃ s3, Switch.handle_frame s2 (q + 1) f2
        = .ok (s3, [Switch.forward_to (s2.ifc p) f2 f2.length]))
      ∧ (s2.ifc p).ifc_num = (gifc.getD p default).ifc_num
      ∧ (Switch.forward_to (s2.ifc p) f2 f2.length).drop 4 = f2 := by
  obtain ⟨hlen0, hnum0⟩ := Switch.run_ports pre (Switch.start gifc) s0 hpre
  have hnew : (Switch.readHeader f1).src ∉ s0.switchCache.map (fun e => e.macAddress) := by
    refine Switch.run_table_inv
      (fun t => (Switch.readHeader f1).src ∉ t.map (fun e => e.macAddress))
      (fun e => ∀ n f, e = Switch.Event.frame n f → 14 ≤ f.length →
        (Switch.readHeader f).src ≠ (Switch.readHeader f1).src)
      ?_ pre (Switch.start gifc) s0 ?_ ?_ hpre
    · intro t n f hQ hl ht hmem
      rcases Switch.learn_mem_macs t (n - 1) _ _ hmem with h | h
      · exact ht h
      · exact hQ n f rfl hl h.symm
    · intro e he n f hef hl
      exact hfirst n f (hef ▸ he) hl
    · simp [Switch.start]
  obtain ⟨s1, hs1, hmid⟩ := Switch.run_cons _ _ _ _ hrun
  obtain ⟨_, _, hs1eq⟩ := Switch.step_frame_inv _ _ _ _ hs1
  obtain ⟨hlen2, hnum2⟩ := Switch.run_ports mid s1 s2 hmid
  have hg1 : s1.gifc = s0.gifc := by rw [hs1eq, Switch.parse_frame_gifc]
  have ht1 : Switch.lookup s1.switchCache (Switch.readHeader f1).src
      = some ⟨p, (Switch.readHeader f1).src⟩ := by
    rw [hs1eq, Switch.parse_frame_long _ _ _ h1]
    simp only [Nat.add_sub_cancel]
    exact Switch.lookup_learn_self s0.switchCache p _ hnew hroom
  have ht2 : Switch.lookup s2.switchCache (Switch.readHeader f1).src
      = some ⟨p, (Switch.readHeader f1).src⟩ :=
    Switch.run_table_inv
      (fun t => Switch.lookup t (Switch.readHeader f1).src
        = some ⟨p, (Switch.readHeader f1).src⟩)
      (fun _ => True)
      (fun t n f _ _ ht => Switch.lookup_learn_of_some t _ _ _ _ ht)
      mid s1 s2 (fun _ _ => trivial) ht1 hmid
  have hout : (Switch.parse_frame s2 q f2).2
      = [Switch.forward_to (s2.ifc p) f2 f2.length] := by
    rw [Switch.parse_frame_long s2 q f2 h2]
    simp only
    rw [Switch.forward_of_hit _ q f2 ⟨p, (Switch.readHeader f1).src⟩]
    · rfl
    · rw [hdst]
      exact Switch.lookup_learn_of_some _ _ _ _ _ ht2
  refine ⟨⟨(Switch.parse_frame s2 q f2).1, ?_⟩, ?_, forward_to_iob_payload _ f2⟩
  · rw [Switch.handle_frame_ok s2 (q + 1) f2 (by omega)
      (by rw [hlen2, hg1, hlen0]; simp only [Switch.start]; omega)]
    rw [Nat.add_sub_cancel, ← hout]
  · rw [hnum2 p]
    have e1 : (s1.ifc p).ifc_num = (s0.ifc p).ifc_num := by
      simp only [Switch.State.ifc]; rw [hg1]
    rw [e1, hnum0 p]
    rfl

/-- C5 (amended) at ports 1, 2, 3: host B's broadcast arrives on port 2, then
host A's broadcast on port 1 and once more on port 3; host B's frame to A that
then arrives on port 2 is written to port 1 only. -/
theorem C5_switch_unicast_after_learning_witness :
    Switch.run (Switch.start Switch.ports3) [.frame 2 Switch.frameBtoAll]
        = some ⟨Switch.ports3, [⟨1, Switch.hostB⟩]⟩
      ∧ Switch.run ⟨Switch.ports3, [⟨1, Switch.hostB⟩]⟩
          [.frame 1 Switch.frameAtoAll, .frame 3 Switch.frameAtoAll]
        = some ⟨Switch.ports3, [⟨1, Switch.hostB⟩, ⟨0, Switch.hostA⟩]⟩
      ∧ (∃ s3, Switch.handle_frame ⟨Switch.ports3, [⟨1, Switch.hostB⟩, ⟨0, Switch.hostA⟩]⟩ 2
          Switch.frameBtoA = .ok (s3, [[0, 18, 0, 1] ++ Switch.frameBtoA])) :=
  ⟨by decide, by decide,
    (C5_switch_unicast_after_learning Switch.ports3 0 1 Switch.frameAtoAll Switch.frameBtoA
      [.frame 2 Switch.frameBtoAll] [.frame 3 Switch.frameAtoAll]
      ⟨Switch.ports3, [⟨1, Switch.hostB⟩]⟩
      ⟨Switch.ports3, [⟨1, Switch.hostB⟩, ⟨0, Switch.hostA⟩]⟩
      (by decide) (by decide) (by decide) (by decide) (by decide) (by decide)
      (by
        intro n f hmem _
        simp only [List.mem_singleton, Switch.Event.frame.injEq] at hmem
        rw [hmem.2]
        decide)
      (by decide) (by decide)).1⟩

/-! ## The learning table along runs -/

namespace Switch

theorem learn_mem (t : List SwitchCache) (ifc : Nat) (src : MacAddress)
    (h : src ∈ t.map (fun e => e.macAddress) ∨ t.length < TABLE_SIZE) :
    src ∈ (learn t ifc src).map (fun e => e.macAddress) := by
  by_cases hex : src ∈ t.map (fun e => e.macAddress)
  · rw [learn_of_exists t ifc src ((srcAddressExists_iff src t).2 hex)]; exact hex
  · have hcap : t.length < TABLE_SIZE := h.resolve_left hex
    have hf : srcAddressExists src t = false := by
      rw [← Bool.not_eq_true, srcAddressExists_iff]; exact hex
    rw [learn_of_new t ifc src hf hcap]; simp

/-- A frame whose source is already in the table leaves the globals as they
are. -/
theorem parse_frame_known_src (s : State) (ifc : Nat) (frame : List Nat)
    (h : (readHeader frame).src ∈ s.switchCache.map (fun e => e.macAddress)) :
    (parse_frame s ifc frame).1 = s := by
  by_cases hl : frame.length < 14
  · rw [parse_frame_short s ifc frame hl]
  · rw [parse_frame_long s ifc frame (by omega)]
    simp only
    rw [learn_of_exists _ _ _ ((srcAddressExists_iff _ _).2 h)]

theorem foldl_known_src (p : Nat) (m : MacAddress) (fs : List (List Nat)) :
    ∀ (s : State), m ∈ s.switchCache.map (fun e => e.macAddress) →
      (∀ g ∈ fs, (readHeader g).src = m) →
      fs.foldl (fun st g => (parse_frame st p g).1) s = s := by
  induction fs with
  | nil => intro s _ _; rfl
  | cons g gs ih =>
    intro s hm hfs
    rw [List.foldl_cons]
    have hg : (readHeader g).src = m := hfs g (List.mem_cons_self _ _)
    rw [parse_frame_known_src s p g (hg ▸ hm)]
    exact ih s hm (fun g1 hg1 => hfs g1 (List.mem_cons_of_mem _ hg1))

theorem run_nodup (gifc : List Interface) (evs : List Event) (s : State)
    (h : run (start gifc) evs = some s) :
    (s.switchCache.map (fun e => e.macAddress)).Nodup :=
  run_table_inv (fun t => (t.map (fun e => e.macAddress)).Nodup) (fun _ => True)
    (fun t n f _ _ ht => learn_nodup t _ _ ht) evs (start gifc) s
    (fun _ _ => trivial) (by simp [start]) h

theorem run_length_le (gifc : List Interface) (evs : List Event) (s : State)
    (h : run (start gifc) evs = some s) : s.switchCache.length ≤ TABLE_SIZE :=
  run_table_inv (fun t => t.length ≤ TABLE_SIZE) (fun _ => True)
    (fun t n f _ _ ht => learn_length_le t _ _ ht) evs (start gifc) s
    (fun _ _ => trivial) (by simp [start]) h

end Switch

namespace VSwitch

/-- An admitted frame whose source was just learned on the same port leaves the
globals as they are, and so does any frame that is not admitted. -/
theorem vs_parse_frame_learned_src (t : List SwitchCache) (g : List Interface) (ifc : Nat)
    (m : MacAddress) (frame mem : List Nat)
    (hm : m ∈ (learn t ifc m).map (fun e => e.macAddress))
    (hsrc : (readHeader frame).src = m) :
    (parse_frame ⟨g, learn t ifc m⟩ ifc frame mem).1 = ⟨g, learn t ifc m⟩ := by
  rcases vs_parse_frame_table ⟨g, learn t ifc m⟩ ifc frame mem with h | ⟨_, _, h⟩
  · exact h
  · rw [h, hsrc]
    simp only
    rw [vs_learn_again t ifc m hm]

theorem vs_foldl_learned_src (t : List SwitchCache) (g : List Interface) (p : Nat)
    (m : MacAddress) (hm : m ∈ (learn t p m).map (fun e => e.macAddress))
    (fs : List (List Nat × List Nat)) (hfs : ∀ x ∈ fs, (readHeader x.1).src = m) :
    fs.foldl (fun st x => (parse_frame st p x.1 x.2).1) ⟨g, learn t p m⟩
      = ⟨g, learn t p m⟩ := by
  induction fs with
  | nil => rfl
  | cons x xs ih =>
    rw [List.foldl_cons,
      vs_parse_frame_learned_src t g p m x.1 x.2 hm (hfs x (List.mem_cons_self _ _))]
    exact ih (fun y hy => hfs y (List.mem_cons_of_mem _ hy))

theorem vs_floodOne_eq (s : State) (ifc : Nat) (eh : EthernetHeader) (frame : List Nat)
    (g : Interface) :
    floodOne s ifc eh frame g
      = if g.mac ≠ (s.ifc ifc).mac then floodBody s ifc eh frame g else [] := by
  unfold floodOne floodBody
  by_cases hg : g.mac = (s.ifc ifc).mac
  · have hz : maccmp (s.ifc ifc).mac g.mac = 0 := (maccmp_eq_zero_iff _ _).2 hg.symm
    have hn : ¬ maccmp (s.ifc ifc).mac g.mac ≠ 0 := fun h => h hz
    have hg2 : ¬ g.mac ≠ (s.ifc ifc).mac := fun h => h hg
    rw [if_neg hn, if_neg hg2]
  · have hn : maccmp (s.ifc ifc).mac g.mac ≠ 0 := fun h =>
      hg ((maccmp_eq_zero_iff _ _).1 h).symm
    rw [if_pos hn, if_pos hg]

theorem vs_flood_eq (s : State) (ifc : Nat) (eh : EthernetHeader) (frame : List Nat) :
    flood s ifc eh frame
      = ((s.gifc.filter (fun g => decide (g.mac ≠ (s.ifc ifc).mac))).map
          (floodBody s ifc eh frame)).flatten := by
  unfold flood
  generalize s.gifc = l
  induction l with
  | nil => rfl
  | cons g l ih =>
    rw [List.map_cons, List.flatten_cons, ih, vs_floodOne_eq, List.filter_cons]
    by_cases hg : g.mac ≠ (s.ifc ifc).mac
    · have hd : decide (g.mac ≠ (s.ifc ifc).mac) = true := decide_eq_true hg
      rw [if_pos hg]
      simp only [hd, if_true, List.map_cons, List.flatten_cons]
    · have hd : decide (g.mac ≠ (s.ifc ifc).mac) = false := decide_eq_false hg
      rw [if_neg hg]
      simp only [hd, Bool.false_eq_true, if_false, List.nil_append]

theorem vs_run_nodup (gifc : List Interface) (evs : List Event) (s : State)
    (h : run (start gifc) evs = some s) :
    (s.switchCache.map (fun e => e.macAddress)).Nodup :=
  vs_run_table_inv (fun t => (t.map (fun e => e.macAddress)).Nodup)
    (fun t _ _ ht => vs_learn_nodup t _ _ ht) evs (start gifc) s (by simp [start]) h

theorem vs_run_length_le (gifc : List Interface) (evs : List Event) (s : State)
    (h : run (start gifc) evs = some s) : s.switchCache.length ≤ TABLE_SIZE :=
  vs_run_table_inv (fun t => t.length ≤ TABLE_SIZE)
    (fun t _ _ ht => vs_learn_length_le t _ _ ht) evs (start gifc) s (by simp [start]) h

end VSwitch

/-- C6. In every state reached from the empty table by any sequence of events
(frames and address notifications), no two used entries of the learning table
hold the same MAC address, in `switch.c` and in `vswitch.c`. -/
theorem C6_learning_table_keys_unique
    (gs : List Switch.Interface) (es : List Switch.Event) (s : Switch.State)
    (gv : List VSwitch.Interface) (ev : List VSwitch.Event) (v : VSwitch.State)
    (hs : Switch.run (Switch.start gs) es = some s)
    (hv : VSwitch.run (VSwitch.start gv) ev = some v) :
    (s.switchCache.map (fun e => e.macAddress)).Nodup
      ∧ (v.switchCache.map (fun e => e.macAddress)).Nodup :=
  ⟨Switch.run_nodup gs es s hs, VSwitch.vs_run_nodup gv ev v hv⟩

/-- C6 on two short runs in which host A is seen twice, on different ports. -/
theorem C6_learning_table_keys_unique_witness :
    Switch.run (Switch.start Switch.ports3)
        [.frame 1 Switch.frameAtoAll, .frame 2 Switch.frameBtoA, .frame 2 Switch.frameAtoAll]
        = some ⟨Switch.ports3, [⟨0, Switch.hostA⟩, ⟨1, Switch.hostB⟩]⟩
      ∧ VSwitch.run (VSwitch.start VSwitch.ports2)
          [.frame 1 VSwitch.frameAtoAll VSwitch.mem12,
           .frame 2 VSwitch.frameTagged20 VSwitch.mem12]
        = some ⟨VSwitch.ports2, [⟨1, ⟨0xAA, 0, 0, 0, 0, 1⟩⟩]⟩
      ∧ ([Switch.hostA, Switch.hostB] : List MacAddress).Nodup
      ∧ ([⟨0xAA, 0, 0, 0, 0, 1⟩] : List MacAddress).Nodup :=
  ⟨by decide, by decide,
    C6_learning_table_keys_unique Switch.ports3
      [.frame 1 Switch.frameAtoAll, .frame 2 Switch.frameBtoA, .frame 2 Switch.frameAtoAll]
      ⟨Switch.ports3, [⟨0, Switch.hostA⟩, ⟨1, Switch.hostB⟩]⟩
      VSwitch.ports2
      [.frame 1 VSwitch.frameAtoAll VSwitch.mem12,
       .frame 2 VSwitch.frameTagged20 VSwitch.mem12]
      ⟨VSwitch.ports2, [⟨1, ⟨0xAA, 0, 0, 0, 0, 1⟩⟩]⟩ (by decide) (by decide)⟩

/-- C7. Learning is idempotent. Plain switch: in a reachable state whose table
has room, after a frame of at least 14 bytes with source `m` on port `p`, any
number of further frames with source `m` on port `p` leave the globals equal to
those after the first frame, and the table then holds exactly one entry for
`m`. The same holds in the vswitch when the first frame has at least 16 bytes
and is admitted. -/
theorem C7_learning_idempotent
    (gs : List Switch.Interface) (es : List Switch.Event) (s : Switch.State)
    (p : Nat) (f : List Nat) (fs : List (List Nat))
    (gv : List VSwitch.Interface) (ev : List VSwitch.Event) (v : VSwitch.State)
    (pv : Nat) (fv memv : List Nat) (fvs : List (List Nat × List Nat))
    (hs : Switch.run (Switch.start gs) es = some s)
    (hcap : s.switchCache.length < Switch.TABLE_SIZE)
    (hf : 14 ≤ f.length)
    (hfs : ∀ g ∈ fs, (Switch.readHeader g).src = (Switch.readHeader f).src)
    (hv : VSwitch.run (VSwitch.start gv) ev = some v)
    (hvcap : v.switchCache.length < VSwitch.TABLE_SIZE)
    (hfv : 16 ≤ fv.length)
    (hadm : VSwitch.admitted (v.ifc pv) (VSwitch.readHeader fv) = true)
    (hfvs : ∀ x ∈ fvs, (VSwitch.readHeader x.1).src = (VSwitch.readHeader fv).src) :
    (fs.foldl (fun st g => (Switch.parse_frame st p g).1) (Switch.parse_frame s p f).1
        = (Switch.parse_frame s p f).1
      ∧ ((Switch.parse_frame s p f).1.switchCache.map (fun e => e.macAddress)).count
          (Switch.readHeader f).src = 1)
    ∧ (fvs.foldl (fun st x => (VSwitch.parse_frame st pv x.1 x.2).1)
          (VSwitch.parse_frame v pv fv memv).1
        = (VSwitch.parse_frame v pv fv memv).1
      ∧ ((VSwitch.parse_frame v pv fv memv).1.switchCache.map
          (fun e => e.macAddress)).count (VSwitch.readHeader fv).src = 1) := by
  constructor
  · have hmem : (Switch.readHeader f).src
        ∈ (Switch.parse_frame s p f).1.switchCache.map (fun e => e.macAddress) := by
      rw [Switch.parse_frame_long s p f hf]
      exact Switch.learn_mem _ _ _ (Or.inr hcap)
    have hnd : ((Switch.parse_frame s p f).1.switchCache.map
        (fun e => e.macAddress)).Nodup := by
      rw [Switch.parse_frame_long s p f hf]
      exact Switch.learn_nodup _ _ _ (Switch.run_nodup gs es s hs)
    exact ⟨Switch.foldl_known_src p _ fs _ hmem hfs, List.count_eq_one_of_mem hnd hmem⟩
  · have hmem : (VSwitch.readHeader fv).src
        ∈ (VSwitch.learn v.switchCache pv (VSwitch.readHeader fv).src).map
            (fun e => e.macAddress) :=
      VSwitch.vs_learn_mem _ _ _ (Or.inr hvcap)
    have hnd : ((VSwitch.learn v.switchCache pv (VSwitch.readHeader fv).src).map
        (fun e => e.macAddress)).Nodup :=
      VSwitch.vs_learn_nodup _ _ _ (VSwitch.vs_run_nodup gv ev v hv)
    rw [VSwitch.vs_parse_frame_admitted v pv fv memv hfv hadm]
    exact ⟨VSwitch.vs_foldl_learned_src v.switchCache v.gifc pv _ hmem fvs hfvs,
      List.count_eq_one_of_mem hnd hmem⟩

/-- C7 with host A known on port 1: host B is seen on port 2 three times
(plain switch), and host A's frame is seen on port 1 three times (vswitch). -/
theorem C7_learning_idempotent_witness :
    ([Switch.frameBtoA, Switch.frameBtoAll].foldl
        (fun st g => (Switch.parse_frame st 1 g).1)
        (Switch.parse_frame ⟨Switch.ports3, [⟨0, Switch.hostA⟩]⟩ 1 Switch.frameBtoA).1
        = (Switch.parse_frame ⟨Switch.ports3, [⟨0, Switch.hostA⟩]⟩ 1 Switch.frameBtoA).1
      ∧ ((Switch.parse_frame ⟨Switch.ports3, [⟨0, Switch.hostA⟩]⟩ 1
          Switch.frameBtoA).1.switchCache.map (fun e => e.macAddress)).count
          (Switch.readHeader Switch.frameBtoA).src = 1)
    ∧ ([(VSwitch.frameAtoAll, VSwitch.mem12), (VSwitch.frameAtoA, VSwitch.mem12)].foldl
        (fun st x => (VSwitch.parse_frame st 0 x.1 x.2).1)
        (VSwitch.parse_frame (VSwitch.start VSwitch.ports2) 0 VSwitch.frameAtoAll
          VSwitch.mem12).1
        = (VSwitch.parse_frame (VSwitch.start VSwitch.ports2) 0 VSwitch.frameAtoAll
          VSwitch.mem12).1
      ∧ ((VSwitch.parse_frame (VSwitch.start VSwitch.ports2) 0 VSwitch.frameAtoAll
          VSwitch.mem12).1.switchCache.map (fun e => e.macAddress)).count
          (VSwitch.readHeader VSwitch.frameAtoAll).src = 1) :=
  C7_learning_idempotent Switch.ports3 [.frame 1 Switch.frameAtoAll]
    ⟨Switch.ports3, [⟨0, Switch.hostA⟩]⟩ 1 Switch.frameBtoA
    [Switch.frameBtoA, Switch.frameBtoAll]
    VSwitch.ports2 [] (VSwitch.start VSwitch.ports2) 0 VSwitch.frameAtoAll VSwitch.mem12
    [(VSwitch.frameAtoAll, VSwitch.mem12), (VSwitch.frameAtoA, VSwitch.mem12)]
    (by decide) (by decide) (by decide) (by decide) (by decide) (by decide) (by decide)
    (by decide) (by decide)

/-- C8. The learning table never holds more than its capacity (1024 entries in
`switch.c`, 500 in `vswitch.c`) in any state reached from the empty table. When
the table is full, a frame (long enough, and in the vswitch admitted) whose
source is not in the table leaves the globals exactly as they were, so every
entry keeps its address and port, and the frame is forwarded. Plain switch: if
the destination is the table entry `e`, one record for the port of `e`; if it
is in no entry, one record for every port whose address differs from that of
the ingress port; each record carries the frame byte for byte. vswitch: if the
destination is the table entry `e` with port `q`, what the hit branch writes
for `q` (the frame without its tag when the VLAN id equals the untagged VLAN of
`q`, the frame when `q` lists the VLAN as tagged or shares the untagged VLAN,
its first 8 bytes when an untagged frame goes to a port that lists the VLAN as
tagged, nothing otherwise); if it is in no entry, what the body of the flood
loop writes for every port whose address differs from that of the ingress
port. -/
theorem C8_learning_table_saturation
    (gs : List Switch.Interface) (es : List Switch.Event) (s : Switch.State)
    (t : Switch.State) (p : Nat) (f : List Nat)
    (gv : List VSwitch.Interface) (ev : List VSwitch.Event) (v : VSwitch.State)
    (tv : VSwitch.State) (pv : Nat) (fv memv : List Nat)
    (hs : Switch.run (Switch.start gs) es = some s)
    (hfull : t.switchCache.length = 1024)
    (hf : 14 ≤ f.length)
    (_hnew : (Switch.readHeader f).src ∉ t.switchCache.map (fun e => e.macAddress))
    (hv : VSwitch.run (VSwitch.start gv) ev = some v)
    (hvfull : tv.switchCache.length = 500)
    (hfv : 16 ≤ fv.length)
    (hadm : VSwitch.admitted (tv.ifc pv) (VSwitch.readHeader fv) = true)
    (hvnew : (VSwitch.readHeader fv).src ∉ tv.switchCache.map (fun e => e.macAddress)) :
    (s.switchCache.length ≤ 1024
      ∧ (Switch.parse_frame t p f).1 = t
      ∧ (∀ e, Switch.lookup t.switchCache (Switch.readHeader f).dst = some e →
          (Switch.parse_frame t p f).2
            = [Switch.forward_to (t.ifc e.interface) f f.length])
      ∧ (Switch.lookup t.switchCache (Switch.readHeader f).dst = none →
          (Switch.parse_frame t p f).2
            = (t.gifc.filter (fun g => decide (g.mac ≠ (t.ifc p).mac))).map
                (fun g => Switch.forward_to g f f.length))
      ∧ (∀ g, (Switch.forward_to g f f.length).drop 4 = f))
    ∧ (v.switchCache.length ≤ 500
      ∧ (VSwitch.parse_frame tv pv fv memv).1 = tv
      ∧ (∀ e, VSwitch.lookup tv.switchCache (VSwitch.readHeader fv).dst = some e →
          (VSwitch.parse_frame tv pv fv memv).2
            = if (VSwitch.readHeader fv).tag = 0x0081 then
                if ((VSwitch.readHeader fv).vlanId : Int)
                    = (tv.ifc e.interface).untagged_vlan then
                  [VSwitch.forward_to (tv.ifc e.interface)
                    (memv.take 12 ++ fv.drop 16) (fv.length - 4)]
                else if VSwitch.scan_vlans (tv.ifc e.interface).tagged_vlans
                    (VSwitch.readHeader fv).vlanId = true then
                  [VSwitch.forward_to (tv.ifc e.interface) fv fv.length]
                else []
              else
                if (tv.ifc pv).untagged_vlan = (tv.ifc e.interface).untagged_vlan then
                  [VSwitch.forward_to (tv.ifc e.interface) fv fv.length]
                else if VSwitch.scan_vlans (tv.ifc e.interface).tagged_vlans
                    (tv.ifc pv).untagged_vlan = true then
                  [VSwitch.forward_to (tv.ifc e.interface) fv 8]
                else [])
      ∧ (VSwitch.lookup tv.switchCache (VSwitch.readHeader fv).dst = none →
          (VSwitch.parse_frame tv pv fv memv).2
            = ((tv.gifc.filter (fun g => decide (g.mac ≠ (tv.ifc pv).mac))).map
                (VSwitch.floodBody tv pv (VSwitch.readHeader fv) fv)).flatten)) := by
  have hS : Switch.parse_frame t p f = (t, Switch.forward t p f) := by
    rw [Switch.parse_frame_long t p f hf,
      Switch.learn_of_full _ _ _ (by rw [hfull]; decide)]
  have hV : VSwitch.parse_frame tv pv fv memv = (tv, VSwitch.forward tv pv fv memv) := by
    rw [VSwitch.vs_parse_frame_admitted tv pv fv memv hfv hadm,
      VSwitch.vs_learn_of_full _ _ _ (by rw [hvfull]; decide),
      VSwitch.vs_rehome_of_not_mem _ _ _ hvnew]
  refine ⟨⟨Switch.run_length_le gs es s hs, ?_, ?_, ?_,
      fun g => forward_to_iob_payload g.ifc_num f⟩,
    ⟨VSwitch.vs_run_length_le gv ev v hv, ?_, ?_, ?_⟩⟩
  · rw [hS]
  · intro e he
    rw [hS]
    exact Switch.forward_of_hit t p f e he
  · intro hm
    rw [hS]
    simp only
    rw [Switch.forward_of_miss t p f hm, Switch.flood_eq]
  · rw [hV]
  · intro e he
    rw [hV]
    simp only [VSwitch.forward, he, VSwitch.hit]
    have h8 : htons 0x8100 = 0x0081 := by decide
    rw [h8]
    by_cases ht : (VSwitch.readHeader fv).tag = 0x0081
    · rw [if_pos ht, if_pos ht]
      by_cases h1 : ((VSwitch.readHeader fv).vlanId : Int) = (tv.ifc e.interface).untagged_vlan
      · rw [if_pos h1, if_pos h1]
      · rw [if_neg h1, if_neg h1]
        cases hsc : VSwitch.scan_vlans (tv.ifc e.interface).tagged_vlans
            (VSwitch.readHeader fv).vlanId <;> simp
    · rw [if_neg ht, if_neg ht]
      by_cases h1 : (tv.ifc pv).untagged_vlan = (tv.ifc e.interface).untagged_vlan
      · rw [if_pos h1, if_pos h1]
      · rw [if_neg h1, if_neg h1]
        cases hsc : VSwitch.scan_vlans (tv.ifc e.interface).tagged_vlans
            (tv.ifc pv).untagged_vlan <;> simp [VSwitch.sizeof_pointer]
  · intro hm
    rw [hV]
    simp only [VSwitch.forward, hm]
    exact VSwitch.vs_flood_eq tv pv _ fv

/-- C8 on full tables of addresses `00:00:00:00:hi:lo`, all learned on port 1.
Plain switch, ports 1, 2, 3: host A's broadcast arrives on port 1, is not
learned and is flooded to ports 2 and 3; host A's frame to `00:00:00:00:00:00`
arrives on port 2, is not learned and is written for port 1. vswitch, access
port 1 of VLAN 10 and trunk port 2: host A's untagged broadcast arrives on
port 1, is not learned and is flooded to port 2; host A's untagged frame to
`00:00:00:00:00:00` arrives on port 1, is not learned and is written for the
port of the entry, port 1. -/
theorem C8_learning_table_saturation_witness :
    Switch.fullTable.length = 1024
      ∧ VSwitch.fullTable.length = 500
      ∧ Switch.parse_frame ⟨Switch.ports3, Switch.fullTable⟩ 0 Switch.frameAtoAll
        = (⟨Switch.ports3, Switch.fullTable⟩,
           [[0, 18, 0, 2] ++ Switch.frameAtoAll, [0, 18, 0, 3] ++ Switch.frameAtoAll])
      ∧ Switch.parse_frame ⟨Switch.ports3, Switch.fullTable⟩ 1 Switch.frameAtoZero
        = (⟨Switch.ports3, Switch.fullTable⟩, [[0, 18, 0, 1] ++ Switch.frameAtoZero])
      ∧ VSwitch.parse_frame ⟨VSwitch.ports2, VSwitch.fullTable⟩ 0 VSwitch.frameAtoAll
          VSwitch.mem12
        = (⟨VSwitch.ports2, VSwitch.fullTable⟩,
           [[0, 26, 0, 2] ++ (VSwitch.frameAtoAll.take 12 ++ [0x81, 0x00, 0x00, 0x01]
              ++ VSwitch.frameAtoAll.drop 12)])
      ∧ VSwitch.parse_frame ⟨VSwitch.ports2, VSwitch.fullTable⟩ 0 VSwitch.frameAtoZero
          VSwitch.mem12
        = (⟨VSwitch.ports2, VSwitch.fullTable⟩, [[0, 22, 0, 1] ++ VSwitch.frameAtoZero]) :=
  have hA : (⟨0xAA, 0, 0, 0, 0, 1⟩ : MacAddress)
      ∉ Switch.fullTable.map (fun e => e.macAddress) := by simp [Switch.fullTable]
  have hF : (⟨0xFF, 0xFF, 0xFF, 0xFF, 0xFF, 0xFF⟩ : MacAddress)
      ∉ Switch.fullTable.map (fun e => e.macAddress) := by simp [Switch.fullTable]
  have hZ : Switch.lookup Switch.fullTable ⟨0, 0, 0, 0, 0, 0⟩
      = some ⟨0, ⟨0, 0, 0, 0, 0, 0⟩⟩ := by
    rw [Switch.fullTable, List.range_succ_eq_map, List.map_cons]
    rfl
  have hvA : (⟨0xAA, 0, 0, 0, 0, 1⟩ : MacAddress)
      ∉ VSwitch.fullTable.map (fun e => e.macAddress) := by simp [VSwitch.fullTable]
  have hvF : (⟨0xFF, 0xFF, 0xFF, 0xFF, 0xFF, 0xFF⟩ : MacAddress)
      ∉ VSwitch.fullTable.map (fun e => e.macAddress) := by simp [VSwitch.fullTable]
  have hvZ : VSwitch.lookup VSwitch.fullTable ⟨0, 0, 0, 0, 0, 0⟩
      = some ⟨0, ⟨0, 0, 0, 0, 0, 0⟩⟩ := by
    rw [VSwitch.fullTable, List.range_succ_eq_map, List.map_cons]
    rfl
  have h1 := C8_learning_table_saturation Switch.ports3 [] (Switch.start Switch.ports3)
    ⟨Switch.ports3, Switch.fullTable⟩ 0 Switch.frameAtoAll
    VSwitch.ports2 [] (VSwitch.start VSwitch.ports2)
    ⟨VSwitch.ports2, VSwitch.fullTable⟩ 0 VSwitch.frameAtoAll VSwitch.mem12
    (by decide) (by simp [Switch.fullTable]) (by decide)
    (by
      have e : (Switch.readHeader Switch.frameAtoAll).src = ⟨0xAA, 0, 0, 0, 0, 1⟩ := by decide
      rw [e]
      dsimp only
      exact hA)
    (by decide) (by simp [VSwitch.fullTable]) (by decide) (by decide)
    (by
      have e : (VSwitch.readHeader VSwitch.frameAtoAll).src = ⟨0xAA, 0, 0, 0, 0, 1⟩ := by
        decide
      rw [e]
      dsimp only
      exact hvA)
  have h2 := C8_learning_table_saturation Switch.ports3 [] (Switch.start Switch.ports3)
    ⟨Switch.ports3, Switch.fullTable⟩ 1 Switch.frameAtoZero
    VSwitch.ports2 [] (VSwitch.start VSwitch.ports2)
    ⟨VSwitch.ports2, VSwitch.fullTable⟩ 0 VSwitch.frameAtoZero VSwitch.mem12
    (by decide) (by simp [Switch.fullTable]) (by decide)
    (by
      have e : (Switch.readHeader Switch.frameAtoZero).src = ⟨0xAA, 0, 0, 0, 0, 1⟩ := by decide
      rw [e]
      dsimp only
      exact hA)
    (by decide) (by simp [VSwitch.fullTable]) (by decide) (by decide)
    (by
      have e : (VSwitch.readHeader VSwitch.frameAtoZero).src = ⟨0xAA, 0, 0, 0, 0, 1⟩ := by
        decide
      rw [e]
      dsimp only
      exact hvA)
  ⟨by simp [Switch.fullTable], by simp [VSwitch.fullTable],
    Prod.ext h1.1.2.1
      ((h1.1.2.2.2.1 (by
        have e : (Switch.readHeader Switch.frameAtoAll).dst
            = ⟨0xFF, 0xFF, 0xFF, 0xFF, 0xFF, 0xFF⟩ := by decide
        rw [e]
        dsimp only
        exact (Switch.lookup_eq_none_iff _ _).2 hF)).trans (by decide)),
    Prod.ext h2.1.2.1
      ((h2.1.2.2.1 ⟨0, ⟨0, 0, 0, 0, 0, 0⟩⟩ (by
        have e : (Switch.readHeader Switch.frameAtoZero).dst = ⟨0, 0, 0, 0, 0, 0⟩ := by decide
        rw [e]
        dsimp only
        exact hZ)).trans (by decide)),
    Prod.ext h1.2.2.1
      ((h1.2.2.2.2 (by
        have e : (VSwitch.readHeader VSwitch.frameAtoAll).dst
            = ⟨0xFF, 0xFF, 0xFF, 0xFF, 0xFF, 0xFF⟩ := by decide
        rw [e]
        dsimp only
        exact (VSwitch.vs_lookup_eq_none_iff _ _).2 hvF)).trans (by decide)),
    Prod.ext h2.2.2.1
      ((h2.2.2.2.1 ⟨0, ⟨0, 0, 0, 0, 0, 0⟩⟩ (by
        have e : (VSwitch.readHeader VSwitch.frameAtoZero).dst = ⟨0, 0, 0, 0, 0, 0⟩ := by
          decide
        rw [e]
        dsimp only
        exact hvZ)).trans (by decide))⟩

/-- C9. Plain switch: if the table maps `m` to port `p`, a frame with source
`m` received on any port `q` leaves the globals, and with them the table,
unchanged, and a later lookup of `m` still yields `p`. -/
theorem C9_switch_does_not_migrate (s : Switch.State) (m : MacAddress) (p q : Nat)
    (f : List Nat)
    (hmap : (Switch.lookup s.switchCache m).map (fun e => e.interface) = some p)
    (hsrc : (Switch.readHeader f).src = m) (_hq : q ≠ p) :
    (Switch.parse_frame s q f).1 = s
      ∧ (Switch.lookup (Switch.parse_frame s q f).1.switchCache m).map
          (fun e => e.interface) = some p := by
  have hmem : (Switch.readHeader f).src ∈ s.switchCache.map (fun e => e.macAddress) := by
    rw [hsrc]
    by_contra hn
    rw [(Switch.lookup_eq_none_iff _ _).2 hn] at hmap
    simp at hmap
  have h := Switch.parse_frame_known_src s q f hmem
  exact ⟨h, by rw [h]; exact hmap⟩

/-- C9 with host A learned on port 1: host A's frame arrives on port 2. -/
theorem C9_switch_does_not_migrate_witness :
    (Switch.lookup [⟨0, Switch.hostA⟩] Switch.hostA).map (fun e => e.interface) = some 0
      ∧ (Switch.parse_frame ⟨Switch.ports3, [⟨0, Switch.hostA⟩]⟩ 1 Switch.frameAtoAll).1
        = ⟨Switch.ports3, [⟨0, Switch.hostA⟩]⟩ :=
  ⟨by decide,
    (C9_switch_does_not_migrate ⟨Switch.ports3, [⟨0, Switch.hostA⟩]⟩ Switch.hostA 0 1
      Switch.frameAtoAll (by decide) (by decide) (by decide)).1⟩

/-- C10. vswitch: if the table has an entry for `m`, then after an admitted
frame of at least 16 bytes with source `m` received on port `q` a lookup of `m`
yields `q`; the lookup of every other address gives the entry it gave before,
and the table holds the same addresses in the same order. -/
theorem C10_vswitch_rehomes (s : VSwitch.State) (m : MacAddress) (q : Nat)
    (f mem : List Nat)
    (hmapped : (VSwitch.lookup s.switchCache m).isSome = true)
    (hlen : 16 ≤ f.length)
    (hadm : VSwitch.admitted (s.ifc q) (VSwitch.readHeader f) = true)
    (hsrc : (VSwitch.readHeader f).src = m) :
    (VSwitch.lookup (VSwitch.parse_frame s q f mem).1.switchCache m).map
        (fun e => e.interface) = some q
      ∧ (∀ m1, m1 ≠ m →
          VSwitch.lookup (VSwitch.parse_frame s q f mem).1.switchCache m1
            = VSwitch.lookup s.switchCache m1)
      ∧ (VSwitch.parse_frame s q f mem).1.switchCache.map (fun e => e.macAddress)
          = s.switchCache.map (fun e => e.macAddress) := by
  have hmem : m ∈ s.switchCache.map (fun e => e.macAddress) := by
    by_contra hn
    rw [(VSwitch.vs_lookup_eq_none_iff _ _).2 hn] at hmapped
    simp at hmapped
  have htab : (VSwitch.parse_frame s q f mem).1.switchCache
      = VSwitch.rehome s.switchCache q m := by
    rw [VSwitch.vs_parse_frame_admitted s q f mem hlen hadm, hsrc]
    exact VSwitch.vs_learn_of_found _ _ _ ((VSwitch.vs_foundEntry_iff _ _).2 hmem)
  rw [htab]
  refine ⟨?_, ?_, VSwitch.vs_rehome_macs _ _ _⟩
  · rw [VSwitch.vs_lookup_rehome]
    cases hl : VSwitch.lookup s.switchCache m with
    | none => rw [hl] at hmapped; simp at hmapped
    | some e =>
      have := (VSwitch.vs_lookup_some_mac _ _ _ hl).1
      simp [this]
  · intro m1 hne
    rw [VSwitch.vs_lookup_rehome]
    cases hl : VSwitch.lookup s.switchCache m1 with
    | none => rfl
    | some e =>
      have := (VSwitch.vs_lookup_some_mac _ _ _ hl).1
      have hne2 : e.macAddress ≠ m := by rw [this]; exact hne
      simp [hne2]

/-- C10 with host A learned on port 1 (access, VLAN 10): host A's frame tagged
for VLAN 20 arrives on port 2 (trunk of VLANs 10 and 20), and A moves to
port 2. -/
theorem C10_vswitch_rehomes_witness :
    (VSwitch.lookup [⟨0, ⟨0xAA, 0, 0, 0, 0, 1⟩⟩] ⟨0xAA, 0, 0, 0, 0, 1⟩).isSome = true
      ∧ VSwitch.admitted (VSwitch.State.ifc ⟨VSwitch.ports2, [⟨0, ⟨0xAA, 0, 0, 0, 0, 1⟩⟩]⟩ 1)
          (VSwitch.readHeader VSwitch.frameTagged20) = true
      ∧ (VSwitch.lookup
          (VSwitch.parse_frame ⟨VSwitch.ports2, [⟨0, ⟨0xAA, 0, 0, 0, 0, 1⟩⟩]⟩ 1
            VSwitch.frameTagged20 VSwitch.mem12).1.switchCache
          ⟨0xAA, 0, 0, 0, 0, 1⟩).map (fun e => e.interface) = some 1 :=
  ⟨by decide, by decide,
    (C10_vswitch_rehomes ⟨VSwitch.ports2, [⟨0, ⟨0xAA, 0, 0, 0, 0, 1⟩⟩]⟩
      ⟨0xAA, 0, 0, 0, 0, 1⟩ 1 VSwitch.frameTagged20 VSwitch.mem12
      (by decide) (by decide) (by decide) (by decide)).1⟩

/-! ## Frame length, port numbers and the transport record -/

/-- C11, as stated, fails for the vswitch: its `struct EthernetHeader` has 16
bytes, so a 14-byte frame is rejected as malformed (nothing learned, nothing
written), while the same frame followed by two more bytes is learned and
flooded. -/
theorem C11_counterexample :
    14 ≤ VSwitch.frame14.length
      ∧ VSwitch.malformed VSwitch.frame14 = true
      ∧ VSwitch.parse_frame (VSwitch.start VSwitch.ports2) 0 VSwitch.frame14 VSwitch.mem12
        = (VSwitch.start VSwitch.ports2, [])
      ∧ VSwitch.parse_frame (VSwitch.start VSwitch.ports2) 0 (VSwitch.frame14 ++ [0, 0])
          VSwitch.mem12
        = (⟨VSwitch.ports2, [⟨0, ⟨0xAA, 0, 0, 0, 0, 1⟩⟩]⟩,
           [[0, 24, 0, 2] ++ (VSwitch.frame14.take 12 ++ [0x81, 0, 0, 1]
              ++ VSwitch.frame14.drop 12 ++ [0, 0])]) := by
  decide

/-- C11 (amended). `parse_frame` rejects a frame as malformed exactly when it is
shorter than its `struct EthernetHeader`: 14 bytes in `switch.c` and `arp.c`,
16 bytes in `vswitch.c`. A rejected frame changes nothing and writes nothing.
Every longer frame is processed: the plain switch learns and forwards it, the
vswitch does so when the ingress check admits it (and else drops it), and the
arp tool appends the table entry it reads from the frame. -/
theorem C11_malformed_threshold (s : Switch.State) (v : VSwitch.State) (a : Arp.State)
    (ifc : Nat) (frame mem tail junk : List Nat) :
    (Switch.malformed frame = decide (frame.length < 14)
      ∧ Switch.parse_frame s ifc frame
        = if frame.length < 14 then (s, [])
          else (⟨s.gifc, Switch.learn s.switchCache ifc (Switch.readHeader frame).src⟩,
                Switch.forward
                  ⟨s.gifc, Switch.learn s.switchCache ifc (Switch.readHeader frame).src⟩
                  ifc frame))
    ∧ (VSwitch.malformed frame = decide (frame.length < 16)
      ∧ VSwitch.parse_frame v ifc frame mem
        = if frame.length < 16 then (v, [])
          else if VSwitch.admitted (v.ifc ifc) (VSwitch.readHeader frame) = true then
            (⟨v.gifc, VSwitch.learn v.switchCache ifc (VSwitch.readHeader frame).src⟩,
             VSwitch.forward
               ⟨v.gifc, VSwitch.learn v.switchCache ifc (VSwitch.readHeader frame).src⟩
               ifc frame mem)
          else (v, []))
    ∧ (Arp.malformed frame = decide (frame.length < 14)
      ∧ (if frame.length < 14 then
          Arp.parse_frame a ifc frame tail junk = .ok (a, [])
        else
          Arp.parse_frame a ifc frame tail junk = .aborted
            ∨ ∃ out, Arp.parse_frame a ifc frame tail junk
                = .ok (⟨a.gifc, a.arpTable ++ [Arp.table_entry (frame ++ tail)]⟩, out))) := by
  refine ⟨⟨rfl, ?_⟩, ⟨rfl, ?_⟩, ⟨rfl, ?_⟩⟩
  · by_cases h : frame.length < 14
    · rw [if_pos h, Switch.parse_frame_short s ifc frame h]
    · rw [if_neg h, Switch.parse_frame_long s ifc frame (by omega)]
  · by_cases h : frame.length < 16
    · rw [if_pos h, VSwitch.vs_parse_frame_short v ifc frame mem h]
    · rw [if_neg h]
      by_cases ha : VSwitch.admitted (v.ifc ifc) (VSwitch.readHeader frame) = true
      · rw [if_pos ha, VSwitch.vs_parse_frame_admitted v ifc frame mem (by omega) ha]
      · rw [if_neg ha, VSwitch.vs_parse_frame_rejected v ifc frame mem (by simpa using ha)]
  · by_cases h : frame.length < 14
    · rw [if_pos h]
      simp [Arp.parse_frame, Arp.sizeof_EthernetHeader, h]
    · rw [if_neg h]
      simp only [Arp.parse_frame, Arp.sizeof_EthernetHeader, h, if_false]
      by_cases hr : Arp.is_request_for (a.ifc ifc) (frame ++ tail) = true
      · simp only [hr, if_true]
        cases hf : Arp.forward_to (a.ifc ifc)
            (Arp.reply_bytes (a.ifc ifc) (frame ++ tail) ++ junk) frame.length with
        | ok iob => exact Or.inr ⟨[iob], rfl⟩
        | aborted => exact Or.inl rfl
        | outOfBounds =>
          unfold Arp.forward_to at hf
          split_ifs at hf
      · simp only [hr]
        exact Or.inr ⟨[], rfl⟩

/-- C12 (defect in the code). `handle_frame` and `handle_mac` test only
`n > num_ifc`. For `n = 0` neither aborts: `handle_frame` goes on to process
the frame on `&gifc[-1]` and `handle_mac` stores the address in `gifc[-1]`,
outside the port array. For `n = 4` with three ports both abort, and for
`n = 2` both work on the second port. -/
theorem C12_port_zero_is_not_rejected :
    Switch.handle_frame (Switch.start Switch.ports3) 0 Switch.frameAtoAll = .outOfBounds
      ∧ Switch.handle_mac (Switch.start Switch.ports3) 0 Switch.hostA = .outOfBounds
      ∧ Switch.handle_frame (Switch.start Switch.ports3) 0 Switch.frameAtoAll ≠ .aborted
      ∧ Switch.handle_mac (Switch.start Switch.ports3) 0 Switch.hostA ≠ .aborted
      ∧ Switch.handle_frame (Switch.start Switch.ports3) 4 Switch.frameAtoAll = .aborted
      ∧ Switch.handle_mac (Switch.start Switch.ports3) 4 Switch.hostA = .aborted
      ∧ Switch.handle_frame (Switch.start Switch.ports3) 2 Switch.frameAtoAll
        = .ok (Switch.parse_frame (Switch.start Switch.ports3) 1 Switch.frameAtoAll)
      ∧ Switch.handle_mac (Switch.start Switch.ports3) 2 Switch.hostA
        = .ok ⟨[⟨⟨2, 0, 0, 0, 0, 1⟩, 1⟩, ⟨Switch.hostA, 2⟩, ⟨⟨2, 0, 0, 0, 0, 3⟩, 3⟩], []⟩ := by
  decide

/-- C13, as stated, fails for frame lengths whose record does not fit the
16-bit length field: `forward_to` of `switch.c` accepts a frame of 65532 bytes
and writes 65536 bytes whose length field is `00 00`. -/
theorem C13_counterexample :
    (Switch.forward_to ⟨MacAddress.zero, 1⟩ (List.replicate 65532 0) 65532).take 4
        = [0, 0, 0, 1]
      ∧ (Switch.forward_to ⟨MacAddress.zero, 1⟩ (List.replicate 65532 0) 65532).length
        = 65536 := by
  constructor
  · decide
  · simp only [Switch.forward_to, forward_to_iob, storeU16, List.length_append,
      List.length_take, List.length_replicate, List.length_cons, List.length_nil]
    decide

theorem storeU16_htons (x : Nat) (h : x < 65536) :
    storeU16 (htons (x % 65536)) = [x / 256, x % 256] := by
  rw [Nat.mod_eq_of_lt h]
  simp only [storeU16, htons]
  have hw : x / 256 < 256 := by omega
  rw [Nat.mod_eq_of_lt hw]
  have h1 : (x % 256 * 256 + x / 256) % 256 = x / 256 := by
    rw [Nat.mul_add_mod_of_lt hw]
  have h2 : (x % 256 * 256 + x / 256) / 256 = x % 256 := by
    rw [Nat.add_comm, Nat.add_mul_div_right _ _ (by decide), Nat.div_eq_of_lt hw, Nat.zero_add]
  rw [h1, h2, Nat.mod_mod]

/-- C13 (amended). For every destination port (its number a 16-bit value) and
every frame of `n` bytes with `n + 4 < 65536`, `forward_to` of `switch.c` writes
exactly `n + 4` bytes: the big-endian 16-bit value `n + 4`, the big-endian
16-bit port number, then the `n` frame bytes unchanged. `forward_to` of `arp.c`
writes the same bytes when `n` is at most the MTU of the port and aborts
otherwise. -/
theorem C13_transport_record_layout (dst : Switch.Interface) (adst : Arp.Interface)
    (frame : List Nat) (hn : frame.length + 4 < 65536)
    (hp : dst.ifc_num < 65536) (hap : adst.ifc_num < 65536) :
    Switch.forward_to dst frame frame.length
        = [(frame.length + 4) / 256, (frame.length + 4) % 256,
           dst.ifc_num / 256, dst.ifc_num % 256] ++ frame
      ∧ (Switch.forward_to dst frame frame.length).length = frame.length + 4
      ∧ Arp.forward_to adst frame frame.length
        = if frame.length > adst.mtu then .aborted
          else .ok ([(frame.length + 4) / 256, (frame.length + 4) % 256,
                     adst.ifc_num / 256, adst.ifc_num % 256] ++ frame) := by
  have key : ∀ k, k < 65536 → forward_to_iob k frame frame.length
      = [(frame.length + 4) / 256, (frame.length + 4) % 256, k / 256, k % 256] ++ frame := by
    intro k hk
    unfold forward_to_iob sizeof_GLAB_MessageHeader
    rw [storeU16_htons _ hn, storeU16_htons _ hk, List.take_length]
    rfl
  refine ⟨key _ hp, ?_, ?_⟩
  · unfold Switch.forward_to
    rw [key _ hp]
    simp
  · unfold Arp.forward_to
    rw [key _ hap]

/-- C13 (amended) on the 14-byte frame of host B to host A and port 1. -/
theorem C13_transport_record_layout_witness :
    Switch.forward_to ⟨⟨2, 0, 0, 0, 0, 1⟩, 1⟩ Switch.frameBtoA 14
        = [0, 18, 0, 1] ++ Switch.frameBtoA
      ∧ Arp.forward_to (Arp.State.ifc (Arp.start Arp.ports1) 0) Switch.frameBtoA 14
        = .ok ([0, 18, 0, 1] ++ Switch.frameBtoA) :=
  have h := C13_transport_record_layout ⟨⟨2, 0, 0, 0, 0, 1⟩, 1⟩
    (Arp.State.ifc (Arp.start Arp.ports1) 0) Switch.frameBtoA
    (by decide) (by decide) (by decide)
  ⟨h.1, h.2.2⟩

/-! ## vswitch.c: VLAN admission and egress -/

namespace VSwitch

theorem vs_scan_vlans_iff (tv : List Int) (v : Int) (hv : v ≠ NO_VLAN) :
    scan_vlans tv v = true ↔ v ∈ tagged_set tv := by
  induction tv with
  | nil => simp [scan_vlans, tagged_set]
  | cons x xs ih =>
    unfold tagged_set at ih ⊢
    by_cases hx : x = v
    · subst hx
      simp [scan_vlans, List.takeWhile_cons, hv]
    · by_cases hn : x = NO_VLAN
      · have hnv : ¬ NO_VLAN = v := fun h => hv h.symm
        subst hn
        simp [scan_vlans, List.takeWhile_cons, hnv]
      · have hvx : ¬ v = x := fun h => hx h.symm
        simp [scan_vlans, List.takeWhile_cons, hx, hn, hvx, ih]

theorem vs_htons_8100 : htons 0x8100 = 0x0081 := by decide

theorem vs_tag_iff (frame : List Nat) :
    (readHeader frame).tag = 0x0081 ↔ frame.getD 12 0 = 0x81 ∧ frame.getD 13 0 = 0 := by
  simp only [readHeader, readU16, Nat.reduceAdd]
  omega

theorem vs_vlanId_ne_NO_VLAN (n : Nat) : (n : Int) ≠ NO_VLAN := by
  unfold NO_VLAN
  omega

/-- The ingress check in terms of the tagged set. -/
theorem vs_admitted_iff (p : Interface) (eh : EthernetHeader) :
    admitted p eh = true ↔
      if eh.tag = 0x0081 then
        (eh.vlanId : Int) ∈ tagged_set p.tagged_vlans ∧ p.untagged_vlan = NO_VLAN
      else p.untagged_vlan ≠ NO_VLAN := by
  unfold admitted
  by_cases ht : eh.tag = 0x0081
  · simp only [ht, if_true]
    rw [← vs_scan_vlans_iff _ _ (vs_vlanId_ne_NO_VLAN eh.vlanId)]
    by_cases hs : scan_vlans p.tagged_vlans (eh.vlanId : Int) = true
    · by_cases hu : p.untagged_vlan = NO_VLAN <;> simp [hs, hu]
    · simp [hs]
  · simp only [ht, if_false]
    by_cases hu : p.untagged_vlan = NO_VLAN <;> simp [hu]

/-- Every record the hit branch writes is for the port of the table entry, and
that port carries the effective VLAN. -/
theorem vs_hit_isolated (s : State) (ifc : Nat) (eh : EthernetHeader) (frame mem : List Nat)
    (e : SwitchCache) (hadm : admitted (s.ifc ifc) eh = true) (r : List Nat)
    (hr : r ∈ hit s ifc eh frame mem e) :
    ∃ payload n, r = forward_to (s.ifc e.interface) payload n
      ∧ (effective_vlan (s.ifc ifc) eh = (s.ifc e.interface).untagged_vlan
        ∨ effective_vlan (s.ifc ifc) eh ∈ tagged_set (s.ifc e.interface).tagged_vlans) := by
  have hadm2 := (vs_admitted_iff _ _).1 hadm
  unfold hit at hr
  unfold effective_vlan
  simp only [vs_htons_8100] at hr ⊢
  by_cases ht : eh.tag = 0x0081
  · simp only [ht, if_true] at hr ⊢
    by_cases h1 : (eh.vlanId : Int) = (s.ifc e.interface).untagged_vlan
    · simp only [h1, if_true, List.mem_singleton] at hr
      exact ⟨_, _, hr, Or.inl h1⟩
    · simp only [h1, if_false] at hr
      by_cases h2 : scan_vlans (s.ifc e.interface).tagged_vlans (eh.vlanId : Int) = true
      · simp only [h2, Bool.not_true, Bool.false_eq_true, if_false, List.mem_singleton] at hr
        exact ⟨_, _, hr,
          Or.inr ((vs_scan_vlans_iff _ _ (vs_vlanId_ne_NO_VLAN eh.vlanId)).1 h2)⟩
      · simp [h2] at hr
  · simp only [ht, if_false] at hr hadm2 ⊢
    by_cases h1 : (s.ifc ifc).untagged_vlan = (s.ifc e.interface).untagged_vlan
    · simp only [h1, if_true, List.mem_singleton] at hr
      exact ⟨_, _, hr, Or.inl h1⟩
    · simp only [h1, if_false] at hr
      by_cases h2 : scan_vlans (s.ifc e.interface).tagged_vlans (s.ifc ifc).untagged_vlan = true
      · simp only [h2, Bool.not_true, Bool.false_eq_true, if_false, List.mem_singleton] at hr
        exact ⟨_, _, hr, Or.inr ((vs_scan_vlans_iff _ _ hadm2).1 h2)⟩
      · simp [h2] at hr

/-- Every record the flood loop writes for a port is for that port, and the
port carries the effective VLAN. -/
theorem vs_floodOne_isolated (s : State) (ifc : Nat) (eh : EthernetHeader)
    (frame : List Nat) (g : Interface) (hadm : admitted (s.ifc ifc) eh = true)
    (r : List Nat) (hr : r ∈ floodOne s ifc eh frame g) :
    ∃ payload n, r = forward_to g payload n
      ∧ (effective_vlan (s.ifc ifc) eh = g.untagged_vlan
        ∨ effective_vlan (s.ifc ifc) eh ∈ tagged_set g.tagged_vlans) := by
  have hadm2 := (vs_admitted_iff _ _).1 hadm
  unfold floodOne at hr
  unfold effective_vlan
  simp only [vs_htons_8100] at hr ⊢
  by_cases hm : maccmp (s.ifc ifc).mac g.mac ≠ 0
  · rw [if_pos hm] at hr
    by_cases ht : eh.tag = 0x0081
    · simp only [ht, if_true] at hr ⊢
      by_cases h1 : (eh.vlanId : Int) = g.untagged_vlan
      · simp only [h1, if_true, List.mem_singleton] at hr
        exact ⟨_, _, hr, Or.inl h1⟩
      · simp only [h1, if_false] at hr
        by_cases h2 : scan_vlans g.tagged_vlans (eh.vlanId : Int) = true
        · simp only [h2, if_true, List.mem_singleton] at hr
          exact ⟨_, _, hr,
            Or.inr ((vs_scan_vlans_iff _ _ (vs_vlanId_ne_NO_VLAN eh.vlanId)).1 h2)⟩
        · simp [h2] at hr
    · simp only [ht, if_false] at hr hadm2 ⊢
      by_cases h1 : (s.ifc ifc).untagged_vlan = g.untagged_vlan
      · simp only [h1, if_true, List.mem_singleton] at hr
        exact ⟨_, _, hr, Or.inl h1⟩
      · simp only [h1, if_false] at hr
        by_cases h2 : scan_vlans g.tagged_vlans (s.ifc ifc).untagged_vlan = true
        · simp only [h2, if_true, List.mem_singleton] at hr
          exact ⟨_, _, hr, Or.inr ((vs_scan_vlans_iff _ _ hadm2).1 h2)⟩
        · simp [h2] at hr
  · rw [if_neg hm] at hr
    simp at hr

end VSwitch

/-- C14, as stated, fails for a port record that has both a tagged set and an
untagged VLAN: on a port whose tagged set holds VLAN 10 and whose untagged VLAN
is 5, a frame tagged with VLAN 10 is not admitted. -/
theorem C14_counterexample :
    (VSwitch.readHeader VSwitch.frameTagged10).tag = 0x0081
      ∧ ((VSwitch.readHeader VSwitch.frameTagged10).vlanId : Int)
          ∈ VSwitch.tagged_set VSwitch.portMixed.tagged_vlans
      ∧ VSwitch.admitted VSwitch.portMixed (VSwitch.readHeader VSwitch.frameTagged10)
        = false := by
  decide

/-- C14 (amended). For every port record and every frame, the vswitch admits a
tagged frame (bytes 12-13 are `81 00`) if and only if the VLAN id it reads from
the tag is in the port's tagged set and the port has no untagged VLAN; it
admits an untagged frame if and only if the port's untagged VLAN is not
`NO_VLAN`. A frame of at least 16 bytes is learned and forwarded when admitted
and dropped without any effect when not. -/
theorem C14_vlan_admission (s : VSwitch.State) (ifc : Nat) (frame mem : List Nat) :
    (VSwitch.admitted (s.ifc ifc) (VSwitch.readHeader frame) = true ↔
        if frame.getD 12 0 = 0x81 ∧ frame.getD 13 0 = 0 then
          ((VSwitch.readHeader frame).vlanId : Int)
              ∈ VSwitch.tagged_set (s.ifc ifc).tagged_vlans
            ∧ (s.ifc ifc).untagged_vlan = VSwitch.NO_VLAN
        else (s.ifc ifc).untagged_vlan ≠ VSwitch.NO_VLAN)
      ∧ VSwitch.parse_frame s ifc frame mem
        = if frame.length < 16 then (s, [])
          else if VSwitch.admitted (s.ifc ifc) (VSwitch.readHeader frame) = true then
            (⟨s.gifc, VSwitch.learn s.switchCache ifc (VSwitch.readHeader frame).src⟩,
             VSwitch.forward
               ⟨s.gifc, VSwitch.learn s.switchCache ifc (VSwitch.readHeader frame).src⟩
               ifc frame mem)
          else (s, []) := by
  constructor
  · rw [VSwitch.vs_admitted_iff]
    by_cases ht : (VSwitch.readHeader frame).tag = 0x0081
    · rw [if_pos ht, if_pos ((VSwitch.vs_tag_iff frame).1 ht)]
    · rw [if_neg ht, if_neg (fun h => ht ((VSwitch.vs_tag_iff frame).2 h))]
  · by_cases h : frame.length < 16
    · rw [if_pos h, VSwitch.vs_parse_frame_short s ifc frame mem h]
    · rw [if_neg h]
      by_cases ha : VSwitch.admitted (s.ifc ifc) (VSwitch.readHeader frame) = true
      · rw [if_pos ha, VSwitch.vs_parse_frame_admitted s ifc frame mem (by omega) ha]
      · rw [if_neg ha, VSwitch.vs_parse_frame_rejected s ifc frame mem (by simpa using ha)]

/-- C15. vswitch: on an ingress port whose untagged VLAN is configured, every
frame whose bytes 12-13 are `81 00` is dropped: the globals stay as they are
(nothing is learned) and nothing is written, whatever the tagged set of the
port holds. -/
theorem C15_tagged_on_untagged_port_rejected (s : VSwitch.State) (ifc : Nat)
    (frame mem : List Nat)
    (hu : (s.ifc ifc).untagged_vlan ≠ VSwitch.NO_VLAN)
    (h12 : frame.getD 12 0 = 0x81) (h13 : frame.getD 13 0 = 0) :
    VSwitch.parse_frame s ifc frame mem = (s, []) := by
  apply VSwitch.vs_parse_frame_rejected
  rw [← Bool.not_eq_true, VSwitch.vs_admitted_iff,
    if_pos ((VSwitch.vs_tag_iff frame).2 ⟨h12, h13⟩)]
  exact fun h => hu h.2

/-- C15 on a port whose tagged set holds VLAN 10 and whose untagged VLAN is 5: a
frame tagged with VLAN 10 is dropped. -/
theorem C15_tagged_on_untagged_port_rejected_witness :
    ((VSwitch.readHeader VSwitch.frameTagged10).vlanId : Int)
        ∈ VSwitch.tagged_set VSwitch.portMixed.tagged_vlans
      ∧ VSwitch.parse_frame ⟨[VSwitch.portMixed], []⟩ 0 VSwitch.frameTagged10 VSwitch.mem12
        = (⟨[VSwitch.portMixed], []⟩, []) :=
  ⟨by decide,
    C15_tagged_on_untagged_port_rejected ⟨[VSwitch.portMixed], []⟩ 0 VSwitch.frameTagged10
      VSwitch.mem12 (by decide) (by decide) (by decide)⟩

/-- C16, as stated, fails: the vswitch compares the whole 16-bit tag control
field with the configured VLAN ids. On a trunk of VLANs 10 and 20 the frame
with TCI `00 14` (VLAN 20, priority 0) is admitted, and the frame that differs
from it only in the priority bits (TCI `20 14`) is rejected, because the VLAN id
used for it is `0x2014`, not its low 12 bits `20`. -/
theorem C16_counterexample :
    VSwitch.frameTagged20prio = VSwitch.frameTagged20.set 14 0x20
      ∧ VSwitch.admitted (VSwitch.State.ifc (VSwitch.start VSwitch.ports3) 0)
          (VSwitch.readHeader VSwitch.frameTagged20) = true
      ∧ VSwitch.admitted (VSwitch.State.ifc (VSwitch.start VSwitch.ports3) 0)
          (VSwitch.readHeader VSwitch.frameTagged20prio) = false
      ∧ (VSwitch.readHeader VSwitch.frameTagged20prio).vlanId = 0x2014
      ∧ 0x2014 % 4096 = 20 := by
  decide

/-- C16 (amended). Let `f` be a tagged frame (bytes 12-13 are `81 00`) and let
`v = 256 * f[14] + f[15]` be the whole big-endian 16-bit field at bytes 14-15,
priority and DEI bits included. The VLAN id the vswitch uses is `v`: the frame
is admitted on a port exactly when `v` is in the tagged set of the port and the
port has no untagged VLAN; a hit writes for the port of the table entry, and
the flood loop writes for a port it reaches, the frame without its tag when `v`
equals the untagged VLAN of that port, the frame as it is when `v` is in its
tagged set, and nothing otherwise. So on a port whose tagged VLAN ids are below
4096 a tagged frame with a priority or DEI bit set (`f[14] ≥ 16`) is dropped
without any effect, and of two tagged frames that differ only in those bits at
most one is admitted. -/
theorem C16_vlan_id_is_whole_tci (s : VSwitch.State) (ifc : Nat) (f mem : List Nat)
    (h12 : f.getD 12 0 = 0x81) (h13 : f.getD 13 0 = 0)
    (h14 : f.getD 14 0 < 256) (h15 : f.getD 15 0 < 256) :
    (VSwitch.readHeader f).vlanId = 256 * f.getD 14 0 + f.getD 15 0
      ∧ (VSwitch.admitted (s.ifc ifc) (VSwitch.readHeader f) = true ↔
          ((256 * f.getD 14 0 + f.getD 15 0 : Nat) : Int)
              ∈ VSwitch.tagged_set (s.ifc ifc).tagged_vlans
            ∧ (s.ifc ifc).untagged_vlan = VSwitch.NO_VLAN)
      ∧ (∀ e : VSwitch.SwitchCache,
          VSwitch.hit s ifc (VSwitch.readHeader f) f mem e
            = if ((256 * f.getD 14 0 + f.getD 15 0 : Nat) : Int)
                  = (s.ifc e.interface).untagged_vlan then
                [VSwitch.forward_to (s.ifc e.interface) (mem.take 12 ++ f.drop 16)
                  (f.length - 4)]
              else if ((256 * f.getD 14 0 + f.getD 15 0 : Nat) : Int)
                  ∈ VSwitch.tagged_set (s.ifc e.interface).tagged_vlans then
                [VSwitch.forward_to (s.ifc e.interface) f f.length]
              else [])
      ∧ (∀ g : VSwitch.Interface, g.mac ≠ (s.ifc ifc).mac →
          VSwitch.floodOne s ifc (VSwitch.readHeader f) f g
            = if ((256 * f.getD 14 0 + f.getD 15 0 : Nat) : Int) = g.untagged_vlan then
                [VSwitch.forward_to g (f.take 12 ++ f.drop 16) (f.length - 4)]
              else if ((256 * f.getD 14 0 + f.getD 15 0 : Nat) : Int)
                  ∈ VSwitch.tagged_set g.tagged_vlans then
                [VSwitch.forward_to g f f.length]
              else [])
      ∧ ((∀ x ∈ VSwitch.tagged_set (s.ifc ifc).tagged_vlans, x < 4096) →
          (16 ≤ f.getD 14 0 → VSwitch.parse_frame s ifc f mem = (s, []))
          ∧ (∀ f2 : List Nat, f2.getD 12 0 = 0x81 → f2.getD 13 0 = 0 →
              f2.getD 14 0 < 256 → f2.getD 15 0 = f.getD 15 0 →
              f2.getD 14 0 % 16 = f.getD 14 0 % 16 → f2.getD 14 0 ≠ f.getD 14 0 →
              ¬ (VSwitch.admitted (s.ifc ifc) (VSwitch.readHeader f) = true
                ∧ VSwitch.admitted (s.ifc ifc) (VSwitch.readHeader f2) = true))) := by
  have hvid : ∀ k : List Nat, k.getD 14 0 < 256 → k.getD 15 0 < 256 →
      (VSwitch.readHeader k).vlanId = 256 * k.getD 14 0 + k.getD 15 0 := by
    intro k k14 k15
    simp only [VSwitch.readHeader, readU16, htons, Nat.reduceAdd]
    have e1 : (k.getD 14 0 + 256 * k.getD 15 0) % 256 = k.getD 14 0 := by omega
    have e2 : (k.getD 14 0 + 256 * k.getD 15 0) / 256 = k.getD 15 0 := by omega
    rw [e1, e2, Nat.mod_eq_of_lt k15]
    omega
  have hadmk : ∀ k : List Nat, k.getD 12 0 = 0x81 → k.getD 13 0 = 0 →
      k.getD 14 0 < 256 → k.getD 15 0 < 256 →
      (VSwitch.admitted (s.ifc ifc) (VSwitch.readHeader k) = true ↔
        ((256 * k.getD 14 0 + k.getD 15 0 : Nat) : Int)
            ∈ VSwitch.tagged_set (s.ifc ifc).tagged_vlans
          ∧ (s.ifc ifc).untagged_vlan = VSwitch.NO_VLAN) := by
    intro k k12 k13 k14 k15
    rw [VSwitch.vs_admitted_iff, if_pos ((VSwitch.vs_tag_iff k).2 ⟨k12, k13⟩),
      hvid k k14 k15]
  have ht : (VSwitch.readHeader f).tag = htons 0x8100 := by
    rw [VSwitch.vs_htons_8100]; exact (VSwitch.vs_tag_iff f).2 ⟨h12, h13⟩
  have hsc : ∀ tv : List Int,
      VSwitch.scan_vlans tv ((256 * f.getD 14 0 + f.getD 15 0 : Nat) : Int) = true
        ↔ ((256 * f.getD 14 0 + f.getD 15 0 : Nat) : Int) ∈ VSwitch.tagged_set tv :=
    fun tv => VSwitch.vs_scan_vlans_iff tv _ (VSwitch.vs_vlanId_ne_NO_VLAN _)
  refine ⟨hvid f h14 h15, hadmk f h12 h13 h14 h15, ?_, ?_, ?_⟩
  · intro e
    unfold VSwitch.hit
    simp only
    rw [if_pos ht, hvid f h14 h15]
    by_cases h1 : ((256 * f.getD 14 0 + f.getD 15 0 : Nat) : Int)
        = (s.ifc e.interface).untagged_vlan
    · rw [if_pos h1, if_pos h1]
    · rw [if_neg h1, if_neg h1]
      by_cases h2 : ((256 * f.getD 14 0 + f.getD 15 0 : Nat) : Int)
          ∈ VSwitch.tagged_set (s.ifc e.interface).tagged_vlans
      · rw [if_pos h2, (hsc _).2 h2]
        rfl
      · rw [if_neg h2]
        have h3 : VSwitch.scan_vlans (s.ifc e.interface).tagged_vlans
            ((256 * f.getD 14 0 + f.getD 15 0 : Nat) : Int) = false := by
          rw [← Bool.not_eq_true, hsc]; exact h2
        rw [h3]
        rfl
  · intro g hg
    have hm : maccmp (s.ifc ifc).mac g.mac ≠ 0 := fun h =>
      hg ((maccmp_eq_zero_iff _ _).1 h).symm
    unfold VSwitch.floodOne
    rw [if_pos hm, if_pos ht, hvid f h14 h15]
    by_cases h1 : ((256 * f.getD 14 0 + f.getD 15 0 : Nat) : Int) = g.untagged_vlan
    · rw [if_pos h1, if_pos h1]
    · rw [if_neg h1, if_neg h1]
      by_cases h2 : ((256 * f.getD 14 0 + f.getD 15 0 : Nat) : Int)
          ∈ VSwitch.tagged_set g.tagged_vlans
      · rw [if_pos h2, if_pos ((hsc _).2 h2)]
      · rw [if_neg h2, if_neg (fun h => h2 ((hsc _).1 h))]
  · intro hsmall
    have hrej : ∀ k : List Nat, k.getD 12 0 = 0x81 → k.getD 13 0 = 0 →
        k.getD 14 0 < 256 → k.getD 15 0 < 256 → 16 ≤ k.getD 14 0 →
        ¬ VSwitch.admitted (s.ifc ifc) (VSwitch.readHeader k) = true := by
      intro k k12 k13 k14 k15 kbig hk
      have hlt := hsmall _ ((hadmk k k12 k13 k14 k15).1 hk).1
      omega
    constructor
    · intro hbig
      apply VSwitch.vs_parse_frame_rejected
      rw [← Bool.not_eq_true]
      exact hrej f h12 h13 h14 h15 hbig
    · intro f2 k12 k13 k14 k15 hmod hne hboth
      by_cases hbig : 16 ≤ f.getD 14 0
      · exact hrej f h12 h13 h14 h15 hbig hboth.1
      · have hbig2 : 16 ≤ f2.getD 14 0 := by omega
        exact hrej f2 k12 k13 k14 (by rw [k15]; exact h15) hbig2 hboth.2

/-- C16 (amended) on a trunk of VLANs 10 and 20: the frame tagged with VLAN 20
and priority 1 (TCI `20 14`) is read as VLAN `0x2014` and dropped without any
effect, while the frame with TCI `00 14` is admitted. -/
theorem C16_vlan_id_is_whole_tci_witness :
    (VSwitch.readHeader VSwitch.frameTagged20prio).vlanId = 256 * 0x20 + 20
      ∧ VSwitch.parse_frame (VSwitch.start VSwitch.ports3) 0 VSwitch.frameTagged20prio
          VSwitch.mem12 = (VSwitch.start VSwitch.ports3, [])
      ∧ VSwitch.admitted (VSwitch.State.ifc (VSwitch.start VSwitch.ports3) 0)
          (VSwitch.readHeader VSwitch.frameTagged20) = true :=
  have h := C16_vlan_id_is_whole_tci (VSwitch.start VSwitch.ports3) 0
    VSwitch.frameTagged20prio VSwitch.mem12 (by decide) (by decide) (by decide) (by decide)
  ⟨h.1, (h.2.2.2.2 (by decide)).1 (by decide), by decide⟩

namespace VSwitch

theorem vs_mem_gifc_ifc (s : State) (g : Interface) (hg : g ∈ s.gifc) :
    ∃ i, g = s.ifc i := by
  obtain ⟨i, hi, rfl⟩ := List.mem_iff_getElem.1 hg
  exact ⟨i, by rw [State.ifc, List.getD_eq_getElem _ _ hi]⟩

/-- When the VLANs of a port are 12-bit values, carrying the 16-bit value read
from the tag is the same as carrying its low 12 bits. -/
theorem vs_low12 (p q : Interface) (eh : EthernetHeader)
    (h : effective_vlan p eh = q.untagged_vlan
      ∨ effective_vlan p eh ∈ tagged_set q.tagged_vlans)
    (hq1 : q.untagged_vlan < 4096) (hq2 : ∀ x ∈ tagged_set q.tagged_vlans, x < 4096) :
    (if eh.tag = htons 0x8100 then ((eh.vlanId % 4096 : Nat) : Int) else p.untagged_vlan)
        = q.untagged_vlan
      ∨ (if eh.tag = htons 0x8100 then ((eh.vlanId % 4096 : Nat) : Int)
          else p.untagged_vlan) ∈ tagged_set q.tagged_vlans := by
  unfold effective_vlan at h
  by_cases ht : eh.tag = htons 0x8100
  · simp only [ht, if_true] at h ⊢
    have hlt : (eh.vlanId : Int) < 4096 := by
      rcases h with h | h
      · rw [h]; exact hq1
      · exact hq2 _ h
    have hmod : eh.vlanId % 4096 = eh.vlanId := Nat.mod_eq_of_lt (by omega)
    rw [hmod]
    exact h
  · simp only [ht, if_false] at h ⊢
    exact h

end VSwitch

/-- C17. vswitch, every table state, port configuration and frame: each record
`parse_frame` writes, on a hit or on flood, is a record of `forward_to` for a
port `q` of the port array such that the effective VLAN of the frame (the VLAN
id read from the tag if the frame is tagged, else the untagged VLAN of the
ingress port) equals the untagged VLAN of `q` or is in the tagged set of `q`.
When the VLANs of `q` are 12-bit values, the same holds for the low 12 bits of
the VLAN id read from the tag. -/
theorem C17_vlan_isolation (s : VSwitch.State) (ifc : Nat) (frame mem r : List Nat)
    (hr : r ∈ (VSwitch.parse_frame s ifc frame mem).2) :
    ∃ q payload n, (∃ i, q = s.ifc i) ∧ r = VSwitch.forward_to q payload n
      ∧ (VSwitch.effective_vlan (s.ifc ifc) (VSwitch.readHeader frame) = q.untagged_vlan
        ∨ VSwitch.effective_vlan (s.ifc ifc) (VSwitch.readHeader frame)
            ∈ VSwitch.tagged_set q.tagged_vlans)
      ∧ (q.untagged_vlan < 4096 → (∀ x ∈ VSwitch.tagged_set q.tagged_vlans, x < 4096) →
          ((if (VSwitch.readHeader frame).tag = htons 0x8100 then
              (((VSwitch.readHeader frame).vlanId % 4096 : Nat) : Int)
            else (s.ifc ifc).untagged_vlan) = q.untagged_vlan
          ∨ (if (VSwitch.readHeader frame).tag = htons 0x8100 then
              (((VSwitch.readHeader frame).vlanId % 4096 : Nat) : Int)
            else (s.ifc ifc).untagged_vlan) ∈ VSwitch.tagged_set q.tagged_vlans)) := by
  have main : ∃ q payload n, (∃ i, q = s.ifc i) ∧ r = VSwitch.forward_to q payload n
      ∧ (VSwitch.effective_vlan (s.ifc ifc) (VSwitch.readHeader frame) = q.untagged_vlan
        ∨ VSwitch.effective_vlan (s.ifc ifc) (VSwitch.readHeader frame)
            ∈ VSwitch.tagged_set q.tagged_vlans) := by
    by_cases hl : frame.length < 16
    · rw [VSwitch.vs_parse_frame_short s ifc frame mem hl] at hr
      simp at hr
    · by_cases ha : VSwitch.admitted (s.ifc ifc) (VSwitch.readHeader frame) = true
      · rw [VSwitch.vs_parse_frame_admitted s ifc frame mem (by omega) ha] at hr
        simp only [VSwitch.forward] at hr
        cases hlk : VSwitch.lookup
            (VSwitch.learn s.switchCache ifc (VSwitch.readHeader frame).src)
            (VSwitch.readHeader frame).dst with
        | some e =>
          rw [hlk] at hr
          obtain ⟨payload, n, h1, h2⟩ := VSwitch.vs_hit_isolated
            ⟨s.gifc, VSwitch.learn s.switchCache ifc (VSwitch.readHeader frame).src⟩
            ifc (VSwitch.readHeader frame) frame mem e ha r hr
          exact ⟨_, payload, n, ⟨e.interface, rfl⟩, h1, h2⟩
        | none =>
          rw [hlk] at hr
          simp only [VSwitch.flood, List.mem_flatten, List.mem_map] at hr
          obtain ⟨l, ⟨g, hg, rfl⟩, hrl⟩ := hr
          obtain ⟨payload, n, h1, h2⟩ := VSwitch.vs_floodOne_isolated
            ⟨s.gifc, VSwitch.learn s.switchCache ifc (VSwitch.readHeader frame).src⟩
            ifc (VSwitch.readHeader frame) frame g ha r hrl
          exact ⟨g, payload, n, VSwitch.vs_mem_gifc_ifc s g hg, h1, h2⟩
      · rw [VSwitch.vs_parse_frame_rejected s ifc frame mem (by simpa using ha)] at hr
        simp at hr
  obtain ⟨q, payload, n, h1, h2, h3⟩ := main
  exact ⟨q, payload, n, h1, h2, h3, fun hq1 hq2 => VSwitch.vs_low12 _ q _ h3 hq1 hq2⟩

/-- C17 on a trunk of VLANs 10 and 20 and two access ports of VLANs 20 and 10: the
frame tagged with VLAN 20 that arrives on the trunk is written for port 2 only,
whose untagged VLAN is 20. -/
theorem C17_vlan_isolation_witness :
    (VSwitch.parse_frame (VSwitch.start VSwitch.ports3) 0 VSwitch.frameTagged20
        VSwitch.mem12).2 = [[0, 20, 0, 2] ++ (VSwitch.frameTagged20.take 12
          ++ VSwitch.frameTagged20.drop 16)]
      ∧ ∃ q payload n, (∃ i, q = (VSwitch.start VSwitch.ports3).ifc i)
          ∧ [0, 20, 0, 2] ++ (VSwitch.frameTagged20.take 12 ++ VSwitch.frameTagged20.drop 16)
            = VSwitch.forward_to q payload n
          ∧ (VSwitch.effective_vlan ((VSwitch.start VSwitch.ports3).ifc 0)
              (VSwitch.readHeader VSwitch.frameTagged20) = q.untagged_vlan
            ∨ VSwitch.effective_vlan ((VSwitch.start VSwitch.ports3).ifc 0)
              (VSwitch.readHeader VSwitch.frameTagged20)
                ∈ VSwitch.tagged_set q.tagged_vlans) :=
  ⟨by decide,
    let ⟨q, payload, n, h1, h2, h3, _⟩ := C17_vlan_isolation (VSwitch.start VSwitch.ports3) 0
      VSwitch.frameTagged20 VSwitch.mem12
      ([0, 20, 0, 2] ++ (VSwitch.frameTagged20.take 12 ++ VSwitch.frameTagged20.drop 16))
      (by decide)
    ⟨q, payload, n, h1, h2, h3⟩⟩

/-- C18 (defect in the code). The flood branch that inserts a tag writes the
constant `struct Q q = {0x0081, 0x0100}`, in memory `81 00 00 01`, instead of
the VLAN of the frame. Port 1 is an access port of VLAN 10 and port 2 a trunk
of VLANs 10 and 20: the untagged broadcast received on port 1 is written for
port 2 with the tag `81 00 00 01` (VLAN 1), not `81 00 00 0A` (VLAN 10). -/
theorem C18_flood_tag_is_constant :
    (VSwitch.parse_frame (VSwitch.start VSwitch.ports2) 0 VSwitch.frameAtoAll
        VSwitch.mem12).2
        = [[0, 26, 0, 2] ++ (VSwitch.frameAtoAll.take 12 ++ [0x81, 0x00, 0x00, 0x01]
            ++ VSwitch.frameAtoAll.drop 12)]
      ∧ (VSwitch.parse_frame (VSwitch.start VSwitch.ports2) 0 VSwitch.frameAtoAll
        VSwitch.mem12).2
        ≠ [[0, 26, 0, 2] ++ (VSwitch.frameAtoAll.take 12 ++ [0x81, 0x00, 10 / 256, 10 % 256]
            ++ VSwitch.frameAtoAll.drop 12)] := by
  decide

/-- C19, as stated, fails: the flood loop leaves out a port by comparing
hardware addresses. On a trunk of VLANs 10 and 20 (port 1) and an access port
of VLAN 20 (port 2), all still holding the all-zero address, the frame tagged
with VLAN 20 received on port 1 is admitted and misses the table, port 2 is
another port whose untagged VLAN is 20, and nothing is written, although the
copy for port 2 would be the record `00 14 00 02` followed by the frame without
its tag. -/
theorem C19_counterexample :
    VSwitch.admitted (VSwitch.State.ifc (VSwitch.start VSwitch.ports3zero) 0)
        (VSwitch.readHeader VSwitch.frameTagged20) = true
      ∧ VSwitch.lookup
          (VSwitch.parse_frame (VSwitch.start VSwitch.ports3zero) 0 VSwitch.frameTagged20
            VSwitch.mem12).1.switchCache (VSwitch.readHeader VSwitch.frameTagged20).dst = none
      ∧ (VSwitch.State.ifc (VSwitch.start VSwitch.ports3zero) 1).untagged_vlan
        = ((VSwitch.readHeader VSwitch.frameTagged20).vlanId : Int)
      ∧ (VSwitch.parse_frame (VSwitch.start VSwitch.ports3zero) 0 VSwitch.frameTagged20
          VSwitch.mem12).2 = []
      ∧ VSwitch.forward_to (VSwitch.State.ifc (VSwitch.start VSwitch.ports3zero) 1)
          (VSwitch.frameTagged20.take 12 ++ VSwitch.frameTagged20.drop 16)
          (VSwitch.frameTagged20.length - 4)
        = [0, 20, 0, 2] ++ [0xCC, 0, 0, 0, 0, 3, 0xAA, 0, 0, 0, 0, 1, 8, 0, 1, 2] := by
  decide

/-- C19 (amended). vswitch: let an admitted tagged frame `f` of at least 16
bytes miss the learning table, so that it is flooded, and let `q` be a port of
the port array whose untagged VLAN equals the VLAN id read from the tag. If the
hardware address of `q` differs from that of the ingress port, the flood loop
writes for `q` exactly one record, whose payload is `f[0..12) ++ f[16..)`, of
length `len(f) - 4`; if the two addresses are equal it writes nothing for
`q`. -/
theorem C19_flood_tag_removal (s : VSwitch.State) (ifc : Nat) (frame mem : List Nat)
    (q : VSwitch.Interface)
    (hlen : 16 ≤ frame.length)
    (h12 : frame.getD 12 0 = 0x81) (h13 : frame.getD 13 0 = 0)
    (hadm : VSwitch.admitted (s.ifc ifc) (VSwitch.readHeader frame) = true)
    (hmiss : VSwitch.lookup (VSwitch.parse_frame s ifc frame mem).1.switchCache
      (VSwitch.readHeader frame).dst = none)
    (_hq : q ∈ s.gifc)
    (hv : q.untagged_vlan = ((VSwitch.readHeader frame).vlanId : Int)) :
    (VSwitch.parse_frame s ifc frame mem).2
        = (s.gifc.map (VSwitch.floodOne s ifc (VSwitch.readHeader frame) frame)).flatten
      ∧ VSwitch.floodOne s ifc (VSwitch.readHeader frame) frame q
        = (if q.mac = (s.ifc ifc).mac then []
           else [VSwitch.forward_to q (frame.take 12 ++ frame.drop 16) (frame.length - 4)])
      ∧ (VSwitch.forward_to q (frame.take 12 ++ frame.drop 16) (frame.length - 4)).drop 4
        = frame.take 12 ++ frame.drop 16
      ∧ (frame.take 12 ++ frame.drop 16).length = frame.length - 4 := by
  have hX : (frame.take 12 ++ frame.drop 16).length = frame.length - 4 := by
    simp only [List.length_append, List.length_take, List.length_drop]
    omega
  refine ⟨?_, ?_, ?_, hX⟩
  · rw [VSwitch.vs_parse_frame_admitted s ifc frame mem hlen hadm] at hmiss ⊢
    simp only at hmiss ⊢
    simp only [VSwitch.forward, hmiss]
    rfl
  · have ht : (VSwitch.readHeader frame).tag = htons 0x8100 := by
      rw [VSwitch.vs_htons_8100]; exact (VSwitch.vs_tag_iff frame).2 ⟨h12, h13⟩
    unfold VSwitch.floodOne
    by_cases hmac : q.mac = (s.ifc ifc).mac
    · have hz : ¬ maccmp (s.ifc ifc).mac q.mac ≠ 0 := fun h =>
        h ((maccmp_eq_zero_iff _ _).2 hmac.symm)
      rw [if_neg hz, if_pos hmac]
    · have hm : maccmp (s.ifc ifc).mac q.mac ≠ 0 := fun h =>
        hmac ((maccmp_eq_zero_iff _ _).1 h).symm
      rw [if_pos hm, if_pos ht, if_pos hv.symm, if_neg hmac]
  · unfold VSwitch.forward_to
    rw [← hX]
    exact forward_to_iob_payload _ _

/-- C19 (amended) on a trunk of VLANs 10 and 20 (port 1) and an access port of
VLAN 20 (port 2) with distinct addresses: the frame tagged with VLAN 20 that
arrives on port 1 is written for port 2 without its tag. -/
theorem C19_flood_tag_removal_witness :
    VSwitch.floodOne (VSwitch.start VSwitch.ports3) 0
        (VSwitch.readHeader VSwitch.frameTagged20) VSwitch.frameTagged20
        ⟨⟨2, 0, 0, 0, 0, 2⟩, 2, "eth1", [VSwitch.NO_VLAN], 20⟩
      = [[0, 20, 0, 2] ++
          [0xCC, 0, 0, 0, 0, 3, 0xAA, 0, 0, 0, 0, 1, 8, 0, 1, 2]] :=
  ((C19_flood_tag_removal (VSwitch.start VSwitch.ports3) 0 VSwitch.frameTagged20
    VSwitch.mem12 ⟨⟨2, 0, 0, 0, 0, 2⟩, 2, "eth1", [VSwitch.NO_VLAN], 20⟩
    (by decide) (by decide) (by decide) (by decide) (by decide) (by decide)
    (by decide)).2.1).trans (by decide)

/-- C20 (defect in the code). `parse_frame` of `arp.c` reads the ARP fields
through `struct ArpHeaderEthernetIPv4`, which has no field for the EtherType, so
every field is read two bytes too early: `oper` is read from bytes 18-19, which
hold `hlen` and `plen` (`06 04`) in every well-formed packet, and is compared
with `0x0100`. For the well-formed 42-byte request for `10.0.0.2` received on
port 1, whose address is `10.0.0.2`, the test of line 334 fails: no reply is
written, and the table entry stored is `00:01:AA:00:00:00` with address
`0.1.10.0`. -/
theorem C20_no_reply_to_well_formed_request :
    Arp.request.length = 42
      ∧ (Arp.readArpHeader Arp.request).oper = 0x0406
      ∧ Arp.is_request_for (Arp.State.ifc (Arp.start Arp.ports1) 0) Arp.request = false
      ∧ Arp.parse_frame (Arp.start Arp.ports1) 0 Arp.request [] []
        = .ok (⟨Arp.ports1, [⟨⟨0, 1, 0xAA, 0, 0, 0⟩, ⟨0, 1, 10, 0⟩, none⟩]⟩, []) := by
  decide

/-! ## arp.c: the table and the operator command -/

namespace Arp

/-- A frame of at least 14 bytes that fails the test of line 334 adds one entry
and writes nothing. -/
theorem arp_parse_frame_no_reply (s : State) (ifc : Nat) (frame tail junk : List Nat)
    (hlen : 14 ≤ frame.length)
    (h : is_request_for (s.ifc ifc) (frame ++ tail) = false) :
    parse_frame s ifc frame tail junk
      = .ok (⟨s.gifc, s.arpTable ++ [table_entry (frame ++ tail)]⟩, []) := by
  have hl : ¬ frame.length < 14 := by omega
  simp [parse_frame, sizeof_EthernetHeader, hl, h]

/-- Receiving the request of the examples `k` times on port 1 appends `k`
entries. -/
theorem arp_loop_replicate (inet_pton : String → Option in_addr) (k : Nat) :
    ∀ (t : List arpProps) (c : List ArpEntry),
      loop inet_pton ⟨⟨ports1, t⟩, c⟩ (List.replicate k (.frame 1 request [] []))
        = .ok (⟨⟨ports1, t ++ List.replicate k (table_entry request)⟩, c⟩, []) := by
  induction k with
  | zero => intro t c; simp [loop]
  | succ k ih =>
    intro t c
    have hstep : handle_input inet_pton ⟨⟨ports1, t⟩, c⟩ (.frame 1 request [] [])
        = .ok (⟨⟨ports1, t ++ [table_entry request]⟩, c⟩, []) := by
      have hp : parse_frame ⟨ports1, t⟩ 0 request [] []
          = .ok (⟨ports1, t ++ [table_entry (request ++ [])]⟩, []) :=
        arp_parse_frame_no_reply ⟨ports1, t⟩ 0 request [] [] (by decide)
          (by
            have hi : (⟨ports1, t⟩ : State).ifc 0 = (start ports1).ifc 0 := rfl
            rw [hi]
            decide)
      have hh : handle_frame ⟨ports1, t⟩ 1 request [] []
          = parse_frame ⟨ports1, t⟩ 0 request [] [] := by
        simp [handle_frame, State.num_ifc, ports1]
      simp only [handle_input, hh, hp, List.append_nil, List.map_nil]
    rw [List.replicate_succ, loop, hstep]
    simp only
    rw [ih]
    simp [List.replicate_succ]

end Arp

/-- C21 (defect in the code). `parse_frame` of `arp.c` takes the table entry
through the header view that is two bytes early and never assigns the port.
For the well-formed request of host `AA:00:00:00:00:01`, `10.0.0.1` received on
port 1 the entry stored is `00:01:AA:00:00:00`, `0.1.10.0` with a null port
pointer, and for the well-formed reply of host `BB:00:00:00:00:02`, `10.0.0.3`
it is `00:02:BB:00:00:00`, `0.2.10.0`; neither table holds the sender address of
the packet (bytes 22..27 and 28..31). -/
theorem C21_table_entry_is_misread :
    (readMac Arp.request 22, readIp Arp.request 28)
        = (⟨0xAA, 0, 0, 0, 0, 1⟩, ⟨10, 0, 0, 1⟩)
      ∧ Arp.parse_frame (Arp.start Arp.ports1) 0 Arp.request [] []
        = .ok (⟨Arp.ports1, [⟨⟨0, 1, 0xAA, 0, 0, 0⟩, ⟨0, 1, 10, 0⟩, none⟩]⟩, [])
      ∧ (readMac Arp.reply 22, readIp Arp.reply 28)
        = (⟨0xBB, 0, 0, 0, 0, 2⟩, ⟨10, 0, 0, 3⟩)
      ∧ Arp.parse_frame (Arp.start Arp.ports1) 0 Arp.reply [] []
        = .ok (⟨Arp.ports1, [⟨⟨0, 2, 0xBB, 0, 0, 0⟩, ⟨0, 2, 10, 0⟩, none⟩]⟩, []) := by
  decide

/-- C22 (defect in the code). `parse_frame` of `arp.c` stores an entry at
`arpTable[switchTableLength]` and increments the counter for every frame of at
least 14 bytes, without looking for the address in the table and without
comparing the counter with the 500 elements of the array. The same request
received twice leaves two equal entries, and received 501 times it leaves the
counter at 501. -/
theorem C22_table_grows_without_bound :
    Arp.loop Arp.pton_example (Arp.boot Arp.ports1)
        [.frame 1 Arp.request [] [], .frame 1 Arp.request [] []]
        = .ok (⟨⟨Arp.ports1, [⟨⟨0, 1, 0xAA, 0, 0, 0⟩, ⟨0, 1, 10, 0⟩, none⟩,
                              ⟨⟨0, 1, 0xAA, 0, 0, 0⟩, ⟨0, 1, 10, 0⟩, none⟩]⟩, []⟩, [])
      ∧ ∃ g, Arp.loop Arp.pton_example (Arp.boot Arp.ports1)
            (List.replicate 501 (.frame 1 Arp.request [] [])) = .ok (g, [])
          ∧ g.state.switchTableLength = 501 := by
  refine ⟨by decide, _, Arp.arp_loop_replicate Arp.pton_example 501 [] [], ?_⟩
  simp only [Arp.State.switchTableLength, List.nil_append, List.length_replicate]

/-- C23 (defect in the code). `parse_frame` of `arp.c` tests none of the fields
`htype`, `ptype`, `hlen`, `plen` (nor the EtherType): a 42-byte frame with
hardware type 6, protocol type `86 DD`, hlen 8 and plen 16 adds an entry to the
table, and so does a 14-byte frame, whose entry is read from the memory that
follows it in the receive buffer. -/
theorem C23_no_header_validation :
    Arp.parse_frame (Arp.start Arp.ports1) 0 Arp.notArp [] []
        = .ok (⟨Arp.ports1, [⟨⟨0, 1, 0xAA, 0, 0, 0⟩, ⟨0, 1, 10, 0⟩, none⟩]⟩, [])
      ∧ Arp.parse_frame (Arp.start Arp.ports1) 0 Arp.headerOnly (Arp.reply.drop 14) []
        = .ok (⟨Arp.ports1, [⟨⟨0, 2, 0xBB, 0, 0, 0⟩, ⟨0, 2, 10, 0⟩, none⟩]⟩, []) := by
  decide

/-- C24. For every target the library accepts as an IPv4 address `t`, every
non-empty interface name that the name lookup resolves to a port with hardware
address `m` and IPv4 address `a`, and ports whose MTU is at least 42, the
command `arp t name` writes exactly one record, whose frame is the 42 bytes
`FF*6 ++ m ++ 08 06 ++ 00 01 ++ 08 00 ++ 06 ++ 04 ++ 00 01 ++ m ++ a ++ 00*6 ++
t`. -/
theorem C24_operator_request_contents (inet_pton : String → Option in_addr)
    (s : Arp.State) (arpCache : List Arp.ArpEntry) (tok name : String)
    (rest : List String) (t : in_addr) (ifc : Arp.Interface)
    (ht : inet_pton tok = some t) (hname : name ≠ "")
    (hfind : s.gifc.find? (fun g => strcasecmp_eq name g.name) = some ifc)
    (hmtu : ∀ g ∈ s.gifc, 42 ≤ g.mtu) :
    ∃ q iob, q ∈ s.gifc
      ∧ Arp.process_cmd_arp inet_pton s arpCache (tok :: name :: rest)
        = .ok [Arp.Out.record iob]
      ∧ Arp.forward_to q
          ([0xFF, 0xFF, 0xFF, 0xFF, 0xFF, 0xFF] ++ ifc.mac.bytes ++ [0x08, 0x06]
            ++ [0x00, 0x01] ++ [0x08, 0x00] ++ [0x06] ++ [0x04] ++ [0x00, 0x01]
            ++ ifc.mac.bytes ++ ifc.ip.bytes ++ [0, 0, 0, 0, 0, 0] ++ t.bytes) 42 = .ok iob
      ∧ iob.drop 4
        = [0xFF, 0xFF, 0xFF, 0xFF, 0xFF, 0xFF] ++ ifc.mac.bytes ++ [0x08, 0x06]
            ++ [0x00, 0x01] ++ [0x08, 0x00] ++ [0x06] ++ [0x04] ++ [0x00, 0x01]
            ++ ifc.mac.bytes ++ ifc.ip.bytes ++ [0, 0, 0, 0, 0, 0] ++ t.bytes
      ∧ (iob.drop 4).length = 42 := by
  have hmem : ifc ∈ s.gifc := List.mem_of_find?_eq_some hfind
  have hex : (s.gifc.find? (fun g => maccmp ifc.mac g.mac == 0)).isSome = true := by
    rw [List.find?_isSome]
    exact ⟨ifc, hmem, by simp [(maccmp_eq_zero_iff ifc.mac ifc.mac).2 rfl]⟩
  obtain ⟨q, hq⟩ := Option.isSome_iff_exists.1 hex
  have hqm : q ∈ s.gifc := List.mem_of_find?_eq_some hq
  have hq42 : ¬ 42 > q.mtu := by have := hmtu q hqm; omega
  have hlen : (Arp.request_bytes ifc t).length = 42 := by
    simp [Arp.request_bytes, MacAddress.bytes, in_addr.bytes]
  have hfw : Arp.forward_to q (Arp.request_bytes ifc t) 42
      = .ok (forward_to_iob q.ifc_num (Arp.request_bytes ifc t) 42) := by
    simp [Arp.forward_to, hq42]
  refine ⟨q, forward_to_iob q.ifc_num (Arp.request_bytes ifc t) 42, hqm, ?_, hfw, ?_, ?_⟩
  · simp only [Arp.process_cmd_arp, ht, hfind, hq, hfw]
    simp [hname]
  · have := forward_to_iob_payload q.ifc_num (Arp.request_bytes ifc t)
    rw [hlen] at this
    exact this
  · have := forward_to_iob_payload q.ifc_num (Arp.request_bytes ifc t)
    rw [hlen] at this
    rw [this, hlen]

/-- C24 on two ports with their own addresses: `arp 10.0.0.9 eth1` writes one
record, for port 2, with the 42 bytes of the request. -/
theorem C24_operator_request_contents_witness :
    Arp.process_cmd_arp Arp.pton_example (Arp.start Arp.ports2) [] ["10.0.0.9", "eth1"]
        = .ok [Arp.Out.record ([0, 46, 0, 2] ++
            [0xFF, 0xFF, 0xFF, 0xFF, 0xFF, 0xFF, 2, 0, 0, 0, 0, 2, 0x08, 0x06,
             0x00, 0x01, 0x08, 0x00, 0x06, 0x04, 0x00, 0x01,
             2, 0, 0, 0, 0, 2, 10, 0, 1, 2, 0, 0, 0, 0, 0, 0, 10, 0, 0, 9])]
      ∧ ∃ q iob, q ∈ (Arp.start Arp.ports2).gifc
          ∧ Arp.process_cmd_arp Arp.pton_example (Arp.start Arp.ports2) []
              ["10.0.0.9", "eth1"] = .ok [Arp.Out.record iob]
          ∧ iob.drop 4
            = [0xFF, 0xFF, 0xFF, 0xFF, 0xFF, 0xFF, 2, 0, 0, 0, 0, 2, 0x08, 0x06,
               0x00, 0x01, 0x08, 0x00, 0x06, 0x04, 0x00, 0x01,
               2, 0, 0, 0, 0, 2, 10, 0, 1, 2, 0, 0, 0, 0, 0, 0, 10, 0, 0, 9] :=
  ⟨by decide,
    let ⟨q, iob, h0, h1, _, h3, _⟩ := C24_operator_request_contents Arp.pton_example
      (Arp.start Arp.ports2) [] "10.0.0.9" "eth1" [] ⟨10, 0, 0, 9⟩
      ⟨⟨2, 0, 0, 0, 0, 2⟩, ⟨10, 0, 1, 2⟩, ⟨255, 255, 255, 0⟩, "eth1", 2, 1500⟩
      (by decide) (by decide) (by decide) (by decide)
    ⟨q, iob, h0, h1, h3⟩⟩

namespace Arp

/-- No input changes `arpCache`. -/
theorem arp_handle_input_cache (inet_pton : String → Option in_addr) (g g1 : Globals)
    (i : Input) (out : List Out) (h : handle_input inet_pton g i = .ok (g1, out)) :
    g1.arpCache = g.arpCache := by
  cases i with
  | frame n f tail junk =>
    simp only [handle_input] at h
    cases hh : handle_frame g.state n f tail junk with
    | ok r => rw [hh] at h; injection h with h; injection h with h1 _; rw [← h1]
    | aborted => rw [hh] at h; exact absurd h (by simp)
    | outOfBounds => rw [hh] at h; exact absurd h (by simp)
  | mac n m =>
    simp only [handle_input] at h
    cases hh : handle_mac g.state n m with
    | ok r => rw [hh] at h; injection h with h; injection h with h1 _; rw [← h1]
    | aborted => rw [hh] at h; exact absurd h (by simp)
    | outOfBounds => rw [hh] at h; exact absurd h (by simp)
  | control cmd =>
    simp only [handle_input] at h
    cases hh : handle_control inet_pton g.state g.arpCache cmd with
    | ok o => rw [hh] at h; injection h with h; injection h with h1 _; rw [← h1]
    | halt x => rw [hh] at h; exact absurd h (by simp)

/-- The cache that `printArpCache` prints is empty after every sequence of
inputs. -/
theorem arp_loop_cache_empty (inet_pton : String → Option in_addr) (ins : List Input) :
    ∀ (g g2 : Globals) (out : List Out), g.arpCache = [] →
      loop inet_pton g ins = .ok (g2, out) → g2.arpCache = [] := by
  induction ins with
  | nil =>
    intro g g2 out hg h
    simp only [loop] at h
    injection h with h; injection h with h1 _; rw [← h1]; exact hg
  | cons i is ih =>
    intro g g2 out hg h
    simp only [loop] at h
    cases h1 : handle_input inet_pton g i with
    | halt x => rw [h1] at h; exact absurd h (by simp)
    | ok r =>
      obtain ⟨g1, out1⟩ := r
      rw [h1] at h
      simp only at h
      cases h2 : loop inet_pton g1 is with
      | halt x => rw [h2] at h; exact absurd h (by simp)
      | ok r2 =>
        obtain ⟨g3, out2⟩ := r2
        rw [h2] at h
        simp only at h
        injection h with h; injection h with h3 _
        rw [← h3]
        exact ih g1 g3 out2 ((arp_handle_input_cache inet_pton g g1 i out1 h1).trans hg) h2

end Arp

/-- C25 (defect in the code). `process_cmd_arp` finds the port by name and
builds the request from it, but sends it with `forward_to (&gifc[i], ...)` for
the first `i` whose hardware address equals that of the named port. With the
two ports `eth0`, `eth1` still holding the all-zero address, `arp 10.0.0.9
eth1` writes its request (sender address `10.0.1.2`, that of `eth1`) as a record
for port 1, which is `eth0`; once the ports have their own addresses the record
is for port 2. -/
theorem C25_request_sent_on_first_port_with_same_address :
    Arp.process_cmd_arp Arp.pton_example (Arp.start Arp.ports2zero) []
        ["10.0.0.9", "eth1"]
        = .ok [Arp.Out.record ([0, 46, 0, 1] ++
            [0xFF, 0xFF, 0xFF, 0xFF, 0xFF, 0xFF, 0, 0, 0, 0, 0, 0, 0x08, 0x06,
             0x00, 0x01, 0x08, 0x00, 0x06, 0x04, 0x00, 0x01,
             0, 0, 0, 0, 0, 0, 10, 0, 1, 2, 0, 0, 0, 0, 0, 0, 10, 0, 0, 9])]
      ∧ Arp.handle_control Arp.pton_example (Arp.start Arp.ports2zero) []
          "arp 10.0.0.9 eth1\n"
        = Arp.process_cmd_arp Arp.pton_example (Arp.start Arp.ports2zero) []
            ["10.0.0.9", "eth1"]
      ∧ Arp.process_cmd_arp Arp.pton_example (Arp.start Arp.ports2) []
          ["10.0.0.9", "eth1"]
        = .ok [Arp.Out.record ([0, 46, 0, 2] ++
            [0xFF, 0xFF, 0xFF, 0xFF, 0xFF, 0xFF, 2, 0, 0, 0, 0, 2, 0x08, 0x06,
             0x00, 0x01, 0x08, 0x00, 0x06, 0x04, 0x00, 0x01,
             2, 0, 0, 0, 0, 2, 10, 0, 1, 2, 0, 0, 0, 0, 0, 0, 10, 0, 0, 9])] := by
  decide

/-- C26 (defect in the code). `arp` without arguments calls `printArpCache`,
which prints `arpCache`; `parse_frame` stores what it learns in `arpTable`, and
nothing ever adds to `arpCache`. After the request of host `AA:00:00:00:00:01`,
`10.0.0.1` for `10.0.0.2` has been received on port 1, the command prints
nothing, although the table holds an entry; had the cache held the sender, the
line would be `10.0.0.1: aa:00:00:00:00:01`. -/
theorem C26_arp_command_prints_nothing :
    Arp.loop Arp.pton_example (Arp.boot Arp.ports1)
        [.frame 1 Arp.request [] [], .control "arp\n"]
        = .ok (⟨⟨Arp.ports1, [⟨⟨0, 1, 0xAA, 0, 0, 0⟩, ⟨0, 1, 10, 0⟩, none⟩]⟩, []⟩, [])
      ∧ Arp.handle_control Arp.pton_example (Arp.start Arp.ports1)
          [⟨⟨0xAA, 0, 0, 0, 0, 1⟩, ⟨10, 0, 0, 1⟩⟩] "arp\n"
        = .ok [Arp.Out.text "10.0.0.1: aa:00:00:00:00:01\n"] := by
  decide

/-! ## vswitch.c: hit path, order of learning, configuration -/

/-- C27 (defect in the code). The hit branch of `vswitch.c` does not send what
the flood branch sends. Where a tag has to be inserted (host A learned on the
trunk port 2, untagged frame of host B for A received on the access port 1) it
calls `forward_to (..., frame1, sizeof (frame1))` and writes the first 8 bytes
of the unchanged frame, while the flood loop writes for port 2 the frame with a
tag inserted. Where the tag has to be removed (host C learned on the access
port 2 of VLAN 20, frame tagged with VLAN 20 received on the trunk port 1) it
starts `frame2` with `memcpy (&frame2, &frame1, 12)`, the 12 bytes of memory at
the pointer variable (here `01 .. 0C`), while the flood loop starts it with the
two addresses of the frame. -/
theorem C27_hit_differs_from_flood :
    (VSwitch.parse_frame ⟨VSwitch.ports2, [⟨1, ⟨0xAA, 0, 0, 0, 0, 1⟩⟩]⟩ 0
        VSwitch.frameBtoA VSwitch.mem12).2
        = [[0, 12, 0, 2] ++ VSwitch.frameBtoA.take 8]
      ∧ VSwitch.floodOne ⟨VSwitch.ports2, [⟨1, ⟨0xAA, 0, 0, 0, 0, 1⟩⟩]⟩ 0
          (VSwitch.readHeader VSwitch.frameBtoA) VSwitch.frameBtoA
          (VSwitch.State.ifc ⟨VSwitch.ports2, []⟩ 1)
        = [[0, 26, 0, 2] ++ (VSwitch.frameBtoA.take 12 ++ [0x81, 0, 0, 1]
            ++ VSwitch.frameBtoA.drop 12)]
      ∧ (VSwitch.parse_frame ⟨VSwitch.ports3, [⟨1, ⟨0xCC, 0, 0, 0, 0, 3⟩⟩]⟩ 0
          VSwitch.frameTagged20 [1, 2, 3, 4, 5, 6, 7, 8, 9, 10, 11, 12]).2
        = [[0, 20, 0, 2] ++ ([1, 2, 3, 4, 5, 6, 7, 8, 9, 10, 11, 12]
            ++ VSwitch.frameTagged20.drop 16)]
      ∧ VSwitch.floodOne ⟨VSwitch.ports3, [⟨1, ⟨0xCC, 0, 0, 0, 0, 3⟩⟩]⟩ 0
          (VSwitch.readHeader VSwitch.frameTagged20) VSwitch.frameTagged20
          (VSwitch.State.ifc ⟨VSwitch.ports3, []⟩ 1)
        = [[0, 20, 0, 2] ++ (VSwitch.frameTagged20.take 12
            ++ VSwitch.frameTagged20.drop 16)] := by
  decide

namespace VSwitch

theorem vs_lookup_learn_self (t : List SwitchCache) (ifc : Nat) (src : MacAddress)
    (h : src ∈ t.map (fun e => e.macAddress) ∨ t.length < TABLE_SIZE) :
    (lookup (learn t ifc src) src).map (fun e => e.interface) = some ifc := by
  by_cases hm : src ∈ t.map (fun e => e.macAddress)
  · rw [vs_learn_of_found t ifc src ((vs_foundEntry_iff _ _).2 hm), vs_lookup_rehome]
    cases hl : lookup t src with
    | none => exact absurd hm ((vs_lookup_eq_none_iff _ _).1 hl)
    | some e =>
      have := (vs_lookup_some_mac _ _ _ hl).1
      simp [this]
  · have hcap : t.length < TABLE_SIZE := h.resolve_left hm
    have hf : foundEntry src t = false := by
      rw [← Bool.not_eq_true, vs_foundEntry_iff]; exact hm
    rw [vs_learn_of_new t ifc src hf hcap]
    have hn : lookup t src = none := (vs_lookup_eq_none_iff t src).2 hm
    unfold lookup at hn ⊢
    rw [List.find?_append, hn]
    simp [(maccmp_eq_zero_iff src src).2 rfl]

end VSwitch

/-- C28, as stated, fails: the vswitch checks admission first. The frame tagged
with VLAN 20 that arrives on the access port 1 is rejected and its source is
not in the table afterwards, although the table is empty and has room. -/
theorem C28_counterexample :
    16 ≤ VSwitch.frameTagged20.length
      ∧ VSwitch.admitted (VSwitch.State.ifc (VSwitch.start VSwitch.ports2) 0)
          (VSwitch.readHeader VSwitch.frameTagged20) = false
      ∧ (VSwitch.start VSwitch.ports2).switchCache.length < VSwitch.TABLE_SIZE
      ∧ VSwitch.lookup
          (VSwitch.parse_frame (VSwitch.start VSwitch.ports2) 0 VSwitch.frameTagged20
            VSwitch.mem12).1.switchCache
          (VSwitch.readHeader VSwitch.frameTagged20).src = none := by
  decide

/-- C28 (amended). vswitch, every frame of at least 16 bytes and every ingress
port `p`: the VLAN admission check comes before learning. A frame that the
check rejects leaves the globals, and so the learning table, unchanged; a frame
that it admits leaves its source address mapped to `p` when the address was
already in the table or the table has room. -/
theorem C28_vswitch_learns_after_admission (s : VSwitch.State) (ifc : Nat)
    (frame mem : List Nat) (hlen : 16 ≤ frame.length) :
    (VSwitch.admitted (s.ifc ifc) (VSwitch.readHeader frame) = false →
        VSwitch.parse_frame s ifc frame mem = (s, []))
      ∧ (VSwitch.admitted (s.ifc ifc) (VSwitch.readHeader frame) = true →
          ((VSwitch.readHeader frame).src ∈ s.switchCache.map (fun e => e.macAddress)
            ∨ s.switchCache.length < VSwitch.TABLE_SIZE) →
          (VSwitch.lookup (VSwitch.parse_frame s ifc frame mem).1.switchCache
            (VSwitch.readHeader frame).src).map (fun e => e.interface) = some ifc) := by
  constructor
  · exact VSwitch.vs_parse_frame_rejected s ifc frame mem
  · intro ha h
    rw [VSwitch.vs_parse_frame_admitted s ifc frame mem hlen ha]
    exact VSwitch.vs_lookup_learn_self _ _ _ h

/-- C28 (amended) on the access port 1 of VLAN 10: the untagged broadcast of
host A is admitted and A is mapped to port 1 afterwards. -/
theorem C28_vswitch_learns_after_admission_witness :
    16 ≤ VSwitch.frameAtoAll.length
      ∧ (VSwitch.lookup
          (VSwitch.parse_frame (VSwitch.start VSwitch.ports2) 0 VSwitch.frameAtoAll
            VSwitch.mem12).1.switchCache
          (VSwitch.readHeader VSwitch.frameAtoAll).src).map (fun e => e.interface)
        = some 0 :=
  ⟨by decide,
    (C28_vswitch_learns_after_admission (VSwitch.start VSwitch.ports2) 0
      VSwitch.frameAtoAll VSwitch.mem12 (by decide)).2 (by decide) (Or.inr (by decide))⟩

namespace VSwitch

theorem vs_tagged_loop_spec (sscanf_u : List Char → Option Nat) (toks : List (List Char)) :
    ∀ (pos : Nat) (acc ids : List Int), tagged_loop sscanf_u toks pos acc = some ids →
      pos ≤ MAX_VLANS → acc.length = pos → (∀ x ∈ acc, 0 ≤ x ∧ x ≤ 4092) →
      ids.length ≤ MAX_VLANS ∧ (∀ x ∈ ids, 0 ≤ x ∧ x ≤ 4092) := by
  induction toks with
  | nil =>
    intro pos acc ids h hp hl hb
    simp only [tagged_loop] at h
    injection h with h
    subst h
    exact ⟨by omega, hb⟩
  | cons tok rest ih =>
    intro pos acc ids h hp hl hb
    simp only [tagged_loop] at h
    split_ifs at h with h1
    cases hs : sscanf_u tok with
    | none => rw [hs] at h; exact absurd h (by simp)
    | some tag =>
      rw [hs] at h
      simp only at h
      split_ifs at h with h2
      refine ih (pos + 1) (acc ++ [(tag : Int)]) ids h (by omega) (by simp [hl]) ?_
      intro x hx
      rw [List.mem_append, List.mem_singleton] at hx
      rcases hx with hx | hx
      · exact hb x hx
      · subst hx
        unfold MAX_VLANS at h2
        omega

theorem vs_tagged_set_terminated (ids : List Int) (h : ∀ x ∈ ids, x ≠ NO_VLAN) :
    tagged_set (ids ++ [NO_VLAN]) = ids := by
  induction ids with
  | nil => simp [tagged_set]
  | cons a l ih =>
    have ha : a ≠ NO_VLAN := h a (List.mem_cons_self _ _)
    have hl := ih (fun x hx => h x (List.mem_cons_of_mem _ hx))
    have hd : decide (a ≠ NO_VLAN) = true := decide_eq_true ha
    unfold tagged_set at hl ⊢
    simp only [List.cons_append, List.takeWhile_cons, hd, hl, if_true]

theorem vs_parse_tagged_ok (sscanf_u : List Char → Option Nat) (region : List Char)
    (ifc ifc1 : Interface) (h : parse_tagged sscanf_u region ifc = (0, ifc1)) :
    ∃ ids, ifc1 = { ifc with tagged_vlans := ids ++ [NO_VLAN] } ∧ ids.length ≤ MAX_VLANS
      ∧ ∀ x ∈ ids, 0 ≤ x ∧ x ≤ 4092 := by
  unfold parse_tagged at h
  split at h
  · rename_i spec
    cases hl : tagged_loop sscanf_u (strtok_all ',' spec []) 0 [] with
    | none => rw [hl] at h; simp at h
    | some ids =>
      rw [hl] at h
      simp only [Prod.mk.injEq, true_and] at h
      obtain ⟨h1, h2⟩ := vs_tagged_loop_spec sscanf_u _ 0 [] ids hl (by simp [MAX_VLANS])
        rfl (by simp)
      exact ⟨ids, h.symm, h1, h2⟩
  · simp at h

theorem vs_parse_untagged_ok (sscanf_u : List Char → Option Nat) (region : List Char)
    (ifc ifc1 : Interface) (h : parse_untagged sscanf_u region ifc = (0, ifc1)) :
    ∃ tag : Nat, tag ≤ 4092 ∧ ifc1 = { ifc with untagged_vlan := (tag : Int) } := by
  unfold parse_untagged at h
  split at h
  · rename_i spec
    cases hs : sscanf_u spec with
    | none => rw [hs] at h; simp at h
    | some tag =>
      rw [hs] at h
      simp only at h
      split_ifs at h with h1
      · simp at h
      · simp only [Prod.mk.injEq, true_and] at h
        exact ⟨tag, by unfold MAX_VLANS at h1; omega, h.symm⟩
  · simp at h

theorem vs_cutAt_head (c x : Char) (l a b : List Char) (h : cutAt c l = some (x :: a, b)) :
    l.head? = some x := by
  cases l with
  | nil => simp [cutAt] at h
  | cons y ys =>
    simp only [cutAt] at h
    split_ifs at h with h1
    · simp at h
    · cases hc : cutAt c ys with
      | none => rw [hc] at h; simp at h
      | some r =>
        rw [hc] at h
        simp only [Option.some.injEq, Prod.mk.injEq, List.cons.injEq] at h
        simp [h.1.1]

/-- The three shapes of a port record after a successful `parse_vlan_args`. -/
theorem vs_parse_vlan_args_ok (sscanf_u : List Char → Option Nat) (arg : String)
    (ifc ifc1 : Interface) (h : parse_vlan_args sscanf_u arg ifc = (0, ifc1)) :
    (spec_kind arg = none ∧ ifc1.untagged_vlan = DEFAULT_VLAN
        ∧ ifc1.tagged_vlans = [NO_VLAN])
      ∨ (spec_kind arg = some 'T' ∧ ifc1.untagged_vlan = NO_VLAN
        ∧ ∃ ids, ifc1.tagged_vlans = ids ++ [NO_VLAN] ∧ ids.length ≤ MAX_VLANS
          ∧ ∀ x ∈ ids, 0 ≤ x ∧ x ≤ 4092)
      ∨ (spec_kind arg = some 'U' ∧ ifc1.tagged_vlans = [NO_VLAN]
        ∧ 0 ≤ ifc1.untagged_vlan ∧ ifc1.untagged_vlan ≤ 4092) := by
  unfold parse_vlan_args at h
  cases h1 : cutAt '[' arg.data with
  | none =>
    rw [h1] at h
    simp only [Prod.mk.injEq, true_and] at h
    left
    subst h
    exact ⟨by simp [spec_kind, h1], rfl, rfl⟩
  | some r =>
    obtain ⟨name, after⟩ := r
    rw [h1] at h
    simp only at h
    cases h2 : cutAt ']' after with
    | none => rw [h2] at h; simp at h
    | some r2 =>
      obtain ⟨inside, rest⟩ := r2
      rw [h2] at h
      simp only at h
      split at h
      · rename_i region
        right; left
        obtain ⟨ids, hi, hl, hb⟩ := vs_parse_tagged_ok sscanf_u region _ ifc1 h
        subst hi
        refine ⟨?_, rfl, ids, rfl, hl, hb⟩
        simp [spec_kind, h1, vs_cutAt_head _ _ _ _ _ h2]
      · rename_i region
        right; right
        obtain ⟨tag, ht, hi⟩ := vs_parse_untagged_ok sscanf_u region _ ifc1 h
        subst hi
        refine ⟨?_, rfl, by simp, by simp; omega⟩
        simp [spec_kind, h1, vs_cutAt_head _ _ _ _ _ h2]
      · simp at h

end VSwitch

/-- C29, as stated, fails at 4092: `parse_untagged` and `parse_tagged` reject a
number only when it is greater than `MAX_VLANS`, which is 4092. `U:4092` and
`T:4092` are accepted and 4092 is stored; 4093 is rejected. -/
theorem C29_counterexample :
    VSwitch.parse_vlan_args scan_digits "eth0[U:4092]" (VSwitch.main_ifc 1)
        = (0, ⟨MacAddress.zero, 1, "eth0", [VSwitch.NO_VLAN], 4092⟩)
      ∧ VSwitch.parse_vlan_args scan_digits "eth0[T:4092]" (VSwitch.main_ifc 1)
        = (0, ⟨MacAddress.zero, 1, "eth0", [4092, VSwitch.NO_VLAN], VSwitch.NO_VLAN⟩)
      ∧ (VSwitch.parse_vlan_args scan_digits "eth0[U:4093]" (VSwitch.main_ifc 1)).1 = 1
      ∧ (VSwitch.parse_vlan_args scan_digits "eth0[T:4093]" (VSwitch.main_ifc 1)).1 = 1
      ∧ ¬ (4092 ≤ 4091) := by
  decide

/-- C29 (amended). For a token that `sscanf` reads as the number `n`,
`parse_untagged` accepts it if and only if `n` is at most 4092, and so does the
token loop of `parse_tagged`. Whatever the text, after a successful
`parse_untagged` the untagged VLAN of the port is in `[0, 4092]`, and after a
successful `parse_tagged` every VLAN id of its tagged set is in `[0, 4092]`. -/
theorem C29_vlan_id_range (sscanf_u : List Char → Option Nat) (ifc : VSwitch.Interface)
    (tok region : List Char) (n : Nat) (hs : sscanf_u tok = some n) :
    ((VSwitch.parse_untagged sscanf_u (':' :: tok) ifc).1 = 0 ↔ n ≤ 4092)
      ∧ ((VSwitch.tagged_loop sscanf_u [tok] 0 []).isSome = true ↔ n ≤ 4092)
      ∧ (∀ ifc1, VSwitch.parse_untagged sscanf_u region ifc = (0, ifc1) →
          0 ≤ ifc1.untagged_vlan ∧ ifc1.untagged_vlan ≤ 4092)
      ∧ (∀ ifc1, VSwitch.parse_tagged sscanf_u region ifc = (0, ifc1) →
          ∀ x ∈ VSwitch.tagged_set ifc1.tagged_vlans, 0 ≤ x ∧ x ≤ 4092) := by
  refine ⟨?_, ?_, ?_, ?_⟩
  · simp only [VSwitch.parse_untagged, hs, VSwitch.MAX_VLANS]
    by_cases h : n > 4092
    · simp [h]
    · simp [h]; omega
  · simp only [VSwitch.tagged_loop, hs, VSwitch.MAX_VLANS]
    by_cases h : n > 4092
    · simp [h]
    · simp [h]; omega
  · intro ifc1 h
    obtain ⟨tag, ht, hi⟩ := VSwitch.vs_parse_untagged_ok sscanf_u region ifc ifc1 h
    subst hi
    simp only
    omega
  · intro ifc1 h x hx
    obtain ⟨ids, hi, _, hb⟩ := VSwitch.vs_parse_tagged_ok sscanf_u region ifc ifc1 h
    subst hi
    simp only at hx
    rw [VSwitch.vs_tagged_set_terminated ids
      (fun y hy => by have := hb y hy; unfold VSwitch.NO_VLAN; omega)] at hx
    exact hb x hx

/-- C29 (amended) on the token `4092`. -/
theorem C29_vlan_id_range_witness :
    scan_digits "4092".data = some 4092
      ∧ (VSwitch.parse_untagged scan_digits (':' :: "4092".data) (VSwitch.main_ifc 1)).1 = 0 :=
  ⟨by decide,
    (C29_vlan_id_range scan_digits (VSwitch.main_ifc 1) "4092".data [] 4092
      (by decide)).1.2 (by decide)⟩

/-- C30. For every port record that a successful `parse_vlan_args` produces, no
VLAN id is both the untagged VLAN of the port and in its tagged set. The
specification is a plain `NAME`, a `NAME[T:...]` or a `NAME[U:...]`; a `T` port
has the untagged VLAN `NO_VLAN`, a `U` port and a plain port (untagged VLAN 0)
have an empty tagged set, and `tagged_vlans` holds `NO_VLAN` at an index of at
most 4092 with no `NO_VLAN` before it. -/
theorem C30_configuration_validity (sscanf_u : List Char → Option Nat) (arg : String)
    (ifc ifc1 : VSwitch.Interface)
    (h : VSwitch.parse_vlan_args sscanf_u arg ifc = (0, ifc1)) :
    (∀ v, ¬ (v = ifc1.untagged_vlan ∧ v ∈ VSwitch.tagged_set ifc1.tagged_vlans))
      ∧ (VSwitch.spec_kind arg = none ∨ VSwitch.spec_kind arg = some 'T'
        ∨ VSwitch.spec_kind arg = some 'U')
      ∧ (VSwitch.spec_kind arg = some 'T' → ifc1.untagged_vlan = VSwitch.NO_VLAN)
      ∧ (VSwitch.spec_kind arg = some 'U' → VSwitch.tagged_set ifc1.tagged_vlans = [])
      ∧ (VSwitch.spec_kind arg = none →
          ifc1.untagged_vlan = 0 ∧ VSwitch.tagged_set ifc1.tagged_vlans = [])
      ∧ (∃ ids, ifc1.tagged_vlans = ids ++ [VSwitch.NO_VLAN] ∧ ids.length ≤ 4092
          ∧ ∀ x ∈ ids, x ≠ VSwitch.NO_VLAN) := by
  have hempty : VSwitch.tagged_set [VSwitch.NO_VLAN] = [] := by decide
  rcases VSwitch.vs_parse_vlan_args_ok sscanf_u arg ifc ifc1 h with
    ⟨hk, hu, ht⟩ | ⟨hk, hu, ids, ht, hl, hb⟩ | ⟨hk, ht, _, _⟩
  · rw [ht, hempty]
    refine ⟨by simp, Or.inl hk, ?_, ?_, ?_, ⟨[], rfl, by simp, by simp⟩⟩
    · intro h2; rw [hk] at h2; simp at h2
    · intro _; rfl
    · intro _; exact ⟨hu, rfl⟩
  · have hne : ∀ x ∈ ids, x ≠ VSwitch.NO_VLAN := fun y hy => by
      have := hb y hy; unfold VSwitch.NO_VLAN; omega
    rw [ht, VSwitch.vs_tagged_set_terminated ids hne]
    refine ⟨?_, Or.inr (Or.inl hk), fun _ => hu, ?_, ?_, ⟨ids, rfl, hl, hne⟩⟩
    · rintro v ⟨hv, hm⟩
      exact hne v hm (hv.trans hu)
    · intro h2; rw [hk] at h2; simp at h2
    · intro h2; rw [hk] at h2; simp at h2
  · rw [ht, hempty]
    refine ⟨by simp, Or.inr (Or.inr hk), ?_, fun _ => rfl, ?_, ⟨[], rfl, by simp, by simp⟩⟩
    · intro h2; rw [hk] at h2; simp at h2
    · intro h2; rw [hk] at h2; simp at h2

/-- C30 on `eth1[T:10,20]`: the port has no untagged VLAN and the tagged set
`10, 20`, terminated at index 2. -/
theorem C30_configuration_validity_witness :
    VSwitch.parse_vlan_args scan_digits "eth1[T:10,20]" (VSwitch.main_ifc 2)
        = (0, ⟨MacAddress.zero, 2, "eth1", [10, 20, VSwitch.NO_VLAN], VSwitch.NO_VLAN⟩)
      ∧ ∀ v, ¬ (v = VSwitch.NO_VLAN
          ∧ v ∈ VSwitch.tagged_set [10, 20, VSwitch.NO_VLAN]) :=
  ⟨by decide,
    (C30_configuration_validity scan_digits "eth1[T:10,20]" (VSwitch.main_ifc 2)
      ⟨MacAddress.zero, 2, "eth1", [10, 20, VSwitch.NO_VLAN], VSwitch.NO_VLAN⟩
      (by decide)).1⟩

/-! ## arp.c: the MTU of a port -/

namespace Arp

theorem arp_parse_network_mtu (inet_pton : String → Option in_addr)
    (sscanf_u : List Char → Option Nat) (ifc : Interface) (net : List Char) :
    (parse_network inet_pton sscanf_u ifc net).2.mtu = ifc.mtu := by
  unfold parse_network
  split_ifs
  · rfl
  · cases cutAt '/' (net.drop 5) with
    | none => rfl
    | some r =>
      obtain ⟨ip, tok⟩ := r
      simp only
      cases inet_pton (String.mk ip) with
      | none => rfl
      | some a =>
        simp only
        cases sscanf_u tok with
        | none => rfl
        | some mask =>
          simp only
          split_ifs <;> rfl

theorem arp_parse_mtu_record (sscanf_u : List Char → Option Nat) (ifc : Interface)
    (arg : List Char) : (parse_mtu sscanf_u ifc arg).2 = ifc := by
  unfold parse_mtu
  split
  · rename_i rest
    cases sscanf_u rest with
    | none => rfl
    | some mtu =>
      simp only
      split_ifs <;> rfl
  · rfl

/-- Whatever the specification, `parse_cmd_arg` leaves the MTU of the port at
1500. -/
theorem arp_parse_cmd_arg_mtu (inet_pton : String → Option in_addr)
    (sscanf_u : List Char → Option Nat) (ifc : Interface) (arg : String) :
    (parse_cmd_arg inet_pton sscanf_u ifc arg).2.mtu = 1500 := by
  unfold parse_cmd_arg
  cases cutAt '[' arg.data with
  | none => rfl
  | some r =>
    obtain ⟨name, arg1⟩ := r
    simp only
    cases cutAt ']' arg1 with
    | none => rfl
    | some r2 =>
      obtain ⟨nspec, arg2⟩ := r2
      simp only
      split_ifs
      · rw [arp_parse_network_mtu]
      · rw [arp_parse_mtu_record, arp_parse_network_mtu]

end Arp

/-- C31 (defect in the code). `parse_cmd_arg` sets `ifc->mtu = 1500`, reads the
number after `=` into the local variable `mtu`, rejects it when it is below 400
and never stores it. For `eth0[IPV4:10.0.0.1/24]=576` parsing succeeds and the
MTU of the port is 1500, not 576: `forward_to` accepts a frame of 600 bytes on
that port and aborts only above 1500 bytes. The MTU is 1500 after every call,
also when `=M` is absent; `=399` is rejected. -/
theorem C31_parsed_mtu_is_not_stored :
    Arp.parse_cmd_arg Arp.pton_example scan_digits (Arp.main_ifc 1)
        "eth0[IPV4:10.0.0.1/24]=576"
        = (0, ⟨MacAddress.zero, ⟨10, 0, 0, 1⟩, ⟨255, 255, 255, 0⟩, "eth0", 1, 1500⟩)
      ∧ Arp.forward_to
          ⟨MacAddress.zero, ⟨10, 0, 0, 1⟩, ⟨255, 255, 255, 0⟩, "eth0", 1, 1500⟩
          (List.replicate 600 0) 600 ≠ .aborted
      ∧ Arp.forward_to
          ⟨MacAddress.zero, ⟨10, 0, 0, 1⟩, ⟨255, 255, 255, 0⟩, "eth0", 1, 1500⟩
          (List.replicate 1501 0) 1501 = .aborted
      ∧ Arp.parse_cmd_arg Arp.pton_example scan_digits (Arp.main_ifc 1)
          "eth0[IPV4:10.0.0.1/24]"
        = (0, ⟨MacAddress.zero, ⟨10, 0, 0, 1⟩, ⟨255, 255, 255, 0⟩, "eth0", 1, 1500⟩)
      ∧ (Arp.parse_cmd_arg Arp.pton_example scan_digits (Arp.main_ifc 1)
          "eth0[IPV4:10.0.0.1/24]=399").1 = 1
      ∧ ∀ (inet_pton : String → Option in_addr) (sscanf_u : List Char → Option Nat)
          (ifc : Arp.Interface) (arg : String),
          (Arp.parse_cmd_arg inet_pton sscanf_u ifc arg).2.mtu = 1500 :=
  ⟨by decide, by decide, by decide, by decide, by decide, Arp.arp_parse_cmd_arg_mtu⟩

/-! ## The address test of the flood loops -/

namespace VSwitch

theorem vs_filter_ne_eq_eraseIdx (l : List Interface) :
    ∀ (i : Nat), i < l.length → (l.map (fun g => g.mac)).Nodup →
      l.filter (fun g => decide (g.mac ≠ (l.getD i default).mac)) = l.eraseIdx i := by
  induction l with
  | nil => intro i hi; simp at hi
  | cons a l ih =>
    intro i hi hnd
    rw [List.map_cons, List.nodup_cons] at hnd
    cases i with
    | zero =>
      simp only [List.getD_cons_zero, List.eraseIdx_cons_zero]
      rw [List.filter_cons]
      simp only [ne_eq, not_true_eq_false, decide_False, Bool.false_eq_true, ↓reduceIte]
      rw [List.filter_eq_self]
      intro g hg
      simp only [ne_eq, decide_not, Bool.not_eq_eq_eq_not, Bool.not_true, decide_eq_false_iff_not]
      intro heq
      exact hnd.1 (heq ▸ List.mem_map_of_mem (fun g => g.mac) hg)
    | succ i =>
      simp only [List.length_cons, Nat.add_lt_add_iff_right] at hi
      simp only [List.getD_cons_succ, List.eraseIdx_cons_succ]
      rw [List.filter_cons]
      have hne : a.mac ≠ (l.getD i default).mac := by
        intro heq
        apply hnd.1
        rw [heq, List.getD_eq_getElem l default hi]
        exact List.mem_map_of_mem (fun g => g.mac) (List.getElem_mem hi)
      simp only [ne_eq, hne, not_false_eq_true, decide_True, ↓reduceIte]
      rw [← ih i hi hnd.2]

end VSwitch

/-- C32, as stated, fails for the vswitch: with pairwise distinct port addresses
the ingress port is not the only port its flood skips. On a trunk of VLANs 10
and 20 (port 1) and access ports of VLAN 20 (port 2) and VLAN 10 (port 3), the
frame tagged with VLAN 20 received on port 1 with an empty table is flooded to
port 2 only: port 3 passes the address test and is skipped by the VLAN rule. -/
theorem C32_counterexample :
    (VSwitch.ports3.map (fun g => g.mac)).Nodup
      ∧ (VSwitch.parse_frame (VSwitch.start VSwitch.ports3) 0 VSwitch.frameTagged20
          VSwitch.mem12).2
        = [[0, 20, 0, 2] ++ (VSwitch.frameTagged20.take 12
            ++ VSwitch.frameTagged20.drop 16)]
      ∧ (VSwitch.State.ifc (VSwitch.start VSwitch.ports3) 2).mac
        ≠ (VSwitch.State.ifc (VSwitch.start VSwitch.ports3) 0).mac
      ∧ VSwitch.floodOne (VSwitch.start VSwitch.ports3) 0
          (VSwitch.readHeader VSwitch.frameTagged20) VSwitch.frameTagged20
          (VSwitch.State.ifc (VSwitch.start VSwitch.ports3) 2) = [] := by
  decide

/-- C32 (amended). The flood loop of the plain switch writes one copy for exactly
the ports whose hardware address differs from that of the ingress port. The
flood loop of the vswitch runs its body (the egress VLAN rule, which may write a
copy or nothing) for exactly those ports. In both tools, when the port
addresses are pairwise distinct the ingress port is the only port left out by
the address test, and when every port has the address of the ingress port a
flood writes nothing at all. -/
theorem C32_flood_exclusion_by_address (s : Switch.State) (ifc : Nat) (frame : List Nat)
    (v : VSwitch.State) (vifc : Nat) (vframe : List Nat) :
    (Switch.flood s ifc frame
        = (s.gifc.filter (fun g => decide (g.mac ≠ (s.ifc ifc).mac))).map
            (fun g => Switch.forward_to g frame frame.length)
      ∧ (ifc < s.gifc.length → (s.gifc.map (fun g => g.mac)).Nodup →
          Switch.flood s ifc frame
            = (s.gifc.eraseIdx ifc).map (fun g => Switch.forward_to g frame frame.length))
      ∧ ((∀ g ∈ s.gifc, g.mac = (s.ifc ifc).mac) → Switch.flood s ifc frame = []))
    ∧ (VSwitch.flood v vifc (VSwitch.readHeader vframe) vframe
        = ((v.gifc.filter (fun g => decide (g.mac ≠ (v.ifc vifc).mac))).map
            (VSwitch.floodBody v vifc (VSwitch.readHeader vframe) vframe)).flatten
      ∧ (vifc < v.gifc.length → (v.gifc.map (fun g => g.mac)).Nodup →
          VSwitch.flood v vifc (VSwitch.readHeader vframe) vframe
            = ((v.gifc.eraseIdx vifc).map
                (VSwitch.floodBody v vifc (VSwitch.readHeader vframe) vframe)).flatten)
      ∧ ((∀ g ∈ v.gifc, g.mac = (v.ifc vifc).mac) →
          VSwitch.flood v vifc (VSwitch.readHeader vframe) vframe = [])) := by
  refine ⟨⟨Switch.flood_eq s ifc frame, ?_, ?_⟩, ⟨VSwitch.vs_flood_eq v vifc _ vframe, ?_, ?_⟩⟩
  · intro hi hnd
    rw [Switch.flood_eq]
    have := Switch.filter_ne_eq_eraseIdx s.gifc ifc hi hnd
    simp only [Switch.State.ifc]
    rw [this]
  · intro hall
    rw [Switch.flood_eq]
    have : s.gifc.filter (fun g => decide (g.mac ≠ (s.ifc ifc).mac)) = [] := by
      rw [List.filter_eq_nil_iff]
      intro g hg
      simp [hall g hg]
    rw [this]
    rfl
  · intro hi hnd
    rw [VSwitch.vs_flood_eq]
    have := VSwitch.vs_filter_ne_eq_eraseIdx v.gifc vifc hi hnd
    simp only [VSwitch.State.ifc] at this ⊢
    rw [this]
  · intro hall
    rw [VSwitch.vs_flood_eq]
    have : v.gifc.filter (fun g => decide (g.mac ≠ (v.ifc vifc).mac)) = [] := by
      rw [List.filter_eq_nil_iff]
      intro g hg
      simp [hall g hg]
    rw [this]
    rfl

/-- C32 (amended) on three ports of the plain switch: with the all-zero
addresses that `main` leaves, the flood of host A's broadcast from port 1
writes nothing; with distinct addresses it writes to ports 2 and 3. On two
vswitch ports given as plain names and still all-zero, the flood writes
nothing either. -/
theorem C32_flood_exclusion_by_address_witness :
    Switch.flood (Switch.start (Switch.main_ifc 3)) 0 Switch.frameAtoAll = []
      ∧ Switch.flood (Switch.start Switch.ports3) 0 Switch.frameAtoAll
        = [[0, 18, 0, 2] ++ Switch.frameAtoAll, [0, 18, 0, 3] ++ Switch.frameAtoAll]
      ∧ VSwitch.flood
          ⟨[⟨MacAddress.zero, 1, "eth0", [VSwitch.NO_VLAN], 0⟩,
            ⟨MacAddress.zero, 2, "eth1", [VSwitch.NO_VLAN], 0⟩], []⟩ 0
          (VSwitch.readHeader VSwitch.frameAtoAll) VSwitch.frameAtoAll = [] :=
  have h := C32_flood_exclusion_by_address (Switch.start (Switch.main_ifc 3)) 0
    Switch.frameAtoAll
    ⟨[⟨MacAddress.zero, 1, "eth0", [VSwitch.NO_VLAN], 0⟩,
      ⟨MacAddress.zero, 2, "eth1", [VSwitch.NO_VLAN], 0⟩], []⟩ 0 VSwitch.frameAtoAll
  have h2 := C32_flood_exclusion_by_address (Switch.start Switch.ports3) 0
    Switch.frameAtoAll (VSwitch.start VSwitch.ports3) 0 VSwitch.frameAtoAll
  ⟨h.1.2.2 (by decide), (h2.1.2.1 (by decide) (by decide)).trans (by decide),
    h.2.2.2 (by decide)⟩
